import Mathlib

/-!
Shallow embedding of the `eon` client package of go-eon.

The development follows the Go sources under `eon/`:

* `errors.go`      — the package error values and `apiError`;
* `auth.go`        — `authenticate`, `GetAccessToken`;
* `installations.go`, `measurements.go`, `costs.go` — the resource operations.

Go values are embedded as follows.

* `error` is `Option GoError`; `none` is the nil error.
* `int` is `Int`, taken to be 64 bits wide as on the usual platforms; where the
  source computes in `int` or `int64` the wrap-around is written out with `wrap64`.
* `time.Time` is an instant counted in nanoseconds together with the offset of its
  location at that instant, `time.Duration` a number of nanoseconds.
* A slice is `Option (List α)`; `none` is the nil slice.
* The network and the clock are inputs: every operation receives the answers
  the outside world gives to the calls it makes, and returns, next to its Go
  results, the new client value and the list of network calls it made.
-/

namespace Eon

/-! ## Errors (`errors.go`) -/

/-- The six package-level error variables of `errors.go`. Each is created once by
`errors.New`, so it is identified by the variable, not by its text. -/
inductive ErrVar where
  | Unauthorized
  | NotFound
  | BadRequest
  | TooManyRequests
  | ServerError
  | NoContent
  deriving DecidableEq, Repr

/-- Text given to `errors.New` for each package-level error variable. -/
def ErrVar.text : ErrVar → String
  | .Unauthorized => "unauthorized - check client credentials"
  | .NotFound => "resource not found"
  | .BadRequest => "bad request - check parameters"
  | .TooManyRequests => "too many requests - rate limit exceeded"
  | .ServerError => "server error"
  | .NoContent => "no content available"

/-- The double quote character. -/
def dquote : Char := Char.ofNat 34

/-- The backslash character. -/
def backslash : Char := Char.ofNat 92

/-- Function `quote` of package `time`: the text between double quotes, with quotes
and backslashes escaped and the bytes of control and non-ASCII characters written in
hexadecimal. -/
def quote (s : List Char) : List Char :=
  dquote :: (s.flatMap (fun c =>
    if 128 ≤ c.toNat ∨ c.toNat < 32 then
      (String.utf8EncodeChar c).flatMap (fun b =>
        [backslash, 'x', "0123456789abcdef".data.getD (b.toNat / 16) '0',
          "0123456789abcdef".data.getD (b.toNat % 16) '0'])
    else if c = dquote ∨ c = backslash then [backslash, c]
    else [c]) ++ [dquote])

/-- Go error values that occur in the package.

* `pkg v`: one of the package-level variables;
* `errorString msg`: a value freshly made by `fmt.Errorf` without `%w`;
* `wrapError msg err`: a value made by `fmt.Errorf` with one `%w` operand `err`;
* `transport msg`: an error handed back by the HTTP library;
* `parseError ..`: a `*time.ParseError` with its five fields. -/
inductive GoError where
  | pkg (v : ErrVar)
  | errorString (msg : String)
  | wrapError (msg : String) (err : GoError)
  | transport (msg : String)
  | parseError (Layout Value LayoutElem ValueElem Message : String)
  deriving DecidableEq, Repr

/-- Method `Error()`. -/
def GoError.Error : GoError → String
  | .pkg v => v.text
  | .errorString msg => msg
  | .wrapError msg _ => msg
  | .transport msg => msg
  | .parseError layout value layoutElem valueElem message =>
      if message = "" then
        "parsing time " ++ String.mk (quote value.data) ++ " as "
          ++ String.mk (quote layout.data) ++ ": cannot parse "
          ++ String.mk (quote valueElem.data) ++ " as " ++ String.mk (quote layoutElem.data)
      else "parsing time " ++ String.mk (quote value.data) ++ message

/-- Method `Unwrap()`: only a `%w` value has a wrapped error. -/
def GoError.Unwrap : GoError → Option GoError
  | .wrapError _ err => some err
  | _ => none

/-- Function `errors.Is(err, target)`: `target` is found along the `Unwrap` chain of `err`. -/
def errorsIs : GoError → GoError → Bool
  | .wrapError msg err, target =>
      decide (GoError.wrapError msg err = target) || errorsIs err target
  | e, target => decide (e = target)

def ErrorUnauthorized : GoError := .pkg .Unauthorized
def ErrorNotFound : GoError := .pkg .NotFound
def ErrorBadRequest : GoError := .pkg .BadRequest
def ErrorTooManyRequests : GoError := .pkg .TooManyRequests
def ErrorServerError : GoError := .pkg .ServerError
def ErrorNoContent : GoError := .pkg .NoContent

/-- The verb `%d` of `fmt` on an `int`: decimal digits, with a leading `-` when negative. -/
def fmtD : Int → String
  | Int.ofNat n => Nat.repr n
  | Int.negSucc n => "-" ++ Nat.repr (n + 1)

/-- Function `apiError` of `errors.go`: maps HTTP status codes to errors. -/
def apiError (statusCode : Int) : Option GoError :=
  if statusCode = 200 then none
  else if statusCode = 204 then some ErrorNoContent
  else if statusCode = 400 then some ErrorBadRequest
  else if statusCode = 401 then some ErrorUnauthorized
  else if statusCode = 404 then some ErrorNotFound
  else if statusCode = 429 then some ErrorTooManyRequests
  else if statusCode = 500 then some ErrorServerError
  else some (.errorString ("unexpected status code: " ++ fmtD statusCode))

/-- Substring test on texts, as `strings.Contains(s, sub)`. -/
def Contains (s sub : String) : Prop := sub.data <:+: s.data

instance (s sub : String) : Decidable (Contains s sub) := by
  unfold Contains; infer_instance

/-! ## Time and machine integers -/

/-- A `time.Time`: the instant it denotes, `nsec` nanoseconds elapsed since the zero
time `time.Time{}` (January 1, year 1, 00:00:00 UTC), and `offset`, the number of
seconds east of UTC that its location has at that instant. -/
structure Time where
  nsec : Int
  offset : Int
  deriving DecidableEq, Repr

/-- A `time.Duration`: a count of nanoseconds, an `int64` in Go. -/
abbrev Duration := Int

/-- The constant `time.Second`. -/
def Second : Duration := 1000000000

/-- Two's-complement wrap-around of `int64` arithmetic. -/
def wrap64 (x : Int) : Int := (x + 2 ^ 63) % 2 ^ 64 - 2 ^ 63

/-- Method `t.After(u)`: the instant `t` is strictly later than `u`. -/
def Time.After (t u : Time) : Bool := decide (u.nsec < t.nsec)

/-- Method `t.Before(u)`: the instant `t` is strictly earlier than `u`. -/
def Time.Before (t u : Time) : Bool := decide (t.nsec < u.nsec)

/-- Method `t.Add(d)`: the instant moves by `d`, the location is kept (its offset is
taken to be the same at the new instant). -/
def Time.Add (t : Time) (d : Duration) : Time := ⟨t.nsec + d, t.offset⟩

/-- Method `t.IsZero()`. -/
def Time.IsZero (t : Time) : Bool := decide (t.nsec = 0)

/-! ## The calendar (package `time` of the standard library) -/

/-- Function `isLeap` of package `time`. -/
def isLeap (year : Int) : Bool :=
  year % 4 = 0 && (year % 100 != 0 || year % 400 = 0)

/-- Table `daysBefore` of package `time`: `daysBefore m` counts the days of a non-leap
year before month `m + 1` starts. -/
def daysBefore : Nat → Int
  | 0 => 0
  | 1 => 31
  | 2 => 59
  | 3 => 90
  | 4 => 120
  | 5 => 151
  | 6 => 181
  | 7 => 212
  | 8 => 243
  | 9 => 273
  | 10 => 304
  | 11 => 334
  | _ => 365

/-- Function `daysIn` of package `time`: the number of days of a month (1 to 12). -/
def daysIn (month : Nat) (year : Int) : Int :=
  if month = 2 ∧ isLeap year = true then 29
  else daysBefore month - daysBefore (month - 1)

/-- Function `daysSinceEpoch` of package `time`: the days from January 1 of year 1 to
January 1 of `year`, by 400-, 100- and 4-year cycles. The library counts from an
absolute zero year that is 1 modulo 400; counting from year 1 gives the same
cycles. -/
def daysSinceEpoch (year : Int) : Int :=
  let y := year - 1
  let n400 := y / 400
  let y1 := y - 400 * n400
  let n100 := y1 / 100
  let y2 := y1 - 100 * n100
  let n4 := y2 / 4
  let y3 := y2 - 4 * n4
  146097 * n400 + 36524 * n100 + 1461 * n4 + 365 * y3

/-- Days from January 1 of year 1 to the given date, as `Date` of package `time`
computes them for a month in 1..12. -/
def dateToDays (year : Int) (month : Nat) (day : Int) : Int :=
  daysSinceEpoch year + daysBefore (month - 1)
    + (if isLeap year = true ∧ 3 ≤ month then 1 else 0) + (day - 1)

/-- Year and zero-based day of the year of a day count, as `absDate` of package `time`. -/
def yearDay (days : Int) : Int × Int :=
  let n400 := days / 146097
  let d1 := days - 146097 * n400
  let c := d1 / 36524
  let n100 := c - c / 4
  let d2 := d1 - 36524 * n100
  let n4 := d2 / 1461
  let d3 := d2 - 1461 * n4
  let q := d3 / 365
  let n1 := q - q / 4
  (400 * n400 + 100 * n100 + 4 * n4 + n1 + 1, d3 - 365 * n1)

/-- Month (1 to 12) and day of the month of a zero-based day of a year without leap day,
as `absDate` of package `time`: the month is estimated on the assumption that every
month has 31 days, and the estimate, too low by at most one, is adjusted. -/
def monthOf (day : Int) : Nat × Int :=
  let month := (day / 31).toNat
  if day ≥ daysBefore (month + 1) then (month + 2, day - daysBefore (month + 1) + 1)
  else (month + 1, day - daysBefore month + 1)

/-- Month (1 to 12) and day of the month of a zero-based day of the year, as `absDate`
of package `time`. -/
def monthDay (year : Int) (yday : Int) : Nat × Int :=
  if isLeap year = true ∧ yday = 31 + 29 - 1 then (2, 29)
  else monthOf (if isLeap year = true ∧ yday > 31 + 29 - 1 then yday - 1 else yday)

/-- Year, month and day of a day count (`Time.Date`). -/
def civil (days : Int) : Int × Nat × Int :=
  let yd := yearDay days
  let md := monthDay yd.1 yd.2
  (yd.1, md.1, md.2)

/-! ## Texts of times (`Format` and `Parse` of package `time`) -/

/-- A decimal digit (`'0' <= c && c <= '9'`). -/
def isDigit (c : Char) : Bool := decide (48 ≤ c.toNat ∧ c.toNat ≤ 57)

/-- Value of a decimal digit (`c - '0'`). -/
def digitVal (c : Char) : Nat := c.toNat - 48

/-- The decimal digit of a number below ten. -/
def digitChar : Nat → Char
  | 0 => '0'
  | 1 => '1'
  | 2 => '2'
  | 3 => '3'
  | 4 => '4'
  | 5 => '5'
  | 6 => '6'
  | 7 => '7'
  | 8 => '8'
  | _ => '9'

/-- Value of a string of decimal digits. -/
def digitsVal (cs : List Char) : Nat := cs.foldl (fun acc c => 10 * acc + digitVal c) 0

/-- Function `appendInt` of package `time`: the decimal form of `x`, with a leading `-`
when negative, padded with zeros to `width` digits. Two- and four-digit fields are
written out directly, as in the library. -/
def appendInt (x : Int) (width : Nat) : List Char :=
  let u := x.natAbs
  let sign : List Char := if x < 0 then ['-'] else []
  if width = 2 ∧ u < 100 then sign ++ [digitChar (u / 10), digitChar (u % 10)]
  else if width = 4 ∧ u < 10000 then
    sign ++ [digitChar (u / 1000), digitChar (u / 100 % 10), digitChar (u / 10 % 10),
      digitChar (u % 10)]
  else
    sign ++ List.replicate (width - (Nat.toDigits 10 u).length) '0' ++ Nat.toDigits 10 u

/-- Go's `/` on integers for a positive divisor: the quotient truncated toward zero. -/
def quo (a b : Int) : Int := if 0 ≤ a then a / b else -((-a) / b)

/-- Seconds elapsed since the zero time on the wall clock of the time's location
(`t.abs()` of package `time`, counted from the zero time). -/
def Time.abs (t : Time) : Int := t.nsec / 1000000000 + t.offset

/-- Method `t.Nanosecond()`. -/
def Time.Nanosecond (t : Time) : Int := t.nsec % 1000000000

/-- Method `t.Year()`. -/
def Time.Year (t : Time) : Int := (civil (t.abs / 86400)).1

/-- Method `t.Month()`, as a number from 1 to 12. -/
def Time.Month (t : Time) : Nat := (civil (t.abs / 86400)).2.1

/-- Method `t.Day()`. -/
def Time.Day (t : Time) : Int := (civil (t.abs / 86400)).2.2

/-- Method `t.Hour()`. -/
def Time.Hour (t : Time) : Int := t.abs % 86400 / 3600

/-- Method `t.Minute()`. -/
def Time.Minute (t : Time) : Int := t.abs % 3600 / 60

/-- Method `t.Second()`. -/
def Time.Second (t : Time) : Int := t.abs % 60

/-- The layout elements of package `time` that occur in the layouts this package uses:
`2006`, `01`, `02`, `15`, `04`, `05`, `Z07:00`, and a fractional second written
with `n` zeros or `n` nines. -/
inductive Std where
  | stdLongYear
  | stdZeroMonth
  | stdZeroDay
  | stdHour
  | stdZeroMinute
  | stdZeroSecond
  | stdISO8601ColonTZ
  | stdFracSecond0 (n : Nat)
  | stdFracSecond9 (n : Nat)
  deriving DecidableEq, Repr

/-- One step of a layout: the literal text before a layout element, the element, and
the text of the element in the layout. -/
structure Chunk where
  pre : List Char
  std : Std
  text : List Char
  deriving DecidableEq, Repr

/-- Number of leading characters equal to `c`. -/
def countRun (c : Char) : List Char → Nat
  | [] => 0
  | d :: rest => if d = c then countRun c rest + 1 else 0

/-- The layout element that starts a layout text, with its length, following
`nextStdChunk` of package `time` for the elements of `Std`. A fractional second is a
separator followed by a run of zeros or of nines that no digit follows. -/
def stdAt (layout : List Char) : Option (Std × Nat) :=
  match layout with
  | '2' :: '0' :: '0' :: '6' :: _ => some (.stdLongYear, 4)
  | '0' :: '1' :: _ => some (.stdZeroMonth, 2)
  | '0' :: '2' :: _ => some (.stdZeroDay, 2)
  | '0' :: '4' :: _ => some (.stdZeroMinute, 2)
  | '0' :: '5' :: _ => some (.stdZeroSecond, 2)
  | '1' :: '5' :: _ => some (.stdHour, 2)
  | 'Z' :: '0' :: '7' :: ':' :: '0' :: '0' :: _ => some (.stdISO8601ColonTZ, 6)
  | sep :: d :: rest =>
      if (sep = '.' ∨ sep = ',') ∧ (d = '0' ∨ d = '9') then
        let n := countRun d rest + 1
        match (rest.drop (n - 1)).head? with
        | some c =>
            if isDigit c then none
            else some (if d = '0' then .stdFracSecond0 n else .stdFracSecond9 n, n + 1)
        | none => some (if d = '0' then .stdFracSecond0 n else .stdFracSecond9 n, n + 1)
      else none
  | _ => none

/-- Splits a layout into its chunks and the literal text after the last element, as
the repeated calls of `nextStdChunk` do. `skip` counts the characters of the element
being passed over, `acc` holds the literal text read so far, reversed. -/
def scanLayout : List Char → Nat → List Char → List Chunk × List Char
  | [], _, acc => ([], acc.reverse)
  | _ :: rest, skip + 1, acc => scanLayout rest skip acc
  | c :: rest, 0, acc =>
      match stdAt (c :: rest) with
      | some (std, len) =>
          let r := scanLayout rest (len - 1) []
          (⟨acc.reverse, std, (c :: rest).take len⟩ :: r.1, r.2)
      | none => scanLayout rest 0 (c :: acc)

/-- Function `appendNano` of package `time`: the fractional second with `n` digits;
with `trim` (a run of nines in the layout) trailing zeros and a bare separator are
removed. -/
def appendNano (nanosec : Int) (n : Nat) (trim : Bool) : List Char :=
  if trim ∧ (n = 0 ∨ nanosec = 0) then []
  else
    let digits := (appendInt nanosec 9).take n
    if trim then
      let kept := (digits.reverse.dropWhile (fun c => c == '0')).reverse
      if kept = [] then [] else '.' :: kept
    else '.' :: digits

/-- The text of one layout element for the time `t` (one case of `appendFormat`). -/
def formatStd (t : Time) : Std → List Char
  | .stdLongYear => appendInt t.Year 4
  | .stdZeroMonth => appendInt t.Month 2
  | .stdZeroDay => appendInt t.Day 2
  | .stdHour => appendInt t.Hour 2
  | .stdZeroMinute => appendInt t.Minute 2
  | .stdZeroSecond => appendInt t.Second 2
  | .stdISO8601ColonTZ =>
      if t.offset = 0 then ['Z']
      else
        let zone := quo t.offset 60
        if zone < 0 then
          '-' :: (appendInt (quo (-zone) 60) 2 ++ ':' :: appendInt ((-zone) % 60) 2)
        else '+' :: (appendInt (quo zone 60) 2 ++ ':' :: appendInt (zone % 60) 2)
  | .stdFracSecond0 n => appendNano t.Nanosecond n false
  | .stdFracSecond9 n => appendNano t.Nanosecond n true

/-- Method `t.Format(layout)` of package `time`, for layouts made of literal text and
the elements of `Std`. -/
def Time.Format (t : Time) (layout : String) : String :=
  let r := scanLayout layout.data 0 []
  String.mk (r.1.flatMap (fun k => k.pre ++ formatStd t k.std) ++ r.2)

/-- The constant `time.RFC3339`. -/
def RFC3339 : String := "2006-01-02T15:04:05Z07:00"

/-- The constant `time.RFC3339Nano`. -/
def RFC3339Nano : String := "2006-01-02T15:04:05.999999999Z07:00"

/-- The fields `Parse` of package `time` collects while it reads a value: `z` tells
that the zone `Z` (UTC) was read, `zoneOffset` is `-1` until an offset is read. -/
structure Fields where
  year : Int
  month : Int
  day : Int
  hour : Int
  min : Int
  sec : Int
  nsec : Int
  z : Bool
  zoneOffset : Int
  deriving DecidableEq, Repr

/-- The initial values of the fields in `Parse`. -/
def Fields.init : Fields := ⟨0, -1, -1, 0, 0, 0, 0, false, -1⟩

/-- Outcome of reading one layout element: the fields and the rest of the value, or
`errBad`, or a range error named `what` with the rest of the value. -/
inductive Step where
  | ok (f : Fields) (value : List Char)
  | bad
  | range (what : String) (value : List Char)

/-- Function `getnum` of package `time`: a number of one or two digits; with `fixed`
it must have two digits. -/
def getnum (s : List Char) (fixed : Bool) : Option (Int × List Char) :=
  match s with
  | [] => none
  | c0 :: r0 =>
    if isDigit c0 then
      match r0 with
      | [] => if fixed then none else some (digitVal c0, [])
      | c1 :: r1 =>
        if isDigit c1 then some (digitVal c0 * 10 + digitVal c1, r1)
        else if fixed then none else some (digitVal c0, c1 :: r1)
    else none

/-- Function `atoi` of package `time`: an optional sign followed by digits only. -/
def atoi (s : List Char) : Option Int :=
  match s with
  | '-' :: r => if r.all isDigit then some (-(digitsVal r : Int)) else none
  | '+' :: r => if r.all isDigit then some (digitsVal r : Int) else none
  | r => if r.all isDigit then some (digitsVal r : Int) else none

/-- Function `commaOrPeriod` of package `time`. -/
def commaOrPeriod (c : Char) : Bool := c = '.' || c = ','

/-- Function `parseNanoseconds` of package `time`: the first `nbytes` characters of
`value` are a separator and digits; the digits, at most nine of them, are scaled to
nanoseconds. `none` is `errBad`, `some (Except.error _)` the range error. -/
def parseNanoseconds (value : List Char) (nbytes : Nat) : Option (Except String Int) :=
  match value with
  | [] => none
  | c :: _ =>
    if commaOrPeriod c then
      let nb := if nbytes > 10 then 10 else nbytes
      match atoi ((value.take nb).drop 1) with
      | none => none
      | some ns =>
          if ns < 0 then some (.error "fractional second")
          else some (.ok (ns * 10 ^ (10 - nb)))
    else none

/-- Reads a numeric zone offset of the form `±hh:mm` (the case `stdISO8601ColonTZ` of
`Parse` after the test for `Z`). As in `Parse`, `getnum` leaves 0 when it fails and the
minutes are read only when the hours were; of the two range tests the later one, on the
minutes, decides the message; a range error is reported before `errBad`. -/
def parseColonTZ (f : Fields) (value : List Char) : Step :=
  match value with
  | sign :: h0 :: h1 :: c :: m0 :: m1 :: rest =>
    if c = ':' then
      let hour := getnum [h0, h1] true
      let min := match hour with
        | some _ => getnum [m0, m1] true
        | none => none
      let hr : Int := match hour with
        | some (n, _) => n
        | none => 0
      let mm : Int := match min with
        | some (n, _) => n
        | none => 0
      if mm > 60 then .range "time zone offset minute" rest
      else if hr > 24 then .range "time zone offset hour" rest
      else if min.isNone ∨ ¬ (sign = '+' ∨ sign = '-') then .bad
      else
        .ok { f with zoneOffset := if sign = '-' then -((hr * 60 + mm) * 60)
                                   else (hr * 60 + mm) * 60 } rest
    else .bad
  | _ => .bad

/-- Reads the value of one layout element (one case of the `switch` in `Parse`);
`next` is the element that follows in the layout, if any. -/
def parseStd (std : Std) (next : Option Std) (f : Fields) (value : List Char) : Step :=
  match std with
  | .stdLongYear =>
      if value.length < 4 ∨ (value.head?.map isDigit).getD false = false then .bad
      else
        match atoi (value.take 4) with
        | some y => .ok { f with year := y } (value.drop 4)
        | none => .bad
  | .stdZeroMonth =>
      match getnum value true with
      | some (m, rest) =>
          if m ≤ 0 ∨ 12 < m then .range "month" rest else .ok { f with month := m } rest
      | none => .bad
  | .stdZeroDay =>
      match getnum value true with
      | some (d, rest) => .ok { f with day := d } rest
      | none => .bad
  | .stdHour =>
      match getnum value false with
      | some (h, rest) =>
          if h < 0 ∨ 24 ≤ h then .range "hour" rest else .ok { f with hour := h } rest
      | none => .bad
  | .stdZeroMinute =>
      match getnum value true with
      | some (m, rest) =>
          if m < 0 ∨ 60 ≤ m then .range "minute" rest else .ok { f with min := m } rest
      | none => .bad
  | .stdZeroSecond =>
      match getnum value true with
      | some (s, rest) =>
          if s < 0 ∨ 60 ≤ s then .range "second" rest
          else
            match rest with
            | c :: d :: _ =>
              if commaOrPeriod c ∧ isDigit d then
                match next with
                | some (.stdFracSecond0 _) => .ok { f with sec := s } rest
                | some (.stdFracSecond9 _) => .ok { f with sec := s } rest
                | _ =>
                  let n := 1 + ((rest.drop 1).takeWhile isDigit).length
                  match parseNanoseconds rest n with
                  | none => .bad
                  | some (.error what) => .range what (rest.drop n)
                  | some (.ok ns) => .ok { f with sec := s, nsec := ns } (rest.drop n)
              else .ok { f with sec := s } rest
            | _ => .ok { f with sec := s } rest
      | none => .bad
  | .stdISO8601ColonTZ =>
      match value with
      | 'Z' :: rest => .ok { f with z := true } rest
      | _ => parseColonTZ f value
  | .stdFracSecond0 n =>
      if value.length < 1 + n then .bad
      else
        match parseNanoseconds value (1 + n) with
        | none => .bad
        | some (.error what) => .range what (value.drop (1 + n))
        | some (.ok ns) => .ok { f with nsec := ns } (value.drop (1 + n))
  | .stdFracSecond9 _ =>
      match value with
      | c :: d :: _ =>
        if commaOrPeriod c ∧ isDigit d then
          let n := 1 + ((value.drop 1).takeWhile isDigit).length
          match parseNanoseconds value n with
          | none => .bad
          | some (.error what) => .range what (value.drop n)
          | some (.ok ns) => .ok { f with nsec := ns } (value.drop n)
        else .ok f value
      | _ => .ok f value

/-- Function `skip` of package `time`: removes the literal text `pre` from the front
of `value`; a space in `pre` stands for any run of spaces. On a mismatch the value
left at that point is returned as the error. `afterSpace` tells that a space of `pre`
has just been handled. -/
def skip : List Char → List Char → Bool → Except (List Char) (List Char)
  | [], value, _ => .ok value
  | c :: pr, value, afterSpace =>
    if c = ' ' then
      if afterSpace then skip pr value true
      else
        match value with
        | v :: _ => if v ≠ ' ' then .error value
                    else skip pr (value.dropWhile (fun x => x == ' ')) true
        | [] => skip pr [] true
    else
      match value with
      | v :: vs => if v = c then skip pr vs false else .error value
      | [] => .error value

/-- What `Parse` reports on failure: the layout element, the value text at the point
of failure, and the message (the fields `LayoutElem`, `ValueElem` and `Message` of a
`time.ParseError`). -/
structure Failure where
  LayoutElem : List Char
  ValueElem : List Char
  Message : List Char
  deriving DecidableEq, Repr

/-- The loop of `Parse` over the chunks of the layout; `tail` is the literal text after
the last element, after which the value must be exhausted. -/
def parseLoop : List Chunk → List Char → Fields → List Char → Except Failure Fields
  | [], tail, f, value =>
    match skip tail value false with
    | .error v => .error ⟨tail, v, []⟩
    | .ok v =>
      if v = [] then .ok f
      else .error ⟨[], v, ": extra text: ".data ++ quote v⟩
  | k :: rest, tail, f, value =>
    match skip k.pre value false with
    | .error v => .error ⟨k.pre, v, []⟩
    | .ok v =>
      match parseStd k.std (rest.head?.map (fun k1 => k1.std)) f v with
      | .ok f1 v1 => parseLoop rest tail f1 v1
      | .bad => .error ⟨k.text, v, []⟩
      | .range what v1 => .error ⟨k.text, v1, ": ".data ++ what.data ++ " out of range".data⟩

/-- Function `Date` of package `time` for fields that are in range, in UTC shifted by
`zoneOffset` seconds: the instant, in nanoseconds since the zero time. -/
def dateNsec (f : Fields) (zoneOffset : Int) : Int :=
  ((dateToDays f.year f.month.toNat f.day * 86400 + f.hour * 3600 + f.min * 60 + f.sec)
      - zoneOffset) * 1000000000 + f.nsec

/-- Function `time.Parse(layout, value)`, for layouts made of literal text and the
elements of `Std`. A value without zone information is in UTC; a value with a
numeric offset keeps that offset. -/
def Parse (layout value : String) : Except GoError Time :=
  let r := scanLayout layout.data 0 []
  match parseLoop r.1 r.2 Fields.init value.data with
  | .error e =>
      .error (.parseError layout value (String.mk e.LayoutElem) (String.mk e.ValueElem)
        (String.mk e.Message))
  | .ok f0 =>
    let f : Fields :=
      { f0 with month := if f0.month < 0 then 1 else f0.month,
                day := if f0.day < 0 then 1 else f0.day }
    if f.day < 1 ∨ daysIn f.month.toNat f.year < f.day then
      .error (.parseError layout value "" "" ": day out of range")
    else if f.z then .ok ⟨dateNsec f 0, 0⟩
    else if f.zoneOffset ≠ -1 then .ok ⟨dateNsec f f.zoneOffset, f.zoneOffset⟩
    else .ok ⟨dateNsec f 0, 0⟩

/-! ## The client and the outside world (`eon.go`, `constvars.go`) -/

def tokenEndpoint : String := "https://navigator-api.eon.se/connect/token"
def apiBaseURL : String := "https://navigator-api.eon.se/api"

/-- The struct `client` of `eon.go`. Its `resty` handle, which only fixes the base
URL, is represented by the `http` argument of the resource operations. -/
structure client where
  clientID : String
  clientSecret : String
  accessToken : String
  tokenExpiry : Time
  deriving DecidableEq, Repr

/-- The struct `OAuth2TokenResponse` of `auth.go`. -/
structure OAuth2TokenResponse where
  AccessToken : String
  TokenType : String
  ExpiresIn : Int
  Scope : String
  deriving DecidableEq, Repr

/-- What the code reads from a `*resty.Response`, together with the value the
library left in the variable registered by `SetResult`:
`StatusCode` is `res.StatusCode()`, `Body` is `res.String()`. -/
structure Response (α : Type) where
  StatusCode : Int
  Body : String
  Result : α

/-- The pair `(res, err)` returned by a resty call: either `err != nil`, or a response. -/
inductive Reply (α : Type) where
  | fail (err : GoError)
  | ok (res : Response α)

/-- Query parameters (`url.Values`): for each key, the list of its values. -/
abbrev Values := List (String × List String)

/-- Method `url.Values.Set`: the key gets the single value `v`. -/
def Values.Set : Values → String → String → Values
  | [], k, v => [(k, [v])]
  | (k0, vs) :: rest, k, v =>
      if k0 = k then (k, [v]) :: rest else (k0, vs) :: Values.Set rest k v

/-- Method `url.Values.Add`: `v` is appended to the values of the key. -/
def Values.Add : Values → String → String → Values
  | [], k, v => [(k, [v])]
  | (k0, vs) :: rest, k, v =>
      if k0 = k then (k, vs ++ [v]) :: rest else (k0, vs) :: Values.Add rest k v

/-- Index expression `v[k]` on a `url.Values`: every value of the key, in order. -/
def Values.Lookup : Values → String → List String
  | [], _ => []
  | (k0, vs) :: rest, k => if k0 = k then vs else Values.Lookup rest k

/-- Method `url.Values.Has`: the key is present. -/
def Values.Has (v : Values) (k : String) : Bool := v.any (fun kv => kv.1 == k)

/-- A resty request as the operations build it: bearer token and query parameters. -/
structure Request where
  Token : String
  QueryParam : Values
  deriving DecidableEq, Repr

/-- A network call made by the client. -/
inductive Call where
  | Post (url : String) (form : List (String × String))
  | Get (path : String) (req : Request)
  deriving DecidableEq, Repr

/-- Everything the token manager obtains from outside during one `GetAccessToken`:
the clock value read by the validity check, the answer of the token endpoint,
and the clock value read when the token is stored. -/
structure Outside where
  now : Time
  Post : String → List (String × String) → Reply OAuth2TokenResponse
  nowStored : Time

/-- Results of an operation `f` returning `(α, error)`: the two Go results, the
client after the call, and the network calls made, in order. -/
structure Ret (α : Type) where
  val : α
  err : Option GoError
  c : client
  calls : List Call

/-! ## Token manager (`auth.go`) -/

/-- The form data `authenticate` posts to the token endpoint. -/
def formData (c : client) : List (String × String) :=
  [("client_id", c.clientID), ("client_secret", c.clientSecret),
    ("grant_type", "client_credentials"), ("scope", "navigator")]

/-- Method `authenticate`: fetches an OAuth2 access token using the client
credentials flow. Returns the error, the client and the calls made. -/
def authenticate (w : Outside) (c : client) : Option GoError × client × List Call :=
  match w.Post tokenEndpoint (formData c) with
  | .fail err =>
      (some (.wrapError ("failed to authenticate: " ++ err.Error) err), c,
        [Call.Post tokenEndpoint (formData c)])
  | .ok res =>
      if res.StatusCode ≠ 200 then
        (some (.errorString ("authentication failed with status " ++ fmtD res.StatusCode
            ++ ": " ++ res.Body)), c, [Call.Post tokenEndpoint (formData c)])
      else
        (none,
          { c with
            accessToken := res.Result.AccessToken
            tokenExpiry :=
              w.nowStored.Add (wrap64 (wrap64 (res.Result.ExpiresIn - 60) * Second)) },
          [Call.Post tokenEndpoint (formData c)])

/-- Method `GetAccessToken`: returns a valid access token, authenticating if necessary. -/
def GetAccessToken (w : Outside) (c : client) : Ret String :=
  if c.accessToken = "" ∨ w.now.After c.tokenExpiry = true then
    match authenticate w c with
    | (some err, c1, calls) => ⟨"", some err, c1, calls⟩
    | (none, c1, calls) => ⟨c1.accessToken, none, c1, calls⟩
  else ⟨c.accessToken, none, c, []⟩

/-- Number of calls to the token endpoint in a list of calls. -/
def exchanges (calls : List Call) : Nat :=
  (calls.filter fun k => match k with
    | .Post url _ => decide (url = tokenEndpoint)
    | .Get _ _ => false).length

/-! ## Data transfer objects (`models.go`) -/

/-- A Go slice: `none` is the nil slice, `some l` a non-nil slice with elements `l`. -/
abbrev Slice (α : Type) := Option (List α)

/-- Builtin `len` on a slice. -/
def Slice.len {α : Type} : Slice α → Nat
  | none => 0
  | some l => l.length

/-- Elements of a slice, in order (what `range` visits). -/
def Slice.elems {α : Type} : Slice α → List α
  | none => []
  | some l => l

/-- A `float32` or `float64`, kept as its IEEE-754 bit pattern: the client stores
and returns such values and computes nothing with them. -/
structure Float64 where
  bits : Nat
  deriving DecidableEq, Repr

/-- The struct `FlexibleTime`: an embedded `time.Time`. -/
structure FlexibleTime where
  Time : Time
  deriving DecidableEq, Repr

structure InstallationDto where
  ID : String
  Active : Bool
  Address : String
  Business : String
  Category : String
  City : String
  EnergyClass : String
  GridArea : String
  Name : String
  OrgNumber : String
  PriceArea : String
  Resolution : String
  SafetyLevel : Option Float64
  HasMeasurementsSubscription : Bool
  HasCostsSubscription : Bool
  deriving DecidableEq, Repr

structure InstallationsWrapper where
  Installations : Slice InstallationDto
  deriving DecidableEq, Repr

structure MeasurementSeriesDto where
  ID : Int
  SeriesType : String
  Unit : String
  LastUpdate : FlexibleTime
  deriving DecidableEq, Repr

structure InstallationMeasurementsDto where
  ID : String
  MeasurementSeries : Slice MeasurementSeriesDto
  deriving DecidableEq, Repr

structure InstallationsMeasurementsWrapper where
  Installations : Slice InstallationMeasurementsDto
  deriving DecidableEq, Repr

structure MeasurementDto where
  TimeStamp : FlexibleTime
  Value : Option Float64
  deriving DecidableEq, Repr

structure MeasurementsWrapper where
  ID : Int
  Resolution : String
  Measurements : Slice MeasurementDto
  deriving DecidableEq, Repr

/-- The type `Resolution` of `constvars.go`: a string. -/
abbrev Resolution := String

def Quarter : Resolution := "quarter"
def Hour : Resolution := "hour"
def Day : Resolution := "day"
def Month : Resolution := "month"

/-! ## Resource operations (`installations.go`, `measurements.go`, `costs.go`) -/

/-- Method `SetQueryParam` of a resty request. -/
def Request.SetQueryParam (r : Request) (param value : String) : Request :=
  { r with QueryParam := r.QueryParam.Set param value }

/-- Method `SetQueryParamsFromValues` of a resty request: every value of every key is added. -/
def Request.SetQueryParamsFromValues (r : Request) (params : Values) : Request :=
  { r with
    QueryParam := params.foldl
      (fun q kv => kv.2.foldl (fun q1 pv => Values.Add q1 kv.1 pv) q) r.QueryParam }

/-- The request `GetInstallations` builds: bearer token, and the filter as query
parameters if provided. -/
def installationsRequest (accessToken : String) (filter : Slice String) : Request :=
  let req : Request := ⟨accessToken, []⟩
  if 0 < filter.len then
    req.SetQueryParamsFromValues [("installationFilter", filter.elems)]
  else req

/-- Method `GetInstallations`: retrieves all installations with metadata; an
optional filter selects specific installations. `http path req` is the answer
of the API to `req.Get(path)`. -/
def GetInstallations (w : Outside) (http : String → Request → Reply InstallationsWrapper)
    (c : client) (filter : Slice String) : Ret InstallationsWrapper :=
  let tok := GetAccessToken w c
  match tok.err with
  | some err => ⟨⟨none⟩, some err, tok.c, tok.calls⟩
  | none =>
    let req := installationsRequest tok.val filter
    let calls := tok.calls ++ [Call.Get "/installations" req]
    match http "/installations" req with
    | .fail err => ⟨⟨none⟩, some err, tok.c, calls⟩
    | .ok res =>
      if res.StatusCode = 204 then ⟨⟨some []⟩, none, tok.c, calls⟩
      else if res.StatusCode ≠ 200 then
        ⟨⟨none⟩, some (.errorString ("failed to get installations: " ++ res.Body
          ++ " (status " ++ fmtD res.StatusCode ++ ")")), tok.c, calls⟩
      else ⟨res.Result, none, tok.c, calls⟩

/-- Method `GetMeasurementSeries`: retrieves measurement series for all installations. -/
def GetMeasurementSeries (w : Outside)
    (http : String → Request → Reply InstallationsMeasurementsWrapper)
    (c : client) : Ret InstallationsMeasurementsWrapper :=
  let tok := GetAccessToken w c
  match tok.err with
  | some err => ⟨⟨none⟩, some err, tok.c, tok.calls⟩
  | none =>
    let req : Request := ⟨tok.val, []⟩
    let calls := tok.calls ++ [Call.Get "/installations/measurement-series" req]
    match http "/installations/measurement-series" req with
    | .fail err => ⟨⟨none⟩, some err, tok.c, calls⟩
    | .ok res =>
      if res.StatusCode = 204 then ⟨⟨some []⟩, none, tok.c, calls⟩
      else if res.StatusCode ≠ 200 then
        ⟨⟨none⟩, some (.errorString ("failed to get measurement series: " ++ res.Body
          ++ " (status " ++ fmtD res.StatusCode ++ ")")), tok.c, calls⟩
      else ⟨res.Result, none, tok.c, calls⟩

/-- The path `GetMeasurements` requests: `/measurements/%d/resolution/%s`. -/
def measurementsPath (id : Int) (resolution : Resolution) : String :=
  "/measurements/" ++ fmtD id ++ "/resolution/" ++ resolution

/-- The request `GetMeasurements` builds: bearer token, the time range if provided, and
the `includeMissing` parameter. `Format layout t` stands for `t.Format(layout)` of the
standard library. -/
def measurementsRequest (Format : String → Time → String) (accessToken : String)
    (from_ to_ : Time) (includeMissing : Bool) : Request :=
  let req0 : Request := ⟨accessToken, []⟩
  let req1 :=
    if !from_.IsZero then req0.SetQueryParam "from" (Format "2006-01-02T15:04:05.000Z" from_)
    else req0
  let req2 :=
    if !to_.IsZero then req1.SetQueryParam "to" (Format "2006-01-02T15:04:05.000Z" to_)
    else req1
  if includeMissing then req2.SetQueryParam "includeMissing" "true"
  else req2.SetQueryParam "includeMissing" "false"

/-- Method `GetMeasurements`: retrieves measurement data for a measurement series. -/
def GetMeasurements (Format : String → Time → String) (w : Outside)
    (http : String → Request → Reply MeasurementsWrapper) (c : client)
    (id : Int) (resolution : Resolution) (from_ to_ : Time) (includeMissing : Bool) :
    Ret MeasurementsWrapper :=
  let tok := GetAccessToken w c
  match tok.err with
  | some err => ⟨⟨0, "", none⟩, some err, tok.c, tok.calls⟩
  | none =>
    let path := measurementsPath id resolution
    let req := measurementsRequest Format tok.val from_ to_ includeMissing
    let calls := tok.calls ++ [Call.Get path req]
    match http path req with
    | .fail err => ⟨⟨0, "", none⟩, some err, tok.c, calls⟩
    | .ok res =>
      if res.StatusCode = 204 then ⟨⟨0, "", some []⟩, none, tok.c, calls⟩
      else if res.StatusCode ≠ 200 then
        ⟨⟨0, "", none⟩, some (.errorString ("failed to get measurements: " ++ res.Body
          ++ " (status " ++ fmtD res.StatusCode ++ ")")), tok.c, calls⟩
      else ⟨res.Result, none, tok.c, calls⟩

/-- The path `GetCosts` requests: `/costs/%s`. -/
def costsPath (installationID : String) : String := "/costs/" ++ installationID

/-- The request `GetCosts` builds: bearer token and the time range if provided (a nil
pointer is `none`). `Format layout t` stands for `t.Format(layout)` of the standard
library. -/
def costsRequest (Format : String → Time → String) (accessToken : String)
    (from_ to_ : Option Time) : Request :=
  let req0 : Request := ⟨accessToken, []⟩
  let req1 :=
    match from_ with
    | some t => req0.SetQueryParam "from" (Format RFC3339 t)
    | none => req0
  match to_ with
  | some t => req1.SetQueryParam "to" (Format RFC3339 t)
  | none => req1

/-- Method `GetCosts`: retrieves cost data for a specific installation. The result
has type `interface{}`: `none` is nil, `some v` holds the dynamic value `v`. -/
def GetCosts {V : Type} (Format : String → Time → String) (w : Outside)
    (http : String → Request → Reply (Option V)) (c : client)
    (installationID : String) (from_ to_ : Option Time) : Ret (Option V) :=
  let tok := GetAccessToken w c
  match tok.err with
  | some err => ⟨none, some err, tok.c, tok.calls⟩
  | none =>
    let path := costsPath installationID
    let req := costsRequest Format tok.val from_ to_
    let calls := tok.calls ++ [Call.Get path req]
    match http path req with
    | .fail err => ⟨none, some err, tok.c, calls⟩
    | .ok res =>
      if res.StatusCode = 204 then
        ⟨none, some (.errorString ("no cost data available for installation "
          ++ installationID)), tok.c, calls⟩
      else if res.StatusCode ≠ 200 then
        ⟨none, some (.errorString ("failed to get costs: " ++ res.Body
          ++ " (status " ++ fmtD res.StatusCode ++ ")")), tok.c, calls⟩
      else ⟨res.Result, none, tok.c, calls⟩

/-- Requests sent to the resource API in a list of calls. -/
def apiRequests (calls : List Call) : List (String × Request) :=
  calls.filterMap fun k => match k with
    | .Post _ _ => none
    | .Get path req => some (path, req)

/-! ## The time codec (`models.go`) -/

/-- Function `strings.Trim(s, cutset)` for a cutset of one character: every leading and
trailing occurrence of `c` is removed. -/
def Trim (s : List Char) (c : Char) : List Char :=
  ((s.dropWhile (fun x => x == c)).reverse.dropWhile (fun x => x == c)).reverse

/-- The layouts `UnmarshalJSON` tries, in order. -/
def formats : List String := [RFC3339, "2006-01-02T15:04:05", RFC3339Nano]

/-- The loop of `UnmarshalJSON` over the layouts: the first layout that parses `s`
gives the time; when none does, the error of the last attempt is returned (`err`
holds the error of the previous attempt, nil before the first). -/
def tryFormats : List String → String → Option GoError → Except (Option GoError) Time
  | [], _, err => .error err
  | format :: rest, s, _ =>
    match Parse format s with
    | .ok t => .ok t
    | .error e => tryFormats rest s (some e)

/-- Method `(*FlexibleTime).UnmarshalJSON`: returns the error and the value of the
receiver after the call. The bytes `b` are taken as text. -/
def FlexibleTime.UnmarshalJSON (ft : FlexibleTime) (b : String) : Option GoError × FlexibleTime :=
  let s := String.mk (Trim b.data dquote)
  if s = "" ∨ s = "null" then (none, ⟨⟨0, 0⟩⟩)
  else
    match tryFormats formats s none with
    | .ok t => (none, ⟨t⟩)
    | .error err => (err, ft)

/-- Method `FlexibleTime.MarshalJSON`: the bytes, as text, and the error. -/
def FlexibleTime.MarshalJSON (ft : FlexibleTime) : String × Option GoError :=
  if ft.Time.IsZero then ("null", none)
  else (String.mk [dquote] ++ ft.Time.Format RFC3339 ++ String.mk [dquote], none)

/-! ## The liveness probe (`auth.go`) -/

/-- Method `IsAlive`: checks if the API is reachable. The request carries no token and
registers no result. -/
def IsAlive (http : String → Request → Reply Unit) (c : client) : Ret Bool :=
  match http "/" ⟨"", []⟩ with
  | .fail err => ⟨false, some err, c, [Call.Get "/" ⟨"", []⟩]⟩
  | .ok res => ⟨decide (res.StatusCode > 0), none, c, [Call.Get "/" ⟨"", []⟩]⟩

/-! ## Cost statements (`models.go`) and their JSON form (package `encoding/json`) -/

/-- A `float64` that is neither infinite nor NaN: its exponent bits are not all ones. -/
def Float64.finite (x : Float64) : Bool := decide (x.bits / 2 ^ 52 % 2048 ≠ 2047)

/-- A JSON value as `encoding/json` reads it, numbers being `float64` values. It is
also the dynamic value `Unmarshal` stores into an `interface{}`. -/
inductive JSON where
  | null
  | bool (b : Bool)
  | number (x : Float64)
  | string (s : String)
  | array (items : List JSON)
  | object (members : List (String × JSON))

/-- Case folding of one character as `encoding/json` folds object keys: letters `a` to
`z` go to upper case, and the two characters outside ASCII whose case orbit holds an
ASCII letter (long s, Kelvin sign) go to that letter. -/
def foldChar (c : Char) : Char :=
  if 97 ≤ c.toNat ∧ c.toNat ≤ 122 then Char.ofNat (c.toNat - 32)
  else if c.toNat = 383 then 'S'
  else if c.toNat = 8490 then 'K'
  else c

/-- The folded form of a key. -/
def foldName (key : String) : List Char := key.data.map foldChar

/-- A member key selects the struct field tagged `name`: exact or case-insensitive
match. The tags of one struct of this package stay distinct after folding, so the
preference for an exact match never decides. -/
def keyMatch (name key : String) : Bool := foldName key == foldName name

/-- How `Unmarshal` fills one field of a struct from the members of a JSON object: the
members are read in order, and each member whose key selects the field stores its
value with `store`; `none` means that `Unmarshal` reports an error. -/
def decodeField {α : Type} (store : α → JSON → Option α) (members : List (String × JSON))
    (name : String) (cur : α) : Option α :=
  members.foldl
    (fun st kv => st.bind (fun v => if keyMatch name kv.1 then store v kv.2 else some v))
    (some cur)

/-- Storing a JSON value into a `*float64`: `null` sets the pointer to nil, a number sets
it to point to that number, anything else is a type error. -/
def storeFloat (_ : Option Float64) : JSON → Option (Option Float64)
  | .null => some none
  | .number x => if x.finite then some (some x) else none
  | _ => none

/-- Storing a JSON value into a `string`: `null` has no effect. -/
def storeString (cur : String) : JSON → Option String
  | .null => some cur
  | .string s => some s
  | _ => none

/-- Fills a list of `*float64` fields, given by their tags and current values. -/
def decodeFloats (members : List (String × JSON)) :
    List String → List (Option Float64) → Option (List (Option Float64))
  | k :: ks, c :: cs =>
    (decodeField storeFloat members k c).bind (fun v =>
      (decodeFloats members ks cs).map (fun vs => v :: vs))
  | _, _ => some []

/-- How `Marshal` writes a `*float64`: nil is `null`; an infinite or NaN value is an
error. -/
def encodeFloat : Option Float64 → Option JSON
  | none => some .null
  | some x => if x.finite then some (.number x) else none

/-- Writes a list of `*float64` fields under their tags. -/
def encodeFloats : List String → List (Option Float64) → Option (List (String × JSON))
  | k :: ks, v :: vs =>
    (encodeFloat v).bind (fun j => (encodeFloats ks vs).map (fun js => (k, j) :: js))
  | _, _ => some []

/-- The methods `MarshalJSON` and `UnmarshalJSON` of `time.Time`, of the standard
library, taken as given; `none` is an error. -/
structure TimeJSON where
  Marshal : Time → Option JSON
  Unmarshal : JSON → Option Time

/-- Storing a JSON value into a `time.Time`: `null` has no effect, any other value goes
through `UnmarshalJSON`. -/
def storeTime (tc : TimeJSON) (cur : Time) : JSON → Option Time
  | .null => some cur
  | v => tc.Unmarshal v


structure CostGridDetailsDto where
  GridSubscription : Option Float64
  GridSubscriptionVAT : Option Float64
  GridSubscribedEffectReactiveIn : Option Float64
  GridSubscribedEffectReactiveInVAT : Option Float64
  GridSubscribedEffectReactiveOut : Option Float64
  GridSubscribedEffectReactiveOutVAT : Option Float64
  GridSubscribedEffectWinter : Option Float64
  GridSubscribedEffectWinterVAT : Option Float64
  GridSubscribedEffect : Option Float64
  GridSubscribedEffectVAT : Option Float64
  GridEffectCompensation : Option Float64
  GridEffectCompensationVAT : Option Float64
  GridEffect : Option Float64
  GridEffectVAT : Option Float64
  GridCompensationEnergy : Option Float64
  GridCompensationEnergyVAT : Option Float64
  GridExceededReactiveEffectOut : Option Float64
  GridExceededReactiveEffectOutVAT : Option Float64
  GridCompensationLoss : Option Float64
  GridCompensationLossVAT : Option Float64
  GridOther : Option Float64
  GridOtherVAT : Option Float64
  GridExceededActiveEffect : Option Float64
  GridExceededActiveEffectVAT : Option Float64
  GridFixed : Option Float64
  GridFixedVAT : Option Float64
  GridExceededReactiveEffect : Option Float64
  GridExceededReactiveEffectVAT : Option Float64
  GridTransfer : Option Float64
  GridTransferVAT : Option Float64
  deriving DecidableEq, Repr

/-- The JSON tags of the `*float64` fields of `CostGridDetailsDto`, in order. -/
def CostGridDetailsDto.keys : List String :=
  ["gridSubscription", "gridSubscriptionVAT",
    "gridSubscribedEffectReactiveIn", "gridSubscribedEffectReactiveInVAT",
    "gridSubscribedEffectReactiveOut", "gridSubscribedEffectReactiveOutVAT",
    "gridSubscribedEffectWinter", "gridSubscribedEffectWinterVAT",
    "gridSubscribedEffect", "gridSubscribedEffectVAT",
    "gridEffectCompensation", "gridEffectCompensationVAT",
    "gridEffect", "gridEffectVAT",
    "gridCompensationEnergy", "gridCompensationEnergyVAT",
    "gridExceededReactiveEffectOut", "gridExceededReactiveEffectOutVAT",
    "gridCompensationLoss", "gridCompensationLossVAT",
    "gridOther", "gridOtherVAT",
    "gridExceededActiveEffect", "gridExceededActiveEffectVAT",
    "gridFixed", "gridFixedVAT",
    "gridExceededReactiveEffect", "gridExceededReactiveEffectVAT",
    "gridTransfer", "gridTransferVAT"]

/-- The `*float64` fields of a `CostGridDetailsDto`, in order. -/
def CostGridDetailsDto.vals (d : CostGridDetailsDto) : List (Option Float64) :=
  [d.GridSubscription, d.GridSubscriptionVAT,
    d.GridSubscribedEffectReactiveIn, d.GridSubscribedEffectReactiveInVAT,
    d.GridSubscribedEffectReactiveOut, d.GridSubscribedEffectReactiveOutVAT,
    d.GridSubscribedEffectWinter, d.GridSubscribedEffectWinterVAT,
    d.GridSubscribedEffect, d.GridSubscribedEffectVAT,
    d.GridEffectCompensation, d.GridEffectCompensationVAT,
    d.GridEffect, d.GridEffectVAT,
    d.GridCompensationEnergy, d.GridCompensationEnergyVAT,
    d.GridExceededReactiveEffectOut, d.GridExceededReactiveEffectOutVAT,
    d.GridCompensationLoss, d.GridCompensationLossVAT,
    d.GridOther, d.GridOtherVAT,
    d.GridExceededActiveEffect, d.GridExceededActiveEffectVAT,
    d.GridFixed, d.GridFixedVAT,
    d.GridExceededReactiveEffect, d.GridExceededReactiveEffectVAT,
    d.GridTransfer, d.GridTransferVAT]

/-- A `CostGridDetailsDto` with its `*float64` fields replaced by the given values. -/
def CostGridDetailsDto.setVals (d : CostGridDetailsDto) : List (Option Float64) → CostGridDetailsDto
  | [a0, a1, a2, a3, a4, a5, a6, a7, a8, a9,
      a10, a11, a12, a13, a14, a15, a16, a17, a18, a19,
      a20, a21, a22, a23, a24, a25, a26, a27, a28, a29] =>
    { d with
      GridSubscription := a0,
      GridSubscriptionVAT := a1,
      GridSubscribedEffectReactiveIn := a2,
      GridSubscribedEffectReactiveInVAT := a3,
      GridSubscribedEffectReactiveOut := a4,
      GridSubscribedEffectReactiveOutVAT := a5,
      GridSubscribedEffectWinter := a6,
      GridSubscribedEffectWinterVAT := a7,
      GridSubscribedEffect := a8,
      GridSubscribedEffectVAT := a9,
      GridEffectCompensation := a10,
      GridEffectCompensationVAT := a11,
      GridEffect := a12,
      GridEffectVAT := a13,
      GridCompensationEnergy := a14,
      GridCompensationEnergyVAT := a15,
      GridExceededReactiveEffectOut := a16,
      GridExceededReactiveEffectOutVAT := a17,
      GridCompensationLoss := a18,
      GridCompensationLossVAT := a19,
      GridOther := a20,
      GridOtherVAT := a21,
      GridExceededActiveEffect := a22,
      GridExceededActiveEffectVAT := a23,
      GridFixed := a24,
      GridFixedVAT := a25,
      GridExceededReactiveEffect := a26,
      GridExceededReactiveEffectVAT := a27,
      GridTransfer := a28,
      GridTransferVAT := a29 }
  | _ => d

/-- The zero value of `CostGridDetailsDto`. -/
def CostGridDetailsDto.zero : CostGridDetailsDto :=
  ⟨none, none, none, none, none, none, none, none, none, none,
    none, none, none, none, none, none, none, none, none, none,
    none, none, none, none, none, none, none, none, none, none⟩

structure CostBioGasDetailsDto where
  BioGasCarbonDioxideTax : Option Float64
  BioGasCarbonDioxideTaxVAT : Option Float64
  BiogasEnergyTax : Option Float64
  BiogasEnergyTaxVAT : Option Float64
  BiogasAccumulatedTax : Option Float64
  BiogasAccumulatedTaxVAT : Option Float64
  deriving DecidableEq, Repr

/-- The JSON tags of the `*float64` fields of `CostBioGasDetailsDto`, in order. -/
def CostBioGasDetailsDto.keys : List String :=
  ["bioGasCarbonDioxideTax", "bioGasCarbonDioxideTaxVAT",
    "biogasEnergyTax", "biogasEnergyTaxVAT",
    "biogasAccumulatedTax", "biogasAccumulatedTaxVAT"]

/-- The `*float64` fields of a `CostBioGasDetailsDto`, in order. -/
def CostBioGasDetailsDto.vals (d : CostBioGasDetailsDto) : List (Option Float64) :=
  [d.BioGasCarbonDioxideTax, d.BioGasCarbonDioxideTaxVAT,
    d.BiogasEnergyTax, d.BiogasEnergyTaxVAT,
    d.BiogasAccumulatedTax, d.BiogasAccumulatedTaxVAT]

/-- A `CostBioGasDetailsDto` with its `*float64` fields replaced by the given values. -/
def CostBioGasDetailsDto.setVals (d : CostBioGasDetailsDto) : List (Option Float64) → CostBioGasDetailsDto
  | [a0, a1, a2, a3, a4, a5] =>
    { d with
      BioGasCarbonDioxideTax := a0,
      BioGasCarbonDioxideTaxVAT := a1,
      BiogasEnergyTax := a2,
      BiogasEnergyTaxVAT := a3,
      BiogasAccumulatedTax := a4,
      BiogasAccumulatedTaxVAT := a5 }
  | _ => d

/-- The zero value of `CostBioGasDetailsDto`. -/
def CostBioGasDetailsDto.zero : CostBioGasDetailsDto := ⟨none, none, none, none, none, none⟩

structure CostsBaseDto where
  Month : Time
  deriving DecidableEq, Repr

structure CostElectricityProductionDto extends CostsBaseDto where
  RetailCost : Option Float64
  RetailCostVAT : Option Float64
  EnergyTax : Option Float64
  EnergyTaxVAT : Option Float64
  NetCost : Option Float64
  NetCostVAT : Option Float64
  CostGridDetails : Option CostGridDetailsDto
  deriving DecidableEq, Repr

/-- The JSON tags of the `*float64` fields of `CostElectricityProductionDto`, in order. -/
def CostElectricityProductionDto.keys : List String :=
  ["retailCost", "retailCostVAT",
    "energyTax", "energyTaxVAT",
    "netCost", "netCostVAT"]

/-- The `*float64` fields of a `CostElectricityProductionDto`, in order. -/
def CostElectricityProductionDto.vals (d : CostElectricityProductionDto) : List (Option Float64) :=
  [d.RetailCost, d.RetailCostVAT,
    d.EnergyTax, d.EnergyTaxVAT,
    d.NetCost, d.NetCostVAT]

/-- A `CostElectricityProductionDto` with its `*float64` fields replaced by the given values. -/
def CostElectricityProductionDto.setVals (d : CostElectricityProductionDto) : List (Option Float64) → CostElectricityProductionDto
  | [a0, a1, a2, a3, a4, a5] =>
    { d with
      RetailCost := a0,
      RetailCostVAT := a1,
      EnergyTax := a2,
      EnergyTaxVAT := a3,
      NetCost := a4,
      NetCostVAT := a5 }
  | _ => d

structure CostGasDto extends CostsBaseDto where
  RetailCost : Option Float64
  RetailCostVAT : Option Float64
  EnergyTax : Option Float64
  EnergyTaxVAT : Option Float64
  CostBioGasDetails : Option CostBioGasDetailsDto
  deriving DecidableEq, Repr

/-- The JSON tags of the `*float64` fields of `CostGasDto`, in order. -/
def CostGasDto.keys : List String :=
  ["retailCost", "retailCostVAT",
    "energyTax", "energyTaxVAT"]

/-- The `*float64` fields of a `CostGasDto`, in order. -/
def CostGasDto.vals (d : CostGasDto) : List (Option Float64) :=
  [d.RetailCost, d.RetailCostVAT,
    d.EnergyTax, d.EnergyTaxVAT]

/-- A `CostGasDto` with its `*float64` fields replaced by the given values. -/
def CostGasDto.setVals (d : CostGasDto) : List (Option Float64) → CostGasDto
  | [a0, a1, a2, a3] =>
    { d with
      RetailCost := a0,
      RetailCostVAT := a1,
      EnergyTax := a2,
      EnergyTaxVAT := a3 }
  | _ => d

structure CostHeatColdDto extends CostsBaseDto where
  RetailCost : Option Float64
  RetailCostVAT : Option Float64
  EffectCost : Option Float64
  EffectCostVAT : Option Float64
  EnergyCost : Option Float64
  EnergyCostVAT : Option Float64
  FlowCost : Option Float64
  FlowCostVAT : Option Float64
  deriving DecidableEq, Repr

/-- The JSON tags of the `*float64` fields of `CostHeatColdDto`, in order. -/
def CostHeatColdDto.keys : List String :=
  ["retailCost", "retailCostVAT",
    "effectCost", "effectCostVAT",
    "energyCost", "energyCostVAT",
    "flowCost", "flowCostVAT"]

/-- The `*float64` fields of a `CostHeatColdDto`, in order. -/
def CostHeatColdDto.vals (d : CostHeatColdDto) : List (Option Float64) :=
  [d.RetailCost, d.RetailCostVAT,
    d.EffectCost, d.EffectCostVAT,
    d.EnergyCost, d.EnergyCostVAT,
    d.FlowCost, d.FlowCostVAT]

/-- A `CostHeatColdDto` with its `*float64` fields replaced by the given values. -/
def CostHeatColdDto.setVals (d : CostHeatColdDto) : List (Option Float64) → CostHeatColdDto
  | [a0, a1, a2, a3, a4, a5, a6, a7] =>
    { d with
      RetailCost := a0,
      RetailCostVAT := a1,
      EffectCost := a2,
      EffectCostVAT := a3,
      EnergyCost := a4,
      EnergyCostVAT := a5,
      FlowCost := a6,
      FlowCostVAT := a7 }
  | _ => d

/-- The zero value of `CostElectricityProductionDto`. -/
def CostElectricityProductionDto.zero : CostElectricityProductionDto :=
  ⟨⟨⟨0, 0⟩⟩, none, none, none, none, none, none, none⟩

/-- The zero value of `CostGasDto`. -/
def CostGasDto.zero : CostGasDto := ⟨⟨⟨0, 0⟩⟩, none, none, none, none, none⟩

/-- The zero value of `CostHeatColdDto`. -/
def CostHeatColdDto.zero : CostHeatColdDto :=
  ⟨⟨⟨0, 0⟩⟩, none, none, none, none, none, none, none, none⟩

/-- Storing a JSON value into a pointer to a struct: `null` sets the pointer to nil, an
object fills the struct pointed to, a new zero struct when the pointer is nil. -/
def storePtr {α : Type} (zero : α) (decodeInto : α → List (String × JSON) → Option α)
    (cur : Option α) : JSON → Option (Option α)
  | .null => some none
  | .object ms => (decodeInto (cur.getD zero) ms).map some
  | _ => none

/-- How `Marshal` writes a pointer to a struct: nil is `null`. -/
def encodePtr {α : Type} (encode : α → Option JSON) : Option α → Option JSON
  | none => some .null
  | some d => encode d

/-- `Unmarshal` of the members of a JSON object into a `CostGridDetailsDto` holding `d0`. -/
def CostGridDetailsDto.decodeInto (d0 : CostGridDetailsDto) (members : List (String × JSON)) :
    Option CostGridDetailsDto :=
  (decodeFloats members CostGridDetailsDto.keys d0.vals).map d0.setVals

/-- `Marshal` of a `CostGridDetailsDto`: every field is written, a nil one as `null`. -/
def CostGridDetailsDto.encode (d : CostGridDetailsDto) : Option JSON :=
  (encodeFloats CostGridDetailsDto.keys d.vals).map JSON.object

/-- `Unmarshal` of the members of a JSON object into a `CostBioGasDetailsDto` holding `d0`. -/
def CostBioGasDetailsDto.decodeInto (d0 : CostBioGasDetailsDto)
    (members : List (String × JSON)) : Option CostBioGasDetailsDto :=
  (decodeFloats members CostBioGasDetailsDto.keys d0.vals).map d0.setVals

/-- `Marshal` of a `CostBioGasDetailsDto`. -/
def CostBioGasDetailsDto.encode (d : CostBioGasDetailsDto) : Option JSON :=
  (encodeFloats CostBioGasDetailsDto.keys d.vals).map JSON.object

/-- `Unmarshal` of the members of a JSON object into a `CostElectricityProductionDto`
holding `d0`. -/
def CostElectricityProductionDto.decodeInto (tc : TimeJSON) (d0 : CostElectricityProductionDto)
    (members : List (String × JSON)) : Option CostElectricityProductionDto :=
  (decodeField (storeTime tc) members "month" d0.Month).bind fun month =>
  (decodeFloats members CostElectricityProductionDto.keys d0.vals).bind fun vs =>
  (decodeField (storePtr CostGridDetailsDto.zero CostGridDetailsDto.decodeInto) members
      "costGridDetails" d0.CostGridDetails).map fun grid =>
    { d0.setVals vs with Month := month, CostGridDetails := grid }

/-- `Marshal` of a `CostElectricityProductionDto`: the members in field order. -/
def CostElectricityProductionDto.encode (tc : TimeJSON) (d : CostElectricityProductionDto) :
    Option JSON :=
  (tc.Marshal d.Month).bind fun jm =>
  (encodeFloats CostElectricityProductionDto.keys d.vals).bind fun js =>
  (encodePtr CostGridDetailsDto.encode d.CostGridDetails).map fun jg =>
    .object (("month", jm) :: js ++ [("costGridDetails", jg)])

/-- `Unmarshal` of the members of a JSON object into a `CostGasDto` holding `d0`. -/
def CostGasDto.decodeInto (tc : TimeJSON) (d0 : CostGasDto)
    (members : List (String × JSON)) : Option CostGasDto :=
  (decodeField (storeTime tc) members "month" d0.Month).bind fun month =>
  (decodeFloats members CostGasDto.keys d0.vals).bind fun vs =>
  (decodeField (storePtr CostBioGasDetailsDto.zero CostBioGasDetailsDto.decodeInto) members
      "costBioGasDetails" d0.CostBioGasDetails).map fun bio =>
    { d0.setVals vs with Month := month, CostBioGasDetails := bio }

/-- `Marshal` of a `CostGasDto`. -/
def CostGasDto.encode (tc : TimeJSON) (d : CostGasDto) : Option JSON :=
  (tc.Marshal d.Month).bind fun jm =>
  (encodeFloats CostGasDto.keys d.vals).bind fun js =>
  (encodePtr CostBioGasDetailsDto.encode d.CostBioGasDetails).map fun jb =>
    .object (("month", jm) :: js ++ [("costBioGasDetails", jb)])

/-- `Unmarshal` of the members of a JSON object into a `CostHeatColdDto` holding `d0`. -/
def CostHeatColdDto.decodeInto (tc : TimeJSON) (d0 : CostHeatColdDto)
    (members : List (String × JSON)) : Option CostHeatColdDto :=
  (decodeField (storeTime tc) members "month" d0.Month).bind fun month =>
  (decodeFloats members CostHeatColdDto.keys d0.vals).map fun vs =>
    { d0.setVals vs with Month := month }

/-- `Marshal` of a `CostHeatColdDto`. -/
def CostHeatColdDto.encode (tc : TimeJSON) (d : CostHeatColdDto) : Option JSON :=
  (tc.Marshal d.Month).bind fun jm =>
  (encodeFloats CostHeatColdDto.keys d.vals).map fun js =>
    .object (("month", jm) :: js)

/-- Storing a JSON value into a struct that holds `cur`, as `Unmarshal` does for an
element of a slice: `null` has no effect, an object fills the struct. -/
def decodeEntry {α : Type} (decodeInto : α → List (String × JSON) → Option α) (cur : α) :
    JSON → Option α
  | .null => some cur
  | .object ms => decodeInto cur ms
  | _ => none

/-- A slice as `Unmarshal` finds it: the slice, and the elements its backing array still
holds after the length, left there when the slice was shortened (`spare`); every
further element that comes into view when the slice grows is a zero value. -/
structure SliceMem (α : Type) where
  slice : Slice α
  spare : List α

/-- The loop of `Unmarshal` over the elements of a JSON array: element number `i` is
stored into the element the slice holds at index `i` (`slots` lists them from the
current index on), into a zero value when the slice holds none there. -/
def decodeElems {α : Type} (zero : α) (decodeElem : α → JSON → Option α) :
    List α → List JSON → Option (List α)
  | _, [] => some []
  | slots, item :: items =>
    (decodeElem (slots.headD zero) item).bind fun e =>
      (decodeElems zero decodeElem slots.tail items).map fun es => e :: es

/-- Storing a JSON value into a slice of structs: `null` sets the slice to nil; an array
stores its elements one by one into the elements the slice already holds, extends the
slice with zero values as needed and cuts it to the length of the array; an empty
array gives a new empty slice. -/
def storeSlice {α : Type} (zero : α) (decodeElem : α → JSON → Option α) (cur : SliceMem α) :
    JSON → Option (SliceMem α)
  | .null => some ⟨none, []⟩
  | .array [] => some ⟨some [], []⟩
  | .array (item :: items) =>
    (decodeElems zero decodeElem (cur.slice.elems ++ cur.spare) (item :: items)).map fun es =>
      ⟨some es, (cur.slice.elems ++ cur.spare).drop (item :: items).length⟩
  | _ => none

structure CostsWrapper where
  EnergyClass : String
  Installation : String
  deriving DecidableEq, Repr

structure CostsElectricityWrapper extends CostsWrapper where
  Costs : Slice CostElectricityProductionDto
  deriving DecidableEq, Repr

structure CostsProductionWrapper extends CostsWrapper where
  Costs : Slice CostElectricityProductionDto
  deriving DecidableEq, Repr

structure CostsHeatWrapper extends CostsWrapper where
  Costs : Slice CostHeatColdDto
  deriving DecidableEq, Repr

structure CostsColdWrapper extends CostsWrapper where
  Costs : Slice CostHeatColdDto
  deriving DecidableEq, Repr

structure CostsGasWrapper extends CostsWrapper where
  Costs : Slice CostGasDto
  deriving DecidableEq, Repr

/-- `Unmarshal` of the members of a JSON object into a new `CostsElectricityWrapper`,
whose `Costs` is nil. -/
def CostsElectricityWrapper.decode (tc : TimeJSON) (members : List (String × JSON)) :
    Option CostsElectricityWrapper :=
  (decodeField storeString members "energyClass" "").bind fun energyClass =>
  (decodeField storeString members "installation" "").bind fun installation =>
  (decodeField (storeSlice CostElectricityProductionDto.zero
      (decodeEntry (CostElectricityProductionDto.decodeInto tc))) members "costs"
      ⟨none, []⟩).map fun costs =>
    ⟨⟨energyClass, installation⟩, costs.slice⟩

/-! ## Concurrent callers of `GetAccessToken` (`auth.go`, `eon.go`) -/

/-- Where one caller of `GetAccessToken` stands in the code of `GetAccessToken` and
`authenticate`. The struct `client` holds no lock and neither method takes one, so
between two of these points another caller may run. Each point is followed by at most
one access to the fields `accessToken`, `tokenExpiry`, or by the network call:
* `checkToken`: before the read of `c.accessToken` in the test of `GetAccessToken`;
* `checkExpiry`: the token was not empty, before the read of `c.tokenExpiry`;
* `post`: in `authenticate`, before the request to the token endpoint;
* `storeToken result`: before `c.accessToken = result.AccessToken`;
* `storeExpiry result`: before the assignment to `c.tokenExpiry`;
* `ret`: before `return c.accessToken, nil`;
* `done val err`: returned `(val, err)`. -/
inductive Pc where
  | checkToken
  | checkExpiry
  | post
  | storeToken (result : OAuth2TokenResponse)
  | storeExpiry (result : OAuth2TokenResponse)
  | ret
  | done (val : String) (err : Option GoError)
  deriving DecidableEq, Repr

/-- One caller: its position, and the values its validity test read from the client. -/
structure Caller where
  pc : Pc
  seenToken : Option String
  seenExpiry : Option Time
  deriving DecidableEq, Repr

/-- A caller entering `GetAccessToken`. -/
def Caller.start : Caller := ⟨.checkToken, none, none⟩

/-- The client shared by the callers, the network calls made so far, and the callers. -/
structure Shared where
  c : client
  calls : List Call
  callers : List Caller

/-- One step of a caller whose outside world is `w`, on the shared client `c`: the
client after the step, the network calls made, and the caller after the step. -/
def Caller.step (w : Outside) (c : client) (k : Caller) : client × List Call × Caller :=
  match k.pc with
  | .checkToken =>
    if c.accessToken = "" then (c, [], { k with pc := .post, seenToken := some c.accessToken })
    else (c, [], { k with pc := .checkExpiry, seenToken := some c.accessToken })
  | .checkExpiry =>
    if w.now.After c.tokenExpiry = true then
      (c, [], { k with pc := .post, seenExpiry := some c.tokenExpiry })
    else (c, [], { k with pc := .ret, seenExpiry := some c.tokenExpiry })
  | .post =>
    match w.Post tokenEndpoint (formData c) with
    | .fail err =>
      (c, [Call.Post tokenEndpoint (formData c)],
        { k with pc := .done "" (some (.wrapError ("failed to authenticate: " ++ err.Error)
          err)) })
    | .ok res =>
      if res.StatusCode ≠ 200 then
        (c, [Call.Post tokenEndpoint (formData c)],
          { k with pc := .done "" (some (.errorString ("authentication failed with status "
            ++ fmtD res.StatusCode ++ ": " ++ res.Body))) })
      else (c, [Call.Post tokenEndpoint (formData c)], { k with pc := .storeToken res.Result })
  | .storeToken result =>
    ({ c with accessToken := result.AccessToken }, [], { k with pc := .storeExpiry result })
  | .storeExpiry result =>
    ({ c with tokenExpiry := w.nowStored.Add (wrap64 (wrap64 (result.ExpiresIn - 60) * Second)) },
      [], { k with pc := .ret })
  | .ret => (c, [], { k with pc := .done c.accessToken none })
  | .done _ _ => (c, [], k)

/-- One step of caller number `i`, whose outside world is `w i`; nothing happens when
there is no such caller. -/
def Shared.step (w : Nat → Outside) (s : Shared) (i : Nat) : Shared :=
  match s.callers.get? i with
  | none => s
  | some k =>
    let r := k.step (w i) s.c
    ⟨r.1, s.calls ++ r.2.1, s.callers.set i r.2.2⟩

/-- A run under a schedule: the list of the callers that step, in order. -/
def Shared.run (w : Nat → Outside) (s : Shared) (schedule : List Nat) : Shared :=
  schedule.foldl (Shared.step w) s

/-! ## Auxiliary facts -/

theorem contains_mid (a b c : String) : Contains (a ++ b ++ c) b := by
  unfold Contains
  refine ⟨a.data, c.data, ?_⟩
  simp [String.data_append]

theorem contains_mid_right (a b c d : String) : Contains (a ++ b ++ c ++ d) d := by
  unfold Contains
  refine ⟨(a ++ b ++ c).data, [], ?_⟩
  simp [String.data_append]

theorem contains_second (a b c d : String) : Contains (a ++ b ++ c ++ d) b := by
  unfold Contains
  refine ⟨a.data, (c ++ d).data, ?_⟩
  simp [String.data_append]

theorem authenticate_calls (w : Outside) (c : client) :
    (authenticate w c).2.2 = [Call.Post tokenEndpoint (formData c)] := by
  unfold authenticate
  cases w.Post tokenEndpoint (formData c) with
  | fail err => rfl
  | ok res => by_cases h : res.StatusCode = 200 <;> simp [h]

theorem authenticate_fail (w : Outside) (c : client) (err : GoError)
    (h : w.Post tokenEndpoint (formData c) = .fail err) :
    authenticate w c = (some (.wrapError ("failed to authenticate: " ++ err.Error) err), c,
      [Call.Post tokenEndpoint (formData c)]) := by
  unfold authenticate; rw [h]

theorem authenticate_status (w : Outside) (c : client) (res : Response OAuth2TokenResponse)
    (h : w.Post tokenEndpoint (formData c) = .ok res) (hs : res.StatusCode ≠ 200) :
    authenticate w c = (some (.errorString ("authentication failed with status "
      ++ fmtD res.StatusCode ++ ": " ++ res.Body)), c,
      [Call.Post tokenEndpoint (formData c)]) := by
  unfold authenticate; rw [h]; simp [hs]

theorem authenticate_ok (w : Outside) (c : client) (res : Response OAuth2TokenResponse)
    (h : w.Post tokenEndpoint (formData c) = .ok res) (hs : res.StatusCode = 200) :
    authenticate w c = (none,
      { c with
        accessToken := res.Result.AccessToken
        tokenExpiry :=
          w.nowStored.Add (wrap64 (wrap64 (res.Result.ExpiresIn - 60) * Second)) },
      [Call.Post tokenEndpoint (formData c)]) := by
  unfold authenticate; rw [h]; simp [hs]

theorem GetAccessToken_cached (w : Outside) (c : client)
    (h : ¬ (c.accessToken = "" ∨ w.now.After c.tokenExpiry = true)) :
    GetAccessToken w c = ⟨c.accessToken, none, c, []⟩ := by
  unfold GetAccessToken; rw [if_neg h]

theorem GetAccessToken_refresh (w : Outside) (c : client)
    (h : c.accessToken = "" ∨ w.now.After c.tokenExpiry = true) :
    GetAccessToken w c =
      match authenticate w c with
      | (some err, c1, calls) => ⟨"", some err, c1, calls⟩
      | (none, c1, calls) => ⟨c1.accessToken, none, c1, calls⟩ := by
  unfold GetAccessToken; rw [if_pos h]

theorem exchanges_single (form : List (String × String)) :
    exchanges [Call.Post tokenEndpoint form] = 1 := by
  simp [exchanges]

theorem After_iff (t u : Time) : t.After u = true ↔ u.nsec < t.nsec := by
  simp [Time.After]

theorem wrap64_of_range (x : Int) (hlo : -9223372036854775808 ≤ x)
    (hhi : x ≤ 9223372036854775807) : wrap64 x = x := by
  unfold wrap64
  omega

theorem expiry_duration (e : Int) (hlo : -9223372036 ≤ e - 60) (hhi : e - 60 ≤ 9223372036) :
    wrap64 (wrap64 (e - 60) * Second) = (e - 60) * 1000000000 := by
  have h1 : wrap64 (e - 60) = e - 60 := wrap64_of_range _ (by omega) (by omega)
  rw [h1]
  unfold Second
  exact wrap64_of_range _ (by omega) (by omega)

theorem GetAccessToken_calls (w : Outside) (c : client) :
    (GetAccessToken w c).calls = [] ∨
    (GetAccessToken w c).calls = [Call.Post tokenEndpoint (formData c)] := by
  by_cases hneed : c.accessToken = "" ∨ w.now.After c.tokenExpiry = true
  · right
    rw [GetAccessToken_refresh w c hneed]
    have := authenticate_calls w c
    rcases hA : authenticate w c with ⟨e, c1, calls⟩
    rw [hA] at this
    cases e <;> simpa using this
  · left
    rw [GetAccessToken_cached w c hneed]

theorem GetAccessToken_no_apiRequests (w : Outside) (c : client) :
    apiRequests (GetAccessToken w c).calls = [] := by
  rcases GetAccessToken_calls w c with h | h <;> rw [h] <;> rfl

theorem contains_lead (a b : String) : Contains (a ++ b) a := by
  unfold Contains
  refine ⟨[], b.data, ?_⟩
  simp [String.data_append]

theorem contains_status_error (a body b num c : String) :
    Contains (a ++ body ++ b ++ num ++ c) body ∧ Contains (a ++ body ++ b ++ num ++ c) num := by
  unfold Contains
  refine ⟨⟨a.data, (b ++ num ++ c).data, ?_⟩, ⟨(a ++ body ++ b).data, c.data, ?_⟩⟩ <;>
    simp [String.data_append]

/-! ## The error classifier -/

/-- C1: `apiError` is total on integer status codes: 200 gives the nil error, 204, 400,
401, 404, 429 and 500 give the package errors `ErrorNoContent`, `ErrorBadRequest`,
`ErrorUnauthorized`, `ErrorNotFound`, `ErrorTooManyRequests` and `ErrorServerError`, and
every other code `c` gives a non-nil error whose message is `unexpected status code: `
followed by `c` in decimal. -/
theorem apiError_total :
    apiError 200 = none ∧
    apiError 204 = some ErrorNoContent ∧
    apiError 400 = some ErrorBadRequest ∧
    apiError 401 = some ErrorUnauthorized ∧
    apiError 404 = some ErrorNotFound ∧
    apiError 429 = some ErrorTooManyRequests ∧
    apiError 500 = some ErrorServerError ∧
    ∀ c : Int, c ∉ [200, 204, 400, 401, 404, 429, 500] →
      ∃ e, apiError c = some e ∧ e.Error = "unexpected status code: " ++ fmtD c := by
  refine ⟨rfl, rfl, rfl, rfl, rfl, rfl, rfl, ?_⟩
  intro c hc
  simp only [List.mem_cons, List.mem_singleton, not_or, List.not_mem_nil, or_false] at hc
  obtain ⟨h1, h2, h3, h4, h5, h6, h7⟩ := hc
  refine ⟨.errorString ("unexpected status code: " ++ fmtD c), ?_, rfl⟩
  simp [apiError, h1, h2, h3, h4, h5, h6, h7]

/-- Witness of C1 at the status code 418 of the test: the error is non-nil and its
message is `unexpected status code: 418`. -/
theorem apiError_total_witness :
    (418 : Int) ∉ [200, 204, 400, 401, 404, 429, 500] ∧
    ∃ e, apiError 418 = some e ∧ e.Error = "unexpected status code: 418" :=
  ⟨by decide, apiError_total.2.2.2.2.2.2.2 418 (by decide)⟩

/-! ## The token manager -/

/-- C2, as stated, fails at the instant `now = expires_at`: a client holding the token
`cached-token` with expiry at instant 100 and asked at instant 100 performs no exchange
and returns the cached token, where the claim requires exactly one exchange. -/
theorem GetAccessToken_at_expiry_no_exchange :
    (⟨"id", "secret", "cached-token", ⟨100, 0⟩⟩ : client).tokenExpiry.nsec ≤ (⟨100, 0⟩ : Time).nsec ∧
    exchanges (GetAccessToken ⟨⟨100, 0⟩, fun _ _ => .fail (.transport "unreachable"), ⟨100, 0⟩⟩
      ⟨"id", "secret", "cached-token", ⟨100, 0⟩⟩).calls = 0 ∧
    (GetAccessToken ⟨⟨100, 0⟩, fun _ _ => .fail (.transport "unreachable"), ⟨100, 0⟩⟩
      ⟨"id", "secret", "cached-token", ⟨100, 0⟩⟩).val = "cached-token" ∧
    (GetAccessToken ⟨⟨100, 0⟩, fun _ _ => .fail (.transport "unreachable"), ⟨100, 0⟩⟩
      ⟨"id", "secret", "cached-token", ⟨100, 0⟩⟩).err = none := by
  have h := GetAccessToken_cached
    ⟨⟨100, 0⟩, fun _ _ => .fail (.transport "unreachable"), ⟨100, 0⟩⟩
    ⟨"id", "secret", "cached-token", ⟨100, 0⟩⟩ (by decide)
  rw [h]
  exact ⟨by decide, rfl, rfl, rfl⟩

/-- C2, amended: for every client state and every clock value `now`, the cached token
counts as valid while a token is present and `now ≤ expires_at` (`now` is not after the
expiry): then `GetAccessToken` makes no network call, leaves the client unchanged and
returns the cached token with no error. In every other case (token absent, or
`now > expires_at`) it makes exactly one call, the exchange with the token endpoint, and
when that exchange answers 200 it returns the access token of the response, with no
error. -/
theorem GetAccessToken_cache_policy (w : Outside) (c : client) :
    (c.accessToken ≠ "" ∧ w.now.nsec ≤ c.tokenExpiry.nsec →
      GetAccessToken w c = ⟨c.accessToken, none, c, []⟩) ∧
    (c.accessToken = "" ∨ c.tokenExpiry.nsec < w.now.nsec →
      (GetAccessToken w c).calls = [Call.Post tokenEndpoint (formData c)] ∧
      exchanges (GetAccessToken w c).calls = 1 ∧
      ∀ res, w.Post tokenEndpoint (formData c) = .ok res → res.StatusCode = 200 →
        (GetAccessToken w c).val = res.Result.AccessToken ∧
        (GetAccessToken w c).err = none) := by
  constructor
  · rintro ⟨hne, hle⟩
    apply GetAccessToken_cached
    rw [After_iff]
    rintro (h | h)
    · exact hne h
    · omega
  · intro h
    have hneed : c.accessToken = "" ∨ w.now.After c.tokenExpiry = true := by
      rw [After_iff]; exact h
    have hcalls : (GetAccessToken w c).calls = [Call.Post tokenEndpoint (formData c)] := by
      rw [GetAccessToken_refresh w c hneed]
      have := authenticate_calls w c
      rcases hA : authenticate w c with ⟨e, c1, calls⟩
      rw [hA] at this
      cases e <;> simpa using this
    refine ⟨hcalls, ?_, ?_⟩
    · rw [hcalls]; exact exchanges_single _
    · intro res hres hs
      rw [GetAccessToken_refresh w c hneed, authenticate_ok w c res hres hs]
      exact ⟨rfl, rfl⟩

/-- Witness of the amended C2: a client whose token expires at instant 100 is served from
the cache at instant 100, and a client without a token, asked at instant 5, makes one
exchange and returns the token `fresh` of the 200 response. -/
theorem GetAccessToken_cache_policy_witness :
    GetAccessToken ⟨⟨100, 0⟩, fun _ _ => .ok ⟨200, "", ⟨"fresh", "Bearer", 3600, "navigator"⟩⟩, ⟨100, 0⟩⟩
        ⟨"id", "secret", "cached-token", ⟨100, 0⟩⟩
      = ⟨"cached-token", none, ⟨"id", "secret", "cached-token", ⟨100, 0⟩⟩, []⟩ ∧
    exchanges (GetAccessToken
        ⟨⟨5, 0⟩, fun _ _ => .ok ⟨200, "", ⟨"fresh", "Bearer", 3600, "navigator"⟩⟩, ⟨6, 0⟩⟩
        ⟨"id", "secret", "", ⟨0, 0⟩⟩).calls = 1 ∧
    (GetAccessToken
        ⟨⟨5, 0⟩, fun _ _ => .ok ⟨200, "", ⟨"fresh", "Bearer", 3600, "navigator"⟩⟩, ⟨6, 0⟩⟩
        ⟨"id", "secret", "", ⟨0, 0⟩⟩).val = "fresh" :=
  ⟨(GetAccessToken_cache_policy
      ⟨⟨100, 0⟩, fun _ _ => .ok ⟨200, "", ⟨"fresh", "Bearer", 3600, "navigator"⟩⟩, ⟨100, 0⟩⟩
      ⟨"id", "secret", "cached-token", ⟨100, 0⟩⟩).1 ⟨by decide, by decide⟩,
   ((GetAccessToken_cache_policy
      ⟨⟨5, 0⟩, fun _ _ => .ok ⟨200, "", ⟨"fresh", "Bearer", 3600, "navigator"⟩⟩, ⟨6, 0⟩⟩
      ⟨"id", "secret", "", ⟨0, 0⟩⟩).2 (Or.inl rfl)).2.1,
   (((GetAccessToken_cache_policy
      ⟨⟨5, 0⟩, fun _ _ => .ok ⟨200, "", ⟨"fresh", "Bearer", 3600, "navigator"⟩⟩, ⟨6, 0⟩⟩
      ⟨"id", "secret", "", ⟨0, 0⟩⟩).2 (Or.inl rfl)).2.2 _ rfl rfl).1⟩

/-- C3: when `GetAccessToken` has to refresh (token absent or expired) and the exchange
fails, by a transport error or by a response whose status is not 200, the client is left
exactly as it was, so the token check still fails at every later instant; the call
returns the empty string and a non-nil error, and for a non-200 response the message of
that error contains the status code and the response body. -/
theorem GetAccessToken_exchange_failure (w : Outside) (c : client)
    (hneed : c.accessToken = "" ∨ w.now.After c.tokenExpiry = true)
    (hfail : (∃ err, w.Post tokenEndpoint (formData c) = .fail err) ∨
      (∃ res, w.Post tokenEndpoint (formData c) = .ok res ∧ res.StatusCode ≠ 200)) :
    (GetAccessToken w c).c = c ∧
    (GetAccessToken w c).val = "" ∧
    (∃ e, (GetAccessToken w c).err = some e ∧
      ∀ res, w.Post tokenEndpoint (formData c) = .ok res →
        Contains e.Error (fmtD res.StatusCode) ∧ Contains e.Error res.Body) ∧
    (∀ t : Time, w.now.nsec ≤ t.nsec →
      (GetAccessToken w c).c.accessToken = "" ∨
        t.After (GetAccessToken w c).c.tokenExpiry = true) := by
  have hstill : ∀ t : Time, w.now.nsec ≤ t.nsec →
      c.accessToken = "" ∨ t.After c.tokenExpiry = true := by
    intro t ht
    rcases hneed with h | h
    · exact Or.inl h
    · right
      rw [After_iff] at h ⊢
      omega
  rcases hfail with ⟨err, herr⟩ | ⟨res, hres, hs⟩
  · rw [GetAccessToken_refresh w c hneed, authenticate_fail w c err herr]
    refine ⟨rfl, rfl, ⟨_, rfl, ?_⟩, hstill⟩
    intro res hres
    rw [herr] at hres
    cases hres
  · rw [GetAccessToken_refresh w c hneed, authenticate_status w c res hres hs]
    refine ⟨rfl, rfl, ⟨_, rfl, ?_⟩, hstill⟩
    intro res1 hres1
    rw [hres] at hres1
    cases hres1
    exact ⟨contains_second _ _ _ _, contains_mid_right _ _ _ _⟩

/-- Witness of C3: a client without a token whose exchange is answered 401 with body
`denied` keeps its state and gets the empty string and an error whose message contains
`401` and `denied`. -/
theorem GetAccessToken_exchange_failure_witness :
    (GetAccessToken ⟨⟨5, 0⟩, fun _ _ => .ok ⟨401, "denied", ⟨"", "", 0, ""⟩⟩, ⟨6, 0⟩⟩
        ⟨"id", "secret", "", ⟨0, 0⟩⟩).c = ⟨"id", "secret", "", ⟨0, 0⟩⟩ ∧
    (GetAccessToken ⟨⟨5, 0⟩, fun _ _ => .ok ⟨401, "denied", ⟨"", "", 0, ""⟩⟩, ⟨6, 0⟩⟩
        ⟨"id", "secret", "", ⟨0, 0⟩⟩).val = "" ∧
    ∃ e, (GetAccessToken ⟨⟨5, 0⟩, fun _ _ => .ok ⟨401, "denied", ⟨"", "", 0, ""⟩⟩, ⟨6, 0⟩⟩
        ⟨"id", "secret", "", ⟨0, 0⟩⟩).err = some e ∧
      Contains e.Error "401" ∧ Contains e.Error "denied" := by
  have h := GetAccessToken_exchange_failure
    ⟨⟨5, 0⟩, fun _ _ => .ok ⟨401, "denied", ⟨"", "", 0, ""⟩⟩, ⟨6, 0⟩⟩
    ⟨"id", "secret", "", ⟨0, 0⟩⟩ (Or.inl rfl) (Or.inr ⟨_, rfl, by decide⟩)
  obtain ⟨h1, h2, ⟨e, he, hc⟩, _⟩ := h
  exact ⟨h1, h2, e, he, hc _ rfl⟩

/-- C4, as stated, fails: a 200 exchange response carrying an empty `access_token` makes
`GetAccessToken` return without error while the stored token is empty, and a 200 response
carrying `expires_in = 60` makes it return without error with a token whose expiry is the
very instant it was stored, so it is not unexpired (`now < expires_at` fails) then. -/
theorem GetAccessToken_success_not_authenticated :
    ((GetAccessToken ⟨⟨5, 0⟩, fun _ _ => .ok ⟨200, "", ⟨"", "Bearer", 3600, "navigator"⟩⟩, ⟨6, 0⟩⟩
        ⟨"id", "secret", "", ⟨0, 0⟩⟩).err = none ∧
     (GetAccessToken ⟨⟨5, 0⟩, fun _ _ => .ok ⟨200, "", ⟨"", "Bearer", 3600, "navigator"⟩⟩, ⟨6, 0⟩⟩
        ⟨"id", "secret", "", ⟨0, 0⟩⟩).c.accessToken = "") ∧
    ((GetAccessToken ⟨⟨5, 0⟩, fun _ _ => .ok ⟨200, "", ⟨"tok", "Bearer", 60, "navigator"⟩⟩, ⟨6, 0⟩⟩
        ⟨"id", "secret", "", ⟨0, 0⟩⟩).err = none ∧
     ¬ ((6 : Int) <
       (GetAccessToken ⟨⟨5, 0⟩, fun _ _ => .ok ⟨200, "", ⟨"tok", "Bearer", 60, "navigator"⟩⟩, ⟨6, 0⟩⟩
        ⟨"id", "secret", "", ⟨0, 0⟩⟩).c.tokenExpiry.nsec)) := by
  refine ⟨⟨?_, ?_⟩, ?_, ?_⟩
  · rw [GetAccessToken_refresh _ _ (Or.inl rfl), authenticate_ok _ _ _ rfl rfl]
  · rw [GetAccessToken_refresh _ _ (Or.inl rfl), authenticate_ok _ _ _ rfl rfl]
  · rw [GetAccessToken_refresh _ _ (Or.inl rfl), authenticate_ok _ _ _ rfl rfl]
  · rw [GetAccessToken_refresh _ _ (Or.inl rfl), authenticate_ok _ _ _ rfl rfl]
    decide

/-- C4, amended: after every `GetAccessToken` call that returns without error the stored
token equals the returned token. Either it was served from the cache, and then the client
is unchanged, the token is non-empty and `now ≤ expires_at` for the clock value of the
check; or one exchange was answered 200, and then the stored token is the `access_token`
of the response and the stored expiry is the store instant moved by the `int64` product
of `expires_in − 60` and `time.Second`, which is exactly the store instant plus
`expires_in − 60` seconds when `−9223372036 ≤ expires_in − 60 ≤ 9223372036` (outside
that range the product wraps around); the token is then non-empty when the response's
`access_token` is non-empty, and unexpired at the store instant when
`60 < expires_in ≤ 9223372096`. -/
theorem GetAccessToken_success_state (w : Outside) (c : client)
    (h : (GetAccessToken w c).err = none) :
    (GetAccessToken w c).c.accessToken = (GetAccessToken w c).val ∧
    (((GetAccessToken w c).calls = [] ∧ (GetAccessToken w c).c = c ∧
        c.accessToken ≠ "" ∧ w.now.nsec ≤ c.tokenExpiry.nsec) ∨
     (∃ res, w.Post tokenEndpoint (formData c) = .ok res ∧ res.StatusCode = 200 ∧
        (GetAccessToken w c).calls = [Call.Post tokenEndpoint (formData c)] ∧
        (GetAccessToken w c).c.accessToken = res.Result.AccessToken ∧
        (GetAccessToken w c).c.tokenExpiry =
          w.nowStored.Add (wrap64 (wrap64 (res.Result.ExpiresIn - 60) * Second)) ∧
        (-9223372036 ≤ res.Result.ExpiresIn - 60 → res.Result.ExpiresIn - 60 ≤ 9223372036 →
          (GetAccessToken w c).c.tokenExpiry.nsec
              = w.nowStored.nsec + (res.Result.ExpiresIn - 60) * 1000000000 ∧
            (GetAccessToken w c).c.tokenExpiry.offset = w.nowStored.offset) ∧
        (res.Result.AccessToken ≠ "" → (GetAccessToken w c).c.accessToken ≠ "") ∧
        (60 < res.Result.ExpiresIn → res.Result.ExpiresIn ≤ 9223372096 →
          w.nowStored.nsec < (GetAccessToken w c).c.tokenExpiry.nsec))) := by
  by_cases hneed : c.accessToken = "" ∨ w.now.After c.tokenExpiry = true
  · rw [GetAccessToken_refresh w c hneed] at h ⊢
    cases hP : w.Post tokenEndpoint (formData c) with
    | fail err =>
      rw [authenticate_fail w c err hP] at h
      simp at h
    | ok res =>
      by_cases hs : res.StatusCode = 200
      · rw [authenticate_ok w c res hP hs]
        refine ⟨rfl, Or.inr ⟨res, rfl, hs, rfl, rfl, rfl, ?_, fun hne => hne, ?_⟩⟩
        · intro hlo hhi
          show (w.nowStored.Add _).nsec = _ ∧ (w.nowStored.Add _).offset = _
          rw [expiry_duration _ hlo hhi]
          exact ⟨rfl, rfl⟩
        · intro hlo hhi
          show w.nowStored.nsec < (w.nowStored.Add _).nsec
          rw [expiry_duration _ (by omega) (by omega)]
          simp only [Time.Add]
          omega
      · rw [authenticate_status w c res hP hs] at h
        simp at h
  · rw [GetAccessToken_cached w c hneed]
    refine ⟨rfl, Or.inl ⟨rfl, rfl, ?_, ?_⟩⟩
    · exact fun h0 => hneed (Or.inl h0)
    · have : ¬ (w.now.After c.tokenExpiry = true) := fun h0 => hneed (Or.inr h0)
      rw [After_iff] at this
      omega

/-- Witness of the amended C4: a client without a token whose exchange is answered 200 with
token `fresh`, valid 3600 s, at the store instant 6 ns returns without error, stores the
token it returned, and stores the expiry 6 ns + 3540 s. -/
theorem GetAccessToken_success_state_witness :
    (GetAccessToken ⟨⟨5, 0⟩, fun _ _ => .ok ⟨200, "", ⟨"fresh", "Bearer", 3600, "navigator"⟩⟩, ⟨6, 0⟩⟩
        ⟨"id", "secret", "", ⟨0, 0⟩⟩).err = none ∧
    (GetAccessToken ⟨⟨5, 0⟩, fun _ _ => .ok ⟨200, "", ⟨"fresh", "Bearer", 3600, "navigator"⟩⟩, ⟨6, 0⟩⟩
        ⟨"id", "secret", "", ⟨0, 0⟩⟩).c.accessToken =
    (GetAccessToken ⟨⟨5, 0⟩, fun _ _ => .ok ⟨200, "", ⟨"fresh", "Bearer", 3600, "navigator"⟩⟩, ⟨6, 0⟩⟩
        ⟨"id", "secret", "", ⟨0, 0⟩⟩).val ∧
    (GetAccessToken ⟨⟨5, 0⟩, fun _ _ => .ok ⟨200, "", ⟨"fresh", "Bearer", 3600, "navigator"⟩⟩, ⟨6, 0⟩⟩
        ⟨"id", "secret", "", ⟨0, 0⟩⟩).c.tokenExpiry.nsec = 3540000000006 := by
  have herr : (GetAccessToken
      ⟨⟨5, 0⟩, fun _ _ => .ok ⟨200, "", ⟨"fresh", "Bearer", 3600, "navigator"⟩⟩, ⟨6, 0⟩⟩
      ⟨"id", "secret", "", ⟨0, 0⟩⟩).err = none := by
    rw [GetAccessToken_refresh _ _ (Or.inl rfl), authenticate_ok _ _ _ rfl rfl]
  have h := GetAccessToken_success_state
    ⟨⟨5, 0⟩, fun _ _ => .ok ⟨200, "", ⟨"fresh", "Bearer", 3600, "navigator"⟩⟩, ⟨6, 0⟩⟩
    ⟨"id", "secret", "", ⟨0, 0⟩⟩ herr
  refine ⟨herr, h.1, ?_⟩
  rcases h.2 with hc | ⟨res, hres, -, -, -, -, hexp, -⟩
  · exact absurd rfl hc.2.2.1
  · simp only [Reply.ok.injEq] at hres
    subst hres
    exact (hexp (by decide) (by decide)).1

/-! ## The expiry computation -/

/-- C5, as stated, fails for large `expires_in`: for the 200 response carrying
`expires_in = 9223372097` stored at instant `t = 0`, the product
`(expires_in − 60) · time.Second` leaves the `int64` range of `time.Duration`, and the
stored expiry is `t − 9223372036709551616 ns`, not `t + (expires_in − 60)` seconds. -/
theorem authenticate_expiry_overflow :
    (authenticate ⟨⟨0, 0⟩, fun _ _ => .ok ⟨200, "", ⟨"tok", "Bearer", 9223372097, "navigator"⟩⟩, ⟨0, 0⟩⟩
        ⟨"id", "secret", "", ⟨0, 0⟩⟩).1 = none ∧
    (authenticate ⟨⟨0, 0⟩, fun _ _ => .ok ⟨200, "", ⟨"tok", "Bearer", 9223372097, "navigator"⟩⟩, ⟨0, 0⟩⟩
        ⟨"id", "secret", "", ⟨0, 0⟩⟩).2.1.tokenExpiry.nsec = -9223372036709551616 ∧
    (authenticate ⟨⟨0, 0⟩, fun _ _ => .ok ⟨200, "", ⟨"tok", "Bearer", 9223372097, "navigator"⟩⟩, ⟨0, 0⟩⟩
        ⟨"id", "secret", "", ⟨0, 0⟩⟩).2.1.tokenExpiry.nsec ≠ 0 + (9223372097 - 60) * 1000000000 := by
  rw [authenticate_ok _ _ _ rfl rfl]
  decide

/-- C5, amended: after a successful exchange (answer 200) that reports `expires_in = e`
and is stored at instant `t`, the stored token is the response's `access_token` and the
stored expiry is exactly `t + (e − 60)` seconds, for every `e` whose reduced lifetime
fits a `time.Duration`, that is `−9223372036 ≤ e − 60 ≤ 9223372036`; the margin of 60
seconds does not depend on `e`. For `e = 3600` the expiry lies strictly after `t` and
strictly before `t` + 60 minutes. -/
theorem authenticate_expiry (w : Outside) (c : client) (res : Response OAuth2TokenResponse)
    (hres : w.Post tokenEndpoint (formData c) = .ok res) (hs : res.StatusCode = 200)
    (hlo : -9223372036 ≤ res.Result.ExpiresIn - 60)
    (hhi : res.Result.ExpiresIn - 60 ≤ 9223372036) :
    (authenticate w c).1 = none ∧
    (authenticate w c).2.1.accessToken = res.Result.AccessToken ∧
    (authenticate w c).2.1.tokenExpiry.nsec =
      w.nowStored.nsec + (res.Result.ExpiresIn - 60) * 1000000000 ∧
    (res.Result.ExpiresIn = 3600 →
      w.nowStored.nsec < (authenticate w c).2.1.tokenExpiry.nsec ∧
      (authenticate w c).2.1.tokenExpiry.nsec < w.nowStored.nsec + 60 * (60 * 1000000000)) := by
  rw [authenticate_ok w c res hres hs]
  have hexp : (w.nowStored.Add (wrap64 (wrap64 (res.Result.ExpiresIn - 60) * Second))).nsec
      = w.nowStored.nsec + (res.Result.ExpiresIn - 60) * 1000000000 := by
    rw [expiry_duration _ hlo hhi]
    rfl
  refine ⟨rfl, rfl, hexp, ?_⟩
  intro h3600
  show w.nowStored.nsec < (w.nowStored.Add _).nsec ∧
    (w.nowStored.Add _).nsec < w.nowStored.nsec + 60 * (60 * 1000000000)
  rw [hexp, h3600]
  omega

/-- Witness of the amended C5: a response with `expires_in = 3600` stored at instant
1000 ns gives the expiry 1000 ns + 3540 s. -/
theorem authenticate_expiry_witness :
    (authenticate ⟨⟨5, 0⟩, fun _ _ => .ok ⟨200, "", ⟨"tok", "Bearer", 3600, "navigator"⟩⟩, ⟨1000, 0⟩⟩
        ⟨"id", "secret", "", ⟨0, 0⟩⟩).2.1.tokenExpiry.nsec = 1000 + (3600 - 60) * 1000000000 :=
  (authenticate_expiry
    ⟨⟨5, 0⟩, fun _ _ => .ok ⟨200, "", ⟨"tok", "Bearer", 3600, "navigator"⟩⟩, ⟨1000, 0⟩⟩
    ⟨"id", "secret", "", ⟨0, 0⟩⟩ _ rfl rfl (by decide) (by decide)).2.2.1

/-- C6, as stated, fails: for a response with `expires_in = 3600` stored at instant
1000 ns the expiry is 3540 s after the store instant, which is below the claimed lower
bound of 3541 s. -/
theorem expiry_3600_below_3541 :
    (authenticate ⟨⟨5, 0⟩, fun _ _ => .ok ⟨200, "", ⟨"tok", "Bearer", 3600, "navigator"⟩⟩, ⟨1000, 0⟩⟩
        ⟨"id", "secret", "", ⟨0, 0⟩⟩).2.1.tokenExpiry.nsec - 1000 = 3540 * 1000000000 ∧
    ¬ (3541 * 1000000000 ≤
      (authenticate ⟨⟨5, 0⟩, fun _ _ => .ok ⟨200, "", ⟨"tok", "Bearer", 3600, "navigator"⟩⟩, ⟨1000, 0⟩⟩
        ⟨"id", "secret", "", ⟨0, 0⟩⟩).2.1.tokenExpiry.nsec - 1000) := by
  rw [authenticate_ok _ _ _ rfl rfl]
  decide

/-- C6, amended: for an exchange answered 200 that reports `expires_in = 3600`, the
resulting expiry is exactly 3540 seconds after the instant at which the token was
stored; measured from an issuance instant that precedes the store instant by at most
59 seconds it is between 3540 and 3599 seconds (inclusive). -/
theorem expiry_3600_margin (w : Outside) (c : client) (res : Response OAuth2TokenResponse)
    (hres : w.Post tokenEndpoint (formData c) = .ok res) (hs : res.StatusCode = 200)
    (he : res.Result.ExpiresIn = 3600) :
    (authenticate w c).2.1.tokenExpiry.nsec - w.nowStored.nsec = 3540 * 1000000000 ∧
    ∀ issued : Time, issued.nsec ≤ w.nowStored.nsec →
      w.nowStored.nsec - issued.nsec ≤ 59 * 1000000000 →
      3540 * 1000000000 ≤ (authenticate w c).2.1.tokenExpiry.nsec - issued.nsec ∧
      (authenticate w c).2.1.tokenExpiry.nsec - issued.nsec ≤ 3599 * 1000000000 := by
  rw [authenticate_ok w c res hres hs]
  have hexp : (w.nowStored.Add (wrap64 (wrap64 (res.Result.ExpiresIn - 60) * Second))).nsec
      = w.nowStored.nsec + 3540 * 1000000000 := by
    rw [expiry_duration _ (by omega) (by omega), he]
    rfl
  constructor
  · show (w.nowStored.Add _).nsec - w.nowStored.nsec = _
    rw [hexp]; omega
  · intro issued h1 h2
    show _ ≤ (w.nowStored.Add _).nsec - issued.nsec ∧
      (w.nowStored.Add _).nsec - issued.nsec ≤ _
    rw [hexp]; omega

/-- Witness of the amended C6: a response with `expires_in = 3600` stored at instant
1000 ns expires 3540 s after that instant. -/
theorem expiry_3600_margin_witness :
    (authenticate ⟨⟨5, 0⟩, fun _ _ => .ok ⟨200, "", ⟨"tok", "Bearer", 3600, "navigator"⟩⟩, ⟨1000, 0⟩⟩
        ⟨"id", "secret", "", ⟨0, 0⟩⟩).2.1.tokenExpiry.nsec - (1000 : Int) = 3540 * 1000000000 :=
  (expiry_3600_margin
    ⟨⟨5, 0⟩, fun _ _ => .ok ⟨200, "", ⟨"tok", "Bearer", 3600, "navigator"⟩⟩, ⟨1000, 0⟩⟩
    ⟨"id", "secret", "", ⟨0, 0⟩⟩ _ rfl rfl rfl).1

/-! ## The resource operations -/

/-- C7: for each of the three list operations (`GetInstallations` for every filter,
`GetMeasurementSeries`, `GetMeasurements` for every id, resolution, range and
`includeMissing`), when the token is obtained without error and the endpoint answers
204, the operation returns no error and a result whose list is empty and non-nil,
whatever body and decoded value the response carries. -/
theorem list_operations_204 (Format : String → Time → String) (w : Outside) (c : client)
    (httpI : String → Request → Reply InstallationsWrapper)
    (httpS : String → Request → Reply InstallationsMeasurementsWrapper)
    (httpM : String → Request → Reply MeasurementsWrapper)
    (filter : Slice String) (id : Int) (resolution : Resolution) (from_ to_ : Time)
    (includeMissing : Bool)
    (htok : (GetAccessToken w c).err = none)
    (hI : ∀ path req, ∃ res, httpI path req = .ok res ∧ res.StatusCode = 204)
    (hS : ∀ path req, ∃ res, httpS path req = .ok res ∧ res.StatusCode = 204)
    (hM : ∀ path req, ∃ res, httpM path req = .ok res ∧ res.StatusCode = 204) :
    ((GetInstallations w httpI c filter).err = none ∧
      (GetInstallations w httpI c filter).val.Installations = some []) ∧
    ((GetMeasurementSeries w httpS c).err = none ∧
      (GetMeasurementSeries w httpS c).val.Installations = some []) ∧
    ((GetMeasurements Format w httpM c id resolution from_ to_ includeMissing).err = none ∧
      (GetMeasurements Format w httpM c id resolution from_ to_ includeMissing).val.Measurements
        = some []) := by
  refine ⟨?_, ?_, ?_⟩
  · obtain ⟨res, hres, hs⟩ :=
      hI "/installations" (installationsRequest (GetAccessToken w c).val filter)
    simp [GetInstallations, htok, hres, hs]
  · obtain ⟨res, hres, hs⟩ :=
      hS "/installations/measurement-series" ⟨(GetAccessToken w c).val, []⟩
    simp [GetMeasurementSeries, htok, hres, hs]
  · obtain ⟨res, hres, hs⟩ :=
      hM (measurementsPath id resolution)
        (measurementsRequest Format (GetAccessToken w c).val from_ to_ includeMissing)
    simp [GetMeasurements, htok, hres, hs]

/-- Witness of C7: a client holding the unexpired token `fake-token`, whose three list
endpoints answer 204 with a body and a decoded value that are not empty, gets empty
non-nil lists and no error. -/
theorem list_operations_204_witness :
    ((GetInstallations ⟨⟨5, 0⟩, fun _ _ => .fail (.transport "unreachable"), ⟨5, 0⟩⟩
        (fun _ _ => .ok ⟨204, "body", ⟨none⟩⟩)
        ⟨"id", "secret", "fake-token", ⟨100, 0⟩⟩ (some ["inst-1"])).err = none ∧
      (GetInstallations ⟨⟨5, 0⟩, fun _ _ => .fail (.transport "unreachable"), ⟨5, 0⟩⟩
        (fun _ _ => .ok ⟨204, "body", ⟨none⟩⟩)
        ⟨"id", "secret", "fake-token", ⟨100, 0⟩⟩ (some ["inst-1"])).val.Installations = some []) ∧
    ((GetMeasurementSeries ⟨⟨5, 0⟩, fun _ _ => .fail (.transport "unreachable"), ⟨5, 0⟩⟩
        (fun _ _ => .ok ⟨204, "body", ⟨some [⟨"inst-1", none⟩]⟩⟩)
        ⟨"id", "secret", "fake-token", ⟨100, 0⟩⟩).err = none ∧
      (GetMeasurementSeries ⟨⟨5, 0⟩, fun _ _ => .fail (.transport "unreachable"), ⟨5, 0⟩⟩
        (fun _ _ => .ok ⟨204, "body", ⟨some [⟨"inst-1", none⟩]⟩⟩)
        ⟨"id", "secret", "fake-token", ⟨100, 0⟩⟩).val.Installations = some []) ∧
    ((GetMeasurements (fun _ _ => "") ⟨⟨5, 0⟩, fun _ _ => .fail (.transport "unreachable"), ⟨5, 0⟩⟩
        (fun _ _ => .ok ⟨204, "body", ⟨12345, "hour", some [⟨⟨⟨7, 0⟩⟩, none⟩]⟩⟩)
        ⟨"id", "secret", "fake-token", ⟨100, 0⟩⟩ 12345 Hour ⟨0, 0⟩ ⟨0, 0⟩ false).err = none ∧
      (GetMeasurements (fun _ _ => "") ⟨⟨5, 0⟩, fun _ _ => .fail (.transport "unreachable"), ⟨5, 0⟩⟩
        (fun _ _ => .ok ⟨204, "body", ⟨12345, "hour", some [⟨⟨⟨7, 0⟩⟩, none⟩]⟩⟩)
        ⟨"id", "secret", "fake-token", ⟨100, 0⟩⟩ 12345 Hour ⟨0, 0⟩ ⟨0, 0⟩ false).val.Measurements
        = some []) :=
  list_operations_204 (fun _ _ => "")
    ⟨⟨5, 0⟩, fun _ _ => .fail (.transport "unreachable"), ⟨5, 0⟩⟩
    ⟨"id", "secret", "fake-token", ⟨100, 0⟩⟩
    (fun _ _ => .ok ⟨204, "body", ⟨none⟩⟩)
    (fun _ _ => .ok ⟨204, "body", ⟨some [⟨"inst-1", none⟩]⟩⟩)
    (fun _ _ => .ok ⟨204, "body", ⟨12345, "hour", some [⟨⟨⟨7, 0⟩⟩, none⟩]⟩⟩)
    (some ["inst-1"]) 12345 Hour ⟨0, 0⟩ ⟨0, 0⟩ false
    (by rw [GetAccessToken_cached _ _ (by decide)])
    (fun _ _ => ⟨_, rfl, rfl⟩) (fun _ _ => ⟨_, rfl, rfl⟩) (fun _ _ => ⟨_, rfl, rfl⟩)

/-- C8, as stated, fails: for the installation `inst-1`, a client holding an unexpired
token and a costs endpoint answering 204, `GetCosts` returns a nil result and an error
whose message contains `no cost data available`, but that error is not
`ErrorNoContent`, the error `apiError` gives for 204, and does not wrap it. -/
theorem GetCosts_204_not_ErrorNoContent :
    apiError 204 = some ErrorNoContent ∧
    ∃ e, (GetCosts (fun _ _ => "") ⟨⟨5, 0⟩, fun _ _ => .fail (.transport "unreachable"), ⟨5, 0⟩⟩
        (fun _ _ => (.ok ⟨204, "", none⟩ : Reply (Option String)))
        ⟨"id", "secret", "fake-token", ⟨100, 0⟩⟩ "inst-1" none none).err = some e ∧
      e ≠ ErrorNoContent ∧ errorsIs e ErrorNoContent = false ∧ e.Unwrap = none := by
  refine ⟨rfl, .errorString "no cost data available for installation inst-1", ?_, ?_, ?_, ?_⟩
  · rfl
  · decide
  · decide
  · rfl

/-- C8, amended: for every installation id, when the token is obtained without error
and the costs endpoint answers 204, `GetCosts` returns a nil result and a non-nil error
that is a fresh value with the message `no cost data available for installation <id>`,
so the message contains `no cost data available`; the error wraps nothing and is none
of the package error variables. -/
theorem GetCosts_204 {V : Type} (Format : String → Time → String) (w : Outside) (c : client)
    (http : String → Request → Reply (Option V)) (installationID : String)
    (from_ to_ : Option Time)
    (htok : (GetAccessToken w c).err = none)
    (h204 : ∀ path req, ∃ res, http path req = .ok res ∧ res.StatusCode = 204) :
    (GetCosts Format w http c installationID from_ to_).val = none ∧
    ∃ e, (GetCosts Format w http c installationID from_ to_).err = some e ∧
      e = .errorString ("no cost data available for installation " ++ installationID) ∧
      Contains e.Error "no cost data available" ∧
      e.Unwrap = none ∧ ∀ v, errorsIs e (.pkg v) = false := by
  obtain ⟨res, hres, hs⟩ :=
    h204 (costsPath installationID) (costsRequest Format (GetAccessToken w c).val from_ to_)
  refine ⟨by simp [GetCosts, htok, hres, hs], _, ?_, rfl, ?_, rfl, ?_⟩
  · simp [GetCosts, htok, hres, hs]
  · have h : "no cost data available for installation " ++ installationID
        = "no cost data available" ++ (" for installation " ++ installationID) := by
      rw [← String.append_assoc]; rfl
    show Contains ("no cost data available for installation " ++ installationID) _
    rw [h]
    exact contains_lead _ _
  · intro v
    simp [errorsIs]

/-- Witness of the amended C8: the installation `inst-1` with an unexpired token and a
204 answer gives the nil result. -/
theorem GetCosts_204_witness :
    (GetCosts (fun _ _ => "") ⟨⟨5, 0⟩, fun _ _ => .fail (.transport "unreachable"), ⟨5, 0⟩⟩
        (fun _ _ => (.ok ⟨204, "", none⟩ : Reply (Option String)))
        ⟨"id", "secret", "fake-token", ⟨100, 0⟩⟩ "inst-1" none none).val = none :=
  (GetCosts_204 (fun _ _ => "") ⟨⟨5, 0⟩, fun _ _ => .fail (.transport "unreachable"), ⟨5, 0⟩⟩
    ⟨"id", "secret", "fake-token", ⟨100, 0⟩⟩
    (fun _ _ => (.ok ⟨204, "", none⟩ : Reply (Option String))) "inst-1" none none
    (by rw [GetAccessToken_cached _ _ (by decide)])
    (fun _ _ => ⟨_, rfl, rfl⟩)).1

set_option maxRecDepth 20000 in
/-- C9, as stated, fails: with an unexpired token and the installations endpoint
answering 401 with the body of the test, `GetInstallations` returns an error that is not
`ErrorUnauthorized`, the kind `apiError` gives for 401, does not wrap it, and whose
message does not contain its text. -/
theorem GetInstallations_401_not_classified :
    apiError 401 = some ErrorUnauthorized ∧
    ∃ e, (GetInstallations ⟨⟨5, 0⟩, fun _ _ => .fail (.transport "unreachable"), ⟨5, 0⟩⟩
        (fun _ _ => .ok ⟨401, "\x7b\"error\":\"unauthorized\"\x7d", ⟨none⟩⟩)
        ⟨"id", "secret", "fake-token", ⟨100, 0⟩⟩ none).err = some e ∧
      e.Error = "failed to get installations: \x7b\"error\":\"unauthorized\"\x7d (status 401)" ∧
      e ≠ ErrorUnauthorized ∧ errorsIs e ErrorUnauthorized = false ∧
      ¬ Contains e.Error ErrorUnauthorized.Error := by
  refine ⟨rfl, .errorString
    "failed to get installations: \x7b\"error\":\"unauthorized\"\x7d (status 401)",
    ?_, ?_, ?_, ?_, ?_⟩
  · rfl
  · rfl
  · decide
  · decide
  · decide

/-- C9, amended: for each of the four resource operations and every response status `s`
other than 200 and 204, when the token is obtained without error and the endpoint
answers `s` with body `body`, the operation returns its zero result (nil for `GetCosts`)
and a non-nil error, a fresh value wrapping nothing, whose message is
`failed to get <resource>: <body> (status <s>)`; the message embeds the numeric status
and the response body. -/
theorem resource_operations_error_status {V : Type} (Format : String → Time → String)
    (w : Outside) (c : client)
    (httpI : String → Request → Reply InstallationsWrapper)
    (httpS : String → Request → Reply InstallationsMeasurementsWrapper)
    (httpM : String → Request → Reply MeasurementsWrapper)
    (httpC : String → Request → Reply (Option V))
    (filter : Slice String) (id : Int) (resolution : Resolution) (from_ to_ : Time)
    (includeMissing : Bool) (installationID : String) (cfrom cto : Option Time)
    (s : Int) (body : String)
    (htok : (GetAccessToken w c).err = none) (h200 : s ≠ 200) (h204 : s ≠ 204)
    (hI : ∀ path req, ∃ res, httpI path req = .ok res ∧ res.StatusCode = s ∧ res.Body = body)
    (hS : ∀ path req, ∃ res, httpS path req = .ok res ∧ res.StatusCode = s ∧ res.Body = body)
    (hM : ∀ path req, ∃ res, httpM path req = .ok res ∧ res.StatusCode = s ∧ res.Body = body)
    (hC : ∀ path req, ∃ res, httpC path req = .ok res ∧ res.StatusCode = s ∧ res.Body = body) :
    ((GetInstallations w httpI c filter).val = ⟨none⟩ ∧
      (GetInstallations w httpI c filter).err = some (.errorString
        ("failed to get installations: " ++ body ++ " (status " ++ fmtD s ++ ")"))) ∧
    ((GetMeasurementSeries w httpS c).val = ⟨none⟩ ∧
      (GetMeasurementSeries w httpS c).err = some (.errorString
        ("failed to get measurement series: " ++ body ++ " (status " ++ fmtD s ++ ")"))) ∧
    ((GetMeasurements Format w httpM c id resolution from_ to_ includeMissing).val
        = ⟨0, "", none⟩ ∧
      (GetMeasurements Format w httpM c id resolution from_ to_ includeMissing).err
        = some (.errorString
        ("failed to get measurements: " ++ body ++ " (status " ++ fmtD s ++ ")"))) ∧
    ((GetCosts Format w httpC c installationID cfrom cto).val = none ∧
      (GetCosts Format w httpC c installationID cfrom cto).err = some (.errorString
        ("failed to get costs: " ++ body ++ " (status " ++ fmtD s ++ ")"))) ∧
    ∀ what : String,
      Contains (GoError.errorString
        (what ++ body ++ " (status " ++ fmtD s ++ ")")).Error body ∧
      Contains (GoError.errorString
        (what ++ body ++ " (status " ++ fmtD s ++ ")")).Error (fmtD s) ∧
      (GoError.errorString (what ++ body ++ " (status " ++ fmtD s ++ ")")).Unwrap = none := by
  refine ⟨?_, ?_, ?_, ?_, ?_⟩
  · obtain ⟨res, hres, hs, hb⟩ :=
      hI "/installations" (installationsRequest (GetAccessToken w c).val filter)
    simp [GetInstallations, htok, hres, hs, hb, h200, h204]
  · obtain ⟨res, hres, hs, hb⟩ :=
      hS "/installations/measurement-series" ⟨(GetAccessToken w c).val, []⟩
    simp [GetMeasurementSeries, htok, hres, hs, hb, h200, h204]
  · obtain ⟨res, hres, hs, hb⟩ :=
      hM (measurementsPath id resolution)
        (measurementsRequest Format (GetAccessToken w c).val from_ to_ includeMissing)
    simp [GetMeasurements, htok, hres, hs, hb, h200, h204]
  · obtain ⟨res, hres, hs, hb⟩ :=
      hC (costsPath installationID)
        (costsRequest Format (GetAccessToken w c).val cfrom cto)
    simp [GetCosts, htok, hres, hs, hb, h200, h204]
  · intro what
    exact ⟨(contains_status_error _ _ _ _ _).1, (contains_status_error _ _ _ _ _).2, rfl⟩

/-- Witness of the amended C9: with an unexpired token and an endpoint answering 404 with
body `gone`, `GetCosts` returns nil and the error `failed to get costs: gone (status 404)`. -/
theorem resource_operations_error_status_witness :
    (GetCosts (fun _ _ => "") ⟨⟨5, 0⟩, fun _ _ => .fail (.transport "unreachable"), ⟨5, 0⟩⟩
        (fun _ _ => (.ok ⟨404, "gone", none⟩ : Reply (Option String)))
        ⟨"id", "secret", "fake-token", ⟨100, 0⟩⟩ "inst-1" none none).val = none ∧
    (GetCosts (fun _ _ => "") ⟨⟨5, 0⟩, fun _ _ => .fail (.transport "unreachable"), ⟨5, 0⟩⟩
        (fun _ _ => (.ok ⟨404, "gone", none⟩ : Reply (Option String)))
        ⟨"id", "secret", "fake-token", ⟨100, 0⟩⟩ "inst-1" none none).err
      = some (.errorString ("failed to get costs: " ++ "gone" ++ " (status " ++ fmtD 404 ++ ")")) :=
  (resource_operations_error_status (fun _ _ => "")
    ⟨⟨5, 0⟩, fun _ _ => .fail (.transport "unreachable"), ⟨5, 0⟩⟩
    ⟨"id", "secret", "fake-token", ⟨100, 0⟩⟩
    (fun _ _ => .ok ⟨404, "gone", ⟨none⟩⟩)
    (fun _ _ => .ok ⟨404, "gone", ⟨none⟩⟩)
    (fun _ _ => .ok ⟨404, "gone", ⟨0, "", none⟩⟩)
    (fun _ _ => (.ok ⟨404, "gone", none⟩ : Reply (Option String)))
    none 12345 Hour ⟨0, 0⟩ ⟨0, 0⟩ false "inst-1" none none 404 "gone"
    (by rw [GetAccessToken_cached _ _ (by decide)]) (by decide) (by decide)
    (fun _ _ => ⟨_, rfl, rfl, rfl⟩) (fun _ _ => ⟨_, rfl, rfl, rfl⟩)
    (fun _ _ => ⟨_, rfl, rfl, rfl⟩) (fun _ _ => ⟨_, rfl, rfl, rfl⟩)).2.2.2.1

/-- C10: for each of the four resource operations, if `GetAccessToken` fails with error
`e`, the operation returns its zero result (nil for `GetCosts`) together with that same
error `e`, and its network calls are those of `GetAccessToken` alone: no request is sent
to the resource endpoint. -/
theorem token_failure_propagates {V : Type} (Format : String → Time → String)
    (w : Outside) (c : client)
    (httpI : String → Request → Reply InstallationsWrapper)
    (httpS : String → Request → Reply InstallationsMeasurementsWrapper)
    (httpM : String → Request → Reply MeasurementsWrapper)
    (httpC : String → Request → Reply (Option V))
    (filter : Slice String) (id : Int) (resolution : Resolution) (from_ to_ : Time)
    (includeMissing : Bool) (installationID : String) (cfrom cto : Option Time)
    (e : GoError) (htok : (GetAccessToken w c).err = some e) :
    ((GetInstallations w httpI c filter).val = ⟨none⟩ ∧
      (GetInstallations w httpI c filter).err = some e ∧
      (GetInstallations w httpI c filter).calls = (GetAccessToken w c).calls ∧
      apiRequests (GetInstallations w httpI c filter).calls = []) ∧
    ((GetMeasurementSeries w httpS c).val = ⟨none⟩ ∧
      (GetMeasurementSeries w httpS c).err = some e ∧
      (GetMeasurementSeries w httpS c).calls = (GetAccessToken w c).calls ∧
      apiRequests (GetMeasurementSeries w httpS c).calls = []) ∧
    ((GetMeasurements Format w httpM c id resolution from_ to_ includeMissing).val
        = ⟨0, "", none⟩ ∧
      (GetMeasurements Format w httpM c id resolution from_ to_ includeMissing).err = some e ∧
      (GetMeasurements Format w httpM c id resolution from_ to_ includeMissing).calls
        = (GetAccessToken w c).calls ∧
      apiRequests (GetMeasurements Format w httpM c id resolution from_ to_ includeMissing).calls
        = []) ∧
    ((GetCosts Format w httpC c installationID cfrom cto).val = none ∧
      (GetCosts Format w httpC c installationID cfrom cto).err = some e ∧
      (GetCosts Format w httpC c installationID cfrom cto).calls = (GetAccessToken w c).calls ∧
      apiRequests (GetCosts Format w httpC c installationID cfrom cto).calls = []) := by
  have hno := GetAccessToken_no_apiRequests w c
  refine ⟨?_, ?_, ?_, ?_⟩
  · simp [GetInstallations, htok, hno]
  · simp [GetMeasurementSeries, htok, hno]
  · simp [GetMeasurements, htok, hno]
  · simp [GetCosts, htok, hno]

/-- Witness of C10: a client without a token whose exchange fails in transport with
error `unreachable` gets from `GetCosts` the nil result and the very error
`GetAccessToken` returned, and sends nothing to the costs endpoint. -/
theorem token_failure_propagates_witness :
    (GetAccessToken ⟨⟨5, 0⟩, fun _ _ => .fail (.transport "unreachable"), ⟨5, 0⟩⟩
        ⟨"id", "secret", "", ⟨0, 0⟩⟩).err
      = some (.wrapError "failed to authenticate: unreachable" (.transport "unreachable")) ∧
    (GetCosts (fun _ _ => "") ⟨⟨5, 0⟩, fun _ _ => .fail (.transport "unreachable"), ⟨5, 0⟩⟩
        (fun _ _ => (.ok ⟨200, "", some "costs"⟩ : Reply (Option String)))
        ⟨"id", "secret", "", ⟨0, 0⟩⟩ "inst-1" none none).val = none ∧
    (GetCosts (fun _ _ => "") ⟨⟨5, 0⟩, fun _ _ => .fail (.transport "unreachable"), ⟨5, 0⟩⟩
        (fun _ _ => (.ok ⟨200, "", some "costs"⟩ : Reply (Option String)))
        ⟨"id", "secret", "", ⟨0, 0⟩⟩ "inst-1" none none).err
      = some (.wrapError "failed to authenticate: unreachable" (.transport "unreachable")) ∧
    apiRequests (GetCosts (fun _ _ => "")
        ⟨⟨5, 0⟩, fun _ _ => .fail (.transport "unreachable"), ⟨5, 0⟩⟩
        (fun _ _ => (.ok ⟨200, "", some "costs"⟩ : Reply (Option String)))
        ⟨"id", "secret", "", ⟨0, 0⟩⟩ "inst-1" none none).calls = [] :=
  have h := (token_failure_propagates (fun _ _ => "")
    ⟨⟨5, 0⟩, fun _ _ => .fail (.transport "unreachable"), ⟨5, 0⟩⟩
    ⟨"id", "secret", "", ⟨0, 0⟩⟩
    (fun _ _ => .ok ⟨200, "", ⟨none⟩⟩)
    (fun _ _ => .ok ⟨200, "", ⟨none⟩⟩)
    (fun _ _ => .ok ⟨200, "", ⟨0, "", none⟩⟩)
    (fun _ _ => (.ok ⟨200, "", some "costs"⟩ : Reply (Option String)))
    none 12345 Hour ⟨0, 0⟩ ⟨0, 0⟩ false "inst-1" none none
    (.wrapError "failed to authenticate: unreachable" (.transport "unreachable")) rfl).2.2.2
  ⟨rfl, h.1, h.2.1, h.2.2.2⟩

theorem isLeap_iff (y : Int) :
    isLeap y = true ↔ y % 4 = 0 ∧ (y % 100 ≠ 0 ∨ y % 400 = 0) := by
  simp [isLeap]

theorem daysSinceEpoch_cycles (a n100 n4 n1 : Int) (h100 : 0 ≤ n100 ∧ n100 ≤ 3)
    (h4 : 0 ≤ n4 ∧ n4 ≤ 24) (h1 : 0 ≤ n1 ∧ n1 ≤ 3) :
    daysSinceEpoch (400 * a + 100 * n100 + 4 * n4 + n1 + 1)
      = 146097 * a + 36524 * n100 + 1461 * n4 + 365 * n1 := by
  simp only [daysSinceEpoch]
  have e1 : (400 * a + 100 * n100 + 4 * n4 + n1 + 1 - 1) / 400 = a := by omega
  rw [e1]
  have e2 : (400 * a + 100 * n100 + 4 * n4 + n1 + 1 - 1 - 400 * a) / 100 = n100 := by omega
  rw [e2]
  have e3 : (400 * a + 100 * n100 + 4 * n4 + n1 + 1 - 1 - 400 * a - 100 * n100) / 4 = n4 := by
    omega
  rw [e3]
  omega

theorem yearDay_spec (n : Int) :
    daysSinceEpoch (yearDay n).1 + (yearDay n).2 = n ∧
    0 ≤ (yearDay n).2 ∧
    (yearDay n).2 < (if isLeap (yearDay n).1 = true then 366 else 365) := by
  obtain ⟨a, ha⟩ : ∃ a, n / 146097 = a := ⟨_, rfl⟩
  obtain ⟨d1, hd1⟩ : ∃ d1, n - 146097 * a = d1 := ⟨_, rfl⟩
  obtain ⟨c, hc⟩ : ∃ c, d1 / 36524 = c := ⟨_, rfl⟩
  obtain ⟨n100, hn100⟩ : ∃ x, c - c / 4 = x := ⟨_, rfl⟩
  obtain ⟨d2, hd2⟩ : ∃ x, d1 - 36524 * n100 = x := ⟨_, rfl⟩
  obtain ⟨n4, hn4⟩ : ∃ x, d2 / 1461 = x := ⟨_, rfl⟩
  obtain ⟨d3, hd3⟩ : ∃ x, d2 - 1461 * n4 = x := ⟨_, rfl⟩
  obtain ⟨q, hq⟩ : ∃ x, d3 / 365 = x := ⟨_, rfl⟩
  obtain ⟨n1, hn1⟩ : ∃ x, q - q / 4 = x := ⟨_, rfl⟩
  have hy : yearDay n = (400 * a + 100 * n100 + 4 * n4 + n1 + 1, d3 - 365 * n1) := by
    simp only [yearDay, ha, hd1, hc, hn100, hd2, hn4, hd3, hq, hn1]
  rw [hy]
  have b1 : 0 ≤ d1 ∧ d1 < 146097 := by omega
  have b2 : 0 ≤ c ∧ c ≤ 4 := by omega
  have b3 : 0 ≤ n100 ∧ n100 ≤ 3 := by omega
  have b4 : 0 ≤ d2 ∧ d2 ≤ 36524 ∧ (n100 < 3 → d2 < 36524) := by omega
  have b5 : 0 ≤ n4 ∧ n4 ≤ 24 := by omega
  have b6 : 0 ≤ d3 ∧ d3 ≤ 1460 ∧ (n4 = 24 → d3 = 1460 → n100 = 3) := by omega
  have b7 : 0 ≤ q ∧ q ≤ 4 := by omega
  have b8 : 0 ≤ n1 ∧ n1 ≤ 3 := by omega
  simp only [daysSinceEpoch_cycles a n100 n4 n1 b3 b5 b8, isLeap_iff]
  refine ⟨by omega, by omega, ?_⟩
  by_cases h : d3 = 1460
  · have hn1 : n1 = 3 := by omega
    have hl : (400 * a + 100 * n100 + 4 * n4 + n1 + 1) % 4 = 0 ∧
        ((400 * a + 100 * n100 + 4 * n4 + n1 + 1) % 100 ≠ 0 ∨
          (400 * a + 100 * n100 + 4 * n4 + n1 + 1) % 400 = 0) := by
      by_cases h24 : n4 = 24
      · have h3 := b6.2.2 h24 h
        exact ⟨by omega, Or.inr (by omega)⟩
      · exact ⟨by omega, Or.inl (by omega)⟩
    rw [if_pos hl]
    omega
  · split <;> omega

theorem monthOf_spec (day : Int) (h0 : 0 ≤ day) (h1 : day < 365) :
    1 ≤ (monthOf day).1 ∧ (monthOf day).1 ≤ 12 ∧ 1 ≤ (monthOf day).2 ∧
    (monthOf day).2 ≤ daysBefore (monthOf day).1 - daysBefore ((monthOf day).1 - 1) ∧
    daysBefore ((monthOf day).1 - 1) + ((monthOf day).2 - 1) = day ∧
    (day < 59 → (monthOf day).1 ≤ 2) ∧ (59 ≤ day → 3 ≤ (monthOf day).1) := by
  obtain ⟨k, hk⟩ : ∃ k : Nat, day / 31 = k := ⟨(day / 31).toNat, by omega⟩
  have hm : (day / 31).toNat = k := by omega
  have hk11 : k ≤ 11 := by omega
  simp only [monthOf, hm]
  interval_cases k <;> simp only [daysBefore] <;> split <;> simp only [daysBefore] <;> omega

theorem monthDay_spec (y yday : Int) (h0 : 0 ≤ yday)
    (h1 : yday < if isLeap y = true then 366 else 365) :
    1 ≤ (monthDay y yday).1 ∧ (monthDay y yday).1 ≤ 12 ∧
    1 ≤ (monthDay y yday).2 ∧ (monthDay y yday).2 ≤ daysIn (monthDay y yday).1 y ∧
    daysBefore ((monthDay y yday).1 - 1)
      + (if isLeap y = true ∧ 3 ≤ (monthDay y yday).1 then 1 else 0)
      + ((monthDay y yday).2 - 1) = yday := by
  cases hl : isLeap y
  · -- a year without leap day
    simp only [hl] at h1
    obtain ⟨c1, c2, c3, c4, c5, -, -⟩ := monthOf_spec yday h0 (by simpa using h1)
    have e : monthDay y yday = monthOf yday := by simp [monthDay, hl]
    have ed : daysIn (monthOf yday).1 y
        = daysBefore (monthOf yday).1 - daysBefore ((monthOf yday).1 - 1) := by
      simp [daysIn, hl]
    rw [e, ed]
    simp only [Bool.false_eq_true, false_and, if_false]
    exact ⟨c1, c2, c3, c4, by omega⟩
  · simp only [hl, if_true] at h1
    by_cases hfeb : yday = 59
    · subst hfeb
      simp [monthDay, hl, daysIn, daysBefore]
    · by_cases hgt : 59 < yday
      · obtain ⟨c1, c2, c3, c4, c5, -, c7⟩ := monthOf_spec (yday - 1) (by omega) (by omega)
        have hm3 := c7 (by omega)
        have hne : ¬ (monthOf (yday - 1)).1 = 2 := by omega
        have e : monthDay y yday = monthOf (yday - 1) := by simp [monthDay, hl, hfeb, hgt]
        have ed : daysIn (monthOf (yday - 1)).1 y
            = daysBefore (monthOf (yday - 1)).1 - daysBefore ((monthOf (yday - 1)).1 - 1) := by
          simp [daysIn, hne]
        rw [e, ed]
        simp only [true_and, hm3, if_true]
        exact ⟨c1, c2, c3, c4, by omega⟩
      · obtain ⟨c1, c2, c3, c4, c5, c6, -⟩ := monthOf_spec yday h0 (by omega)
        have hm2 := c6 (by omega)
        have hn3 : ¬ (3 ≤ (monthOf yday).1) := by omega
        have e : monthDay y yday = monthOf yday := by simp [monthDay, hl, hfeb, hgt]
        rw [e]
        simp only [true_and, hn3, if_false]
        refine ⟨c1, c2, c3, ?_, by omega⟩
        unfold daysIn
        split
        · rename_i h2
          rw [h2.1] at c4
          simp only [daysBefore] at c4
          omega
        · exact c4

theorem civil_spec (n : Int) :
    1 ≤ (civil n).2.1 ∧ (civil n).2.1 ≤ 12 ∧
    1 ≤ (civil n).2.2 ∧ (civil n).2.2 ≤ daysIn (civil n).2.1 (civil n).1 ∧
    dateToDays (civil n).1 (civil n).2.1 (civil n).2.2 = n := by
  obtain ⟨y1, y2, y3⟩ := yearDay_spec n
  obtain ⟨m1, m2, m3, m4, m5⟩ := monthDay_spec (yearDay n).1 (yearDay n).2 y2 y3
  simp only [civil, dateToDays]
  exact ⟨m1, m2, m3, m4, by omega⟩

/-! ## Digits and numbers in texts -/

theorem isDigit_digitChar (n : Nat) : isDigit (digitChar n) = true := by
  rcases n with _ | _ | _ | _ | _ | _ | _ | _ | _ | n <;> rfl

theorem digitVal_digitChar (n : Nat) (h : n < 10) : digitVal (digitChar n) = n := by
  interval_cases n <;> rfl

theorem appendInt_two (n : Nat) (h : n < 100) :
    appendInt (n : Int) 2 = [digitChar (n / 10), digitChar (n % 10)] := by
  simp [appendInt, h]

theorem appendInt_four (n : Nat) (h : n < 10000) :
    appendInt (n : Int) 4
      = [digitChar (n / 1000), digitChar (n / 100 % 10), digitChar (n / 10 % 10),
          digitChar (n % 10)] := by
  simp [appendInt, h]

theorem getnum_two (n : Nat) (h : n < 100) (rest : List Char) (fixed : Bool) :
    getnum (appendInt (n : Int) 2 ++ rest) fixed = some ((n : Int), rest) := by
  rw [appendInt_two n h]
  simp only [List.cons_append, List.nil_append, getnum, isDigit_digitChar, if_true]
  rw [digitVal_digitChar _ (by omega), digitVal_digitChar _ (by omega)]
  congr 2
  omega

theorem atoi_digit (a : Nat) (r : List Char) (hr : r.all isDigit = true) :
    atoi (digitChar a :: r) = some (digitsVal (digitChar a :: r) : Int) := by
  have h : ∀ c : Char, c ≠ '-' → c ≠ '+' → isDigit c = true →
      atoi (c :: r) = some (digitsVal (c :: r) : Int) := by
    intro c h1 h2 h3
    unfold atoi
    split
    · rename_i heq; simp at heq; exact absurd heq.1 h1
    · rename_i heq; simp at heq; exact absurd heq.1 h2
    · simp [h3, hr]
  have hd := isDigit_digitChar a
  apply h _ _ _ hd
  · intro he; rw [he] at hd; revert hd; decide
  · intro he; rw [he] at hd; revert hd; decide

theorem atoi_four (n : Nat) (h : n < 10000) :
    atoi (appendInt (n : Int) 4) = some (n : Int) := by
  rw [appendInt_four n h, atoi_digit _ _ (by simp [isDigit_digitChar])]
  simp only [digitsVal, List.foldl]
  rw [digitVal_digitChar _ (by omega), digitVal_digitChar _ (by omega),
    digitVal_digitChar _ (by omega), digitVal_digitChar _ (by omega)]
  congr 1
  push_cast
  omega

/-! ## Reading back what `Format` writes -/

theorem scanLayout_RFC3339 :
    scanLayout RFC3339.data 0 [] =
      ([⟨[], .stdLongYear, ['2', '0', '0', '6']⟩, ⟨['-'], .stdZeroMonth, ['0', '1']⟩,
        ⟨['-'], .stdZeroDay, ['0', '2']⟩, ⟨['T'], .stdHour, ['1', '5']⟩,
        ⟨[':'], .stdZeroMinute, ['0', '4']⟩, ⟨[':'], .stdZeroSecond, ['0', '5']⟩,
        ⟨[], .stdISO8601ColonTZ, ['Z', '0', '7', ':', '0', '0']⟩], []) := by
  decide

theorem parseStd_year (n : Nat) (h : n < 10000) (next : Option Std) (f : Fields)
    (rest : List Char) :
    parseStd .stdLongYear next f (appendInt (n : Int) 4 ++ rest)
      = .ok { f with year := (n : Int) } rest := by
  have ha := atoi_four n h
  rw [appendInt_four n h] at ha ⊢
  simp [parseStd, isDigit_digitChar, ha]

theorem parseStd_month (n : Nat) (h1 : 1 ≤ n) (h12 : n ≤ 12) (next : Option Std) (f : Fields)
    (rest : List Char) :
    parseStd .stdZeroMonth next f (appendInt (n : Int) 2 ++ rest)
      = .ok { f with month := (n : Int) } rest := by
  simp only [parseStd, getnum_two n (by omega)]
  rw [if_neg (by omega)]

theorem parseStd_day (n : Nat) (h : n < 100) (next : Option Std) (f : Fields)
    (rest : List Char) :
    parseStd .stdZeroDay next f (appendInt (n : Int) 2 ++ rest)
      = .ok { f with day := (n : Int) } rest := by
  simp only [parseStd, getnum_two n h]

theorem parseStd_hour (n : Nat) (h : n < 24) (next : Option Std) (f : Fields)
    (rest : List Char) :
    parseStd .stdHour next f (appendInt (n : Int) 2 ++ rest)
      = .ok { f with hour := (n : Int) } rest := by
  simp only [parseStd, getnum_two n (by omega)]
  rw [if_neg (by omega)]

theorem parseStd_minute (n : Nat) (h : n < 60) (next : Option Std) (f : Fields)
    (rest : List Char) :
    parseStd .stdZeroMinute next f (appendInt (n : Int) 2 ++ rest)
      = .ok { f with min := (n : Int) } rest := by
  simp only [parseStd, getnum_two n (by omega)]
  rw [if_neg (by omega)]

theorem parseStd_second (n : Nat) (h : n < 60) (next : Option Std) (f : Fields)
    (rest : List Char)
    (hrest : ∀ c d r, rest = c :: d :: r → commaOrPeriod c = false) :
    parseStd .stdZeroSecond next f (appendInt (n : Int) 2 ++ rest)
      = .ok { f with sec := (n : Int) } rest := by
  simp only [parseStd, getnum_two n (by omega)]
  rw [if_neg (by omega)]
  split
  · rename_i c d r
    simp [hrest c d r rfl]
  · rfl

theorem getnum_pair (n : Nat) (h : n < 100) (fixed : Bool) :
    getnum [digitChar (n / 10), digitChar (n % 10)] fixed = some ((n : Int), []) := by
  have := getnum_two n h [] fixed
  rwa [appendInt_two n h, List.append_nil] at this

theorem parseColonTZ_sign (sign : Char) (hs : sign = '+' ∨ sign = '-') (hr mm : Nat)
    (hhr : hr ≤ 24) (hmm : mm < 60) (f : Fields) :
    parseColonTZ f (sign :: (appendInt (hr : Int) 2 ++ ':' :: appendInt (mm : Int) 2))
      = .ok { f with zoneOffset := if sign = '-' then -(((hr : Int) * 60 + mm) * 60)
                                   else ((hr : Int) * 60 + mm) * 60 } [] := by
  rw [appendInt_two hr (by omega), appendInt_two mm (by omega)]
  simp only [List.cons_append, List.nil_append, parseColonTZ, if_true,
    getnum_pair hr (by omega), getnum_pair mm (by omega), hs]
  rw [if_neg (by omega), if_neg (by omega)]
  simp

theorem parseColonTZ_range (f : Fields) :
    parseColonTZ f "+25:61".data = .range "time zone offset minute" [] ∧
    parseColonTZ f "+25:xx".data = .range "time zone offset hour" [] ∧
    parseColonTZ f "+2x:61".data = .bad ∧
    parseColonTZ f "*01:00".data = .bad :=
  ⟨rfl, rfl, rfl, rfl⟩

theorem parseStd_zone_sign (c : Char) (hc : c ≠ 'Z') (v : List Char) (next : Option Std)
    (f : Fields) :
    parseStd .stdISO8601ColonTZ next f (c :: v) = parseColonTZ f (c :: v) := by
  simp only [parseStd]
  split
  · rename_i heq
    simp only [List.cons.injEq] at heq
    exact absurd heq.1 hc
  · rfl

theorem parseStd_zone (off : Int) (h60 : off % 60 = 0) (hlo : -90000 < off)
    (hhi : off < 90000) (next : Option Std) (f : Fields) (nsec : Int) :
    parseStd .stdISO8601ColonTZ next f (formatStd ⟨nsec, off⟩ .stdISO8601ColonTZ)
      = .ok (if off = 0 then { f with z := true } else { f with zoneOffset := off }) [] := by
  by_cases h0 : off = 0
  · simp [formatStd, parseStd, h0]
  · simp only [formatStd, h0, if_false]
    by_cases hneg : off < 0
    · have hq : quo off 60 = -((-off) / 60) := by simp [quo, hneg]
      have hz : quo off 60 < 0 := by rw [hq]; omega
      obtain ⟨z, hzz⟩ : ∃ z : Nat, (-off) / 60 = (z : Int) := ⟨((-off) / 60).toNat, by omega⟩
      have hq2 : quo (-quo off 60) 60 = ((z / 60 : Nat) : Int) := by
        rw [hq, neg_neg, hzz]; simp [quo]
      have hq3 : (-quo off 60) % 60 = ((z % 60 : Nat) : Int) := by
        rw [hq, neg_neg, hzz]; simp
      simp only [hz, if_true, hq2, hq3]
      rw [parseStd_zone_sign _ (by decide), parseColonTZ_sign '-' (Or.inr rfl) (z / 60) (z % 60) (by omega) (by omega)]
      simp only [if_true]
      congr 2
      push_cast
      omega
    · have hq : quo off 60 = off / 60 := by simp [quo, not_lt.mp hneg]
      have hz : ¬ quo off 60 < 0 := by rw [hq]; omega
      obtain ⟨z, hzz⟩ : ∃ z : Nat, off / 60 = (z : Int) := ⟨(off / 60).toNat, by omega⟩
      have hq2 : quo (quo off 60) 60 = ((z / 60 : Nat) : Int) := by
        rw [hq, hzz]; simp [quo]
      have hq3 : (quo off 60) % 60 = ((z % 60 : Nat) : Int) := by
        rw [hq, hzz]; simp
      simp only [hz, if_false, hq2, hq3]
      rw [parseStd_zone_sign _ (by decide), parseColonTZ_sign '+' (Or.inl rfl) (z / 60) (z % 60) (by omega) (by omega)]
      simp only [show ('+' : Char) = '-' ↔ False by decide, if_false]
      congr 2
      push_cast
      omega

theorem Format_RFC3339_data (t : Time) :
    (t.Format RFC3339).data =
      appendInt t.Year 4 ++ '-' :: (appendInt (t.Month : Int) 2 ++ '-' :: (appendInt t.Day 2
        ++ 'T' :: (appendInt t.Hour 2 ++ ':' :: (appendInt t.Minute 2 ++ ':' ::
          (appendInt t.Second 2 ++ formatStd t .stdISO8601ColonTZ))))) := by
  simp [Time.Format, scanLayout_RFC3339, formatStd]

theorem parseLoop_RFC3339 (y mo d h mi s : Nat) (hy : y < 10000) (hmo1 : 1 ≤ mo)
    (hmo12 : mo ≤ 12) (hd : d < 100) (hh : h < 24) (hmi : mi < 60) (hs : s < 60)
    (f0 : Fields) (zone : List Char) (fz : Fields → Fields)
    (hz : ∀ next f, parseStd .stdISO8601ColonTZ next f zone = .ok (fz f) [])
    (hzone : ∀ c d r, zone = c :: d :: r → commaOrPeriod c = false) :
    parseLoop (scanLayout RFC3339.data 0 []).1 (scanLayout RFC3339.data 0 []).2 f0
      (appendInt (y : Int) 4 ++ '-' :: (appendInt (mo : Int) 2 ++ '-' :: (appendInt (d : Int) 2
        ++ 'T' :: (appendInt (h : Int) 2 ++ ':' :: (appendInt (mi : Int) 2 ++ ':' ::
          (appendInt (s : Int) 2 ++ zone))))))
      = .ok (fz { f0 with year := y, month := mo, day := d, hour := h, min := mi, sec := s }) := by
  rw [scanLayout_RFC3339]
  simp only [parseLoop, skip, parseStd_year y hy, parseStd_month mo hmo1 hmo12,
    parseStd_day d hd, parseStd_hour h hh, parseStd_minute mi hmi,
    parseStd_second s hs _ _ _ hzone, hz, if_true, if_false,
    show ('-' : Char) = ' ' ↔ False by decide, show ('T' : Char) = ' ' ↔ False by decide,
    show (':' : Char) = ' ' ↔ False by decide]

theorem daysIn_le (m : Nat) (y : Int) (h1 : 1 ≤ m) (h12 : m ≤ 12) : daysIn m y ≤ 31 := by
  unfold daysIn
  split
  · omega
  · interval_cases m <;> simp [daysBefore]

theorem formatStd_zone_head (t : Time) :
    ∀ c d r, formatStd t .stdISO8601ColonTZ = c :: d :: r → commaOrPeriod c = false := by
  intro c d r h
  simp only [formatStd] at h
  split at h
  · simp at h
  · split at h
    · simp only [List.cons.injEq] at h
      rw [← h.1]; rfl
    · simp only [List.cons.injEq] at h
      rw [← h.1]; rfl

theorem Parse_Format_RFC3339 (t : Time) (hsub : t.nsec % 1000000000 = 0)
    (hy0 : 0 ≤ t.Year) (hy : t.Year ≤ 9999) (h60 : t.offset % 60 = 0)
    (hlo : -90000 < t.offset) (hhi : t.offset < 90000) :
    Parse RFC3339 (t.Format RFC3339) = .ok t := by
  obtain ⟨ns, off⟩ := t
  simp only at hsub h60 hlo hhi
  obtain ⟨c1, c2, c3, c4, c5⟩ := civil_spec ((⟨ns, off⟩ : Time).abs / 86400)
  have c6 := daysIn_le _ (civil ((⟨ns, off⟩ : Time).abs / 86400)).1 c1 c2
  obtain ⟨y, hyy⟩ : ∃ y : Nat, (⟨ns, off⟩ : Time).Year = (y : Int) :=
    ⟨(⟨ns, off⟩ : Time).Year.toNat, by omega⟩
  obtain ⟨d, hdd⟩ : ∃ d : Nat, (⟨ns, off⟩ : Time).Day = (d : Int) :=
    ⟨(⟨ns, off⟩ : Time).Day.toNat, by simp only [Time.Day]; omega⟩
  obtain ⟨h, hhh⟩ : ∃ h : Nat, (⟨ns, off⟩ : Time).Hour = (h : Int) :=
    ⟨(⟨ns, off⟩ : Time).Hour.toNat, by simp only [Time.Hour]; omega⟩
  obtain ⟨mi, hmm⟩ : ∃ m : Nat, (⟨ns, off⟩ : Time).Minute = (m : Int) :=
    ⟨(⟨ns, off⟩ : Time).Minute.toNat, by simp only [Time.Minute]; omega⟩
  obtain ⟨s, hss⟩ : ∃ s : Nat, (⟨ns, off⟩ : Time).Second = (s : Int) :=
    ⟨(⟨ns, off⟩ : Time).Second.toNat, by simp only [Time.Second]; omega⟩
  have hd1 : (d : Int) = (civil ((⟨ns, off⟩ : Time).abs / 86400)).2.2 := by
    rw [← hdd]; rfl
  have hy1 : (y : Int) = (civil ((⟨ns, off⟩ : Time).abs / 86400)).1 := by
    rw [← hyy]; rfl
  have hloop := parseLoop_RFC3339 y (⟨ns, off⟩ : Time).Month d h mi s (by omega) c1 c2
    (by omega) (by simp only [Time.Hour] at hhh; omega)
    (by simp only [Time.Minute] at hmm; omega)
    (by simp only [Time.Second] at hss; omega) Fields.init
    (formatStd ⟨ns, off⟩ .stdISO8601ColonTZ)
    (fun f => if off = 0 then { f with z := true } else { f with zoneOffset := off })
    (fun next f => parseStd_zone off h60 hlo hhi next f ns)
    (formatStd_zone_head _)
  have hdata : (Time.Format ⟨ns, off⟩ RFC3339).data =
      appendInt (y : Int) 4 ++ '-' :: (appendInt ((⟨ns, off⟩ : Time).Month : Int) 2 ++ '-' ::
        (appendInt (d : Int) 2 ++ 'T' :: (appendInt (h : Int) 2 ++ ':' ::
          (appendInt (mi : Int) 2 ++ ':' :: (appendInt (s : Int) 2
            ++ formatStd ⟨ns, off⟩ .stdISO8601ColonTZ))))) := by
    rw [Format_RFC3339_data, hyy, hdd, hhh, hmm, hss]
  have hm0 : ¬ (((⟨ns, off⟩ : Time).Month : Int) < 0) := by omega
  have hd0 : ¬ ((d : Int) < 0) := by omega
  have hval : ¬ ((d : Int) < 1 ∨ daysIn (⟨ns, off⟩ : Time).Month (y : Int) < (d : Int)) := by
    rw [hd1, hy1]
    have e : (⟨ns, off⟩ : Time).Month = (civil ((⟨ns, off⟩ : Time).abs / 86400)).2.1 := rfl
    rw [e]
    omega
  have hns : ((dateToDays (y : Int) (⟨ns, off⟩ : Time).Month (d : Int) * 86400 + (h : Int) * 3600
      + (mi : Int) * 60 + (s : Int)) - off) * 1000000000 + 0 = ns := by
    have e : dateToDays (y : Int) (⟨ns, off⟩ : Time).Month (d : Int)
        = (⟨ns, off⟩ : Time).abs / 86400 := by
      rw [hd1, hy1]; exact c5
    rw [e, ← hhh, ← hmm, ← hss]
    simp only [Time.Hour, Time.Minute, Time.Second, Time.abs]
    omega
  unfold Parse
  simp only [hdata, hloop]
  by_cases h0 : off = 0
  · subst h0
    simp only [if_true, Fields.init, hm0, hd0, if_false, Int.toNat_ofNat, hval, dateNsec]
    rw [sub_zero] at hns ⊢
    rw [hns]
  · have hne : off ≠ -1 := by omega
    simp only [h0, if_false, Fields.init, hm0, hd0, Int.toNat_ofNat, hval, dateNsec,
      Bool.false_eq_true, ne_eq, hne, not_false_eq_true, if_true]
    rw [hns]

/-! ## The time codec -/

theorem Trim_wrap (c0 cl : Char) (body : List Char) (h0 : c0 ≠ dquote) (hl : cl ≠ dquote) :
    Trim (dquote :: ((c0 :: body ++ [cl]) ++ [dquote])) dquote = c0 :: body ++ [cl] := by
  have e1 : (c0 == dquote) = false := by simpa using h0
  have e2 : (cl == dquote) = false := by simpa using hl
  simp [Trim, List.dropWhile, e1, e2]

theorem digitChar_ne (n : Nat) (c : Char) (hc : isDigit c = false) : digitChar n ≠ c := by
  intro h
  have := isDigit_digitChar n
  rw [h, hc] at this
  exact Bool.noConfusion this

theorem formatStd_zone_shape (t : Time) :
    ∃ zi zl, formatStd t .stdISO8601ColonTZ = zi ++ [zl] ∧ zl ≠ dquote := by
  simp only [formatStd]
  split
  · exact ⟨[], 'Z', rfl, by decide⟩
  · have hshape : ∀ (sign : Char) (a b : Int), 0 ≤ b → b < 60 →
        ∃ zi zl, sign :: (appendInt a 2 ++ ':' :: appendInt b 2) = zi ++ [zl] ∧ zl ≠ dquote := by
      intro sign a b hb0 hb
      obtain ⟨n, rfl⟩ := Int.eq_ofNat_of_zero_le hb0
      rw [appendInt_two n (by omega)]
      refine ⟨sign :: (appendInt a 2 ++ [':', digitChar (n / 10)]), digitChar (n % 10), ?_,
        digitChar_ne _ _ (by decide)⟩
      simp
    split
    · exact hshape _ _ _ (by omega) (by omega)
    · exact hshape _ _ _ (by omega) (by omega)

theorem Format_RFC3339_shape (t : Time) (hy0 : 0 ≤ t.Year) (hy : t.Year ≤ 9999) :
    ∃ c0 body cl, (t.Format RFC3339).data = c0 :: body ++ [cl] ∧ isDigit c0 = true ∧
      cl ≠ dquote := by
  obtain ⟨y, hyy⟩ : ∃ y : Nat, t.Year = (y : Int) := ⟨t.Year.toNat, by omega⟩
  obtain ⟨zi, zl, hz, hzl⟩ := formatStd_zone_shape t
  rw [Format_RFC3339_data, hyy, appendInt_four y (by omega), hz]
  refine ⟨digitChar (y / 1000),
    [digitChar (y / 100 % 10), digitChar (y / 10 % 10), digitChar (y % 10)] ++ '-' ::
      (appendInt (t.Month : Int) 2 ++ '-' :: (appendInt t.Day 2 ++ 'T' :: (appendInt t.Hour 2
        ++ ':' :: (appendInt t.Minute 2 ++ ':' :: (appendInt t.Second 2 ++ zi))))),
    zl, ?_, isDigit_digitChar _, hzl⟩
  simp [List.append_assoc]

theorem UnmarshalJSON_Marshal (t : Time) (ft0 : FlexibleTime)
    (hsub : t.nsec % 1000000000 = 0) (hy0 : 0 ≤ t.Year) (hy : t.Year ≤ 9999)
    (h60 : t.offset % 60 = 0) (hlo : -90000 < t.offset) (hhi : t.offset < 90000)
    (hnz : t.IsZero = false) :
    FlexibleTime.UnmarshalJSON ft0 (FlexibleTime.MarshalJSON ⟨t⟩).1 = (none, ⟨t⟩) := by
  obtain ⟨c0, body, cl, hdata, hc0, hcl⟩ := Format_RFC3339_shape t hy0 hy
  have hc0q : c0 ≠ dquote := by
    intro h; rw [h] at hc0; revert hc0; decide
  have hm : (FlexibleTime.MarshalJSON ⟨t⟩).1.data
      = dquote :: ((c0 :: body ++ [cl]) ++ [dquote]) := by
    simp [FlexibleTime.MarshalJSON, hnz, String.data_append, hdata]
  have hs : String.mk (Trim (FlexibleTime.MarshalJSON ⟨t⟩).1.data dquote) = t.Format RFC3339 := by
    rw [hm, Trim_wrap c0 cl body hc0q hcl, ← hdata]
  have hne1 : t.Format RFC3339 ≠ "" := by
    intro h
    have := congrArg String.data h
    rw [hdata] at this
    simp at this
  have hne2 : t.Format RFC3339 ≠ "null" := by
    intro h
    have := congrArg String.data h
    rw [hdata] at this
    have h1 : c0 = 'n' := by
      have := congrArg List.head? this
      simpa using this
    rw [h1] at hc0
    revert hc0
    decide
  simp only [FlexibleTime.UnmarshalJSON, hs, hne1, hne2, or_self, if_false, formats, tryFormats,
    Parse_Format_RFC3339 t hsub hy0 hy h60 hlo hhi]

theorem Parse_error_shape (layout value : String) (e : GoError)
    (h : Parse layout value = .error e) :
    ∃ layoutElem valueElem message, e = .parseError layout value layoutElem valueElem message := by
  unfold Parse at h
  simp only at h
  cases hp : parseLoop (scanLayout layout.data 0 []).1 (scanLayout layout.data 0 []).2
      Fields.init value.data with
  | error f =>
    rw [hp] at h
    simp only [Except.error.injEq] at h
    exact ⟨_, _, _, h.symm⟩
  | ok f0 =>
    rw [hp] at h
    simp only at h
    split_ifs at h <;>
      (simp only [Except.error.injEq] at h; exact ⟨_, _, _, h.symm⟩)

theorem tryFormats_three (s : String) :
    tryFormats formats s none =
      match Parse RFC3339 s with
      | .ok t => .ok t
      | .error _ =>
        match Parse "2006-01-02T15:04:05" s with
        | .ok t => .ok t
        | .error _ =>
          match Parse RFC3339Nano s with
          | .ok t => .ok t
          | .error e3 => .error (some e3) := by
  simp only [formats, tryFormats]

theorem Format_RFC3339_seconds (t u : Time) (hoff : t.offset = u.offset)
    (hsec : t.nsec / 1000000000 = u.nsec / 1000000000) :
    t.Format RFC3339 = u.Format RFC3339 := by
  have habs : t.abs = u.abs := by simp only [Time.abs, hoff, hsec]
  apply String.ext
  rw [Format_RFC3339_data, Format_RFC3339_data]
  simp only [Time.Year, Time.Month, Time.Day, Time.Hour, Time.Minute, Time.Second, habs,
    formatStd, hoff]

/-! ## Requests -/

theorem foldl_Add_single (k : String) (l acc : List String) (v : String) :
    l.foldl (fun q pv => Values.Add q k pv) [(k, acc ++ [v])] = [(k, acc ++ [v] ++ l)] := by
  induction l generalizing acc v with
  | nil => simp
  | cons x xs ih =>
    simp only [List.foldl_cons, Values.Add, if_true]
    rw [ih]
    simp

theorem foldl_Add_nil (k : String) (l : List String) (hl : l ≠ []) :
    l.foldl (fun q pv => Values.Add q k pv) [] = [(k, l)] := by
  cases l with
  | nil => exact absurd rfl hl
  | cons x xs =>
    simp only [List.foldl_cons, Values.Add]
    have := foldl_Add_single k xs [] x
    simpa using this

theorem GetCosts_calls {V : Type} (Format : String → Time → String) (w : Outside)
    (http : String → Request → Reply (Option V)) (c : client) (installationID : String)
    (from_ to_ : Option Time) (htok : (GetAccessToken w c).err = none) :
    (GetCosts Format w http c installationID from_ to_).calls
      = (GetAccessToken w c).calls ++ [Call.Get (costsPath installationID)
          (costsRequest Format (GetAccessToken w c).val from_ to_)] := by
  simp only [GetCosts, htok]
  cases http (costsPath installationID) (costsRequest Format (GetAccessToken w c).val from_ to_) with
  | fail err => rfl
  | ok res =>
    simp only
    split_ifs <;> rfl

theorem GetInstallations_calls (w : Outside) (http : String → Request → Reply InstallationsWrapper)
    (c : client) (filter : Slice String) (htok : (GetAccessToken w c).err = none) :
    (GetInstallations w http c filter).calls
      = (GetAccessToken w c).calls ++ [Call.Get "/installations"
          (installationsRequest (GetAccessToken w c).val filter)] := by
  simp only [GetInstallations, htok]
  cases http "/installations" (installationsRequest (GetAccessToken w c).val filter) with
  | fail err => rfl
  | ok res =>
    simp only
    split_ifs <;> rfl

/-! ## Reading JSON objects into structs -/

theorem foldl_nomatch {α : Type} (store : α → JSON → Option α) (name : String)
    (ms : List (String × JSON)) (h : ∀ key ∈ ms.map Prod.fst, keyMatch name key = false)
    (st : Option α) :
    ms.foldl
      (fun st kv => st.bind (fun v => if keyMatch name kv.1 then store v kv.2 else some v)) st
      = st := by
  induction ms generalizing st with
  | nil => rfl
  | cons kv rest ih =>
    have hk : keyMatch name kv.1 = false := h kv.1 (by simp)
    have hr : ∀ key ∈ rest.map Prod.fst, keyMatch name key = false := by
      intro key hkey
      exact h key (by simp only [List.map_cons, List.mem_cons]; exact Or.inr hkey)
    simp only [List.foldl_cons, hk, Bool.false_eq_true, if_false]
    rw [ih hr]
    cases st <;> rfl

theorem decodeField_nomatch {α : Type} (store : α → JSON → Option α) (name : String)
    (ms : List (String × JSON)) (h : ∀ key ∈ ms.map Prod.fst, keyMatch name key = false)
    (cur : α) : decodeField store ms name cur = some cur :=
  foldl_nomatch store name ms h (some cur)

theorem decodeField_unique {α : Type} (store : α → JSON → Option α) (name k : String)
    (v : JSON) (pre post : List (String × JSON)) (hk : keyMatch name k = true)
    (hpre : ∀ key ∈ pre.map Prod.fst, keyMatch name key = false)
    (hpost : ∀ key ∈ post.map Prod.fst, keyMatch name key = false) (cur : α) :
    decodeField store (pre ++ (k, v) :: post) name cur = store cur v := by
  unfold decodeField
  rw [List.foldl_append, foldl_nomatch store name pre hpre, List.foldl_cons,
    foldl_nomatch store name post hpost]
  simp [hk]

theorem keyMatch_false_of_ne (a b : String) (h : foldName a ≠ foldName b) :
    keyMatch a b = false := by
  simp only [keyMatch, beq_eq_false_iff_ne, ne_eq]
  exact fun e => h e.symm

theorem encodeFloats_keys (keys : List String) (vs : List (Option Float64))
    (js : List (String × JSON)) (hlen : vs.length = keys.length)
    (h : encodeFloats keys vs = some js) : js.map Prod.fst = keys := by
  induction keys generalizing vs js with
  | nil =>
    cases vs <;> simp_all [encodeFloats]
  | cons k ks ih =>
    cases vs with
    | nil => simp at hlen
    | cons v vs1 =>
      simp only [encodeFloats, Option.bind_eq_some, Option.map_eq_some'] at h
      obtain ⟨j, -, js1, hjs, rfl⟩ := h
      simp [ih vs1 js1 (by simpa using hlen) hjs]

theorem storeFloat_encodeFloat (cur v : Option Float64) (j : JSON)
    (h : encodeFloat v = some j) : storeFloat cur j = some v := by
  cases v with
  | none =>
    simp only [encodeFloat, Option.some.injEq] at h
    subst h; rfl
  | some x =>
    simp only [encodeFloat] at h
    split at h
    · rename_i hx
      simp only [Option.some.injEq] at h
      subst h
      simp [storeFloat, hx]
    · simp at h

theorem decode_encodeFloats (keys : List String) (hnd : (keys.map foldName).Nodup)
    (vs cur : List (Option Float64)) (js pre post : List (String × JSON))
    (hv : vs.length = keys.length) (hc : cur.length = keys.length)
    (henc : encodeFloats keys vs = some js)
    (hpre : ∀ key ∈ pre.map Prod.fst, ∀ k ∈ keys, foldName k ≠ foldName key)
    (hpost : ∀ key ∈ post.map Prod.fst, ∀ k ∈ keys, foldName k ≠ foldName key) :
    decodeFloats (pre ++ js ++ post) keys cur = some vs := by
  induction keys generalizing vs cur js pre with
  | nil =>
    cases vs with
    | nil => cases cur <;> rfl
    | cons v vs1 => simp at hv
  | cons k ks ih =>
    cases vs with
    | nil => simp at hv
    | cons v vs1 =>
      cases cur with
      | nil => simp at hc
      | cons c cs =>
        have hkeys := encodeFloats_keys (k :: ks) (v :: vs1) js hv henc
        simp only [encodeFloats, Option.bind_eq_some, Option.map_eq_some'] at henc
        obtain ⟨j, hj, js1, hjs, rfl⟩ := henc
        have hkeys1 : js1.map Prod.fst = ks := by simpa using hkeys
        simp only [List.map_cons, List.nodup_cons] at hnd
        have hfield : decodeField storeFloat (pre ++ (k, j) :: js1 ++ post) k c = some v := by
          have := decodeField_unique storeFloat k k j pre (js1 ++ post)
            (by simp [keyMatch]) ?_ ?_ c
          · rw [List.append_assoc, List.cons_append, this, storeFloat_encodeFloat c v j hj]
          · intro key hkey
            exact keyMatch_false_of_ne _ _ (hpre key hkey k (by simp))
          · intro key hkey
            simp only [List.map_append, List.mem_append, hkeys1] at hkey
            rcases hkey with hkey | hkey
            · apply keyMatch_false_of_ne
              intro e
              exact hnd.1 (by rw [e]; exact List.mem_map_of_mem _ hkey)
            · exact keyMatch_false_of_ne _ _ (hpost key hkey k (by simp))
        have htail := ih hnd.2 vs1 cs js1 (pre ++ [(k, j)]) (by simpa using hv)
          (by simpa using hc) hjs ?_ ?_
        · simp only [decodeFloats, hfield, Option.some_bind]
          have e : pre ++ (k, j) :: js1 ++ post = pre ++ [(k, j)] ++ js1 ++ post := by simp
          rw [e, htail]
          rfl
        · intro key hkey k1 hk1
          simp only [List.map_append, List.map_cons, List.map_nil, List.mem_append,
            List.mem_singleton] at hkey
          rcases hkey with hkey | hkey
          · exact hpre key hkey k1 (by simp [hk1])
          · subst hkey
            intro e
            exact hnd.1 (by rw [← e]; exact List.mem_map_of_mem _ hk1)
        · intro key hkey k1 hk1
          exact hpost key hkey k1 (by simp [hk1])

theorem decodeFloats_getD (ms : List (String × JSON)) (keys : List String)
    (cur vs : List (Option Float64)) (hc : cur.length = keys.length)
    (h : decodeFloats ms keys cur = some vs) (i : Nat) (hi : i < keys.length) :
    decodeField storeFloat ms (keys.getD i "") (cur.getD i none) = some (vs.getD i none) := by
  induction keys generalizing cur vs i with
  | nil => simp at hi
  | cons k ks ih =>
    cases cur with
    | nil => simp at hc
    | cons c cs =>
      simp only [decodeFloats, Option.bind_eq_some, Option.map_eq_some'] at h
      obtain ⟨v, hv, vs1, hvs, rfl⟩ := h
      cases i with
      | zero => simpa using hv
      | succ n =>
        simp only [List.getD_cons_succ]
        exact ih cs vs1 (by simpa using hc) hvs n (by simpa using hi)

theorem decodeFloats_length (ms : List (String × JSON)) (keys : List String)
    (cur vs : List (Option Float64)) (hc : cur.length = keys.length)
    (h : decodeFloats ms keys cur = some vs) : vs.length = keys.length := by
  induction keys generalizing cur vs with
  | nil =>
    cases cur <;> simp_all [decodeFloats]
  | cons k ks ih =>
    cases cur with
    | nil => simp at hc
    | cons c cs =>
      simp only [decodeFloats, Option.bind_eq_some, Option.map_eq_some'] at h
      obtain ⟨v, -, vs1, hvs, rfl⟩ := h
      simp [ih cs vs1 (by simpa using hc) hvs]

theorem CostGridDetailsDto_keys_nodup : (CostGridDetailsDto.keys.map foldName).Nodup := by
  decide

theorem CostBioGasDetailsDto_keys_nodup : (CostBioGasDetailsDto.keys.map foldName).Nodup := by
  decide

theorem CostElectricityProductionDto_keys_nodup :
    (("month" :: "costGridDetails" :: CostElectricityProductionDto.keys).map foldName).Nodup := by
  decide

theorem CostGasDto_keys_nodup :
    (("month" :: "costBioGasDetails" :: CostGasDto.keys).map foldName).Nodup := by
  decide

theorem CostHeatColdDto_keys_nodup :
    (("month" :: CostHeatColdDto.keys).map foldName).Nodup := by
  decide

theorem CostGridDetailsDto_vals_setVals (d0 : CostGridDetailsDto) (vs : List (Option Float64))
    (h : vs.length = CostGridDetailsDto.keys.length) : (d0.setVals vs).vals = vs := by
  have h30 : vs.length = 30 := h
  rcases vs with _ | ⟨a0, vs⟩
  · simp at h30
  rcases vs with _ | ⟨a1, vs⟩
  · simp at h30
  rcases vs with _ | ⟨a2, vs⟩
  · simp at h30
  rcases vs with _ | ⟨a3, vs⟩
  · simp at h30
  rcases vs with _ | ⟨a4, vs⟩
  · simp at h30
  rcases vs with _ | ⟨a5, vs⟩
  · simp at h30
  rcases vs with _ | ⟨a6, vs⟩
  · simp at h30
  rcases vs with _ | ⟨a7, vs⟩
  · simp at h30
  rcases vs with _ | ⟨a8, vs⟩
  · simp at h30
  rcases vs with _ | ⟨a9, vs⟩
  · simp at h30
  rcases vs with _ | ⟨a10, vs⟩
  · simp at h30
  rcases vs with _ | ⟨a11, vs⟩
  · simp at h30
  rcases vs with _ | ⟨a12, vs⟩
  · simp at h30
  rcases vs with _ | ⟨a13, vs⟩
  · simp at h30
  rcases vs with _ | ⟨a14, vs⟩
  · simp at h30
  rcases vs with _ | ⟨a15, vs⟩
  · simp at h30
  rcases vs with _ | ⟨a16, vs⟩
  · simp at h30
  rcases vs with _ | ⟨a17, vs⟩
  · simp at h30
  rcases vs with _ | ⟨a18, vs⟩
  · simp at h30
  rcases vs with _ | ⟨a19, vs⟩
  · simp at h30
  rcases vs with _ | ⟨a20, vs⟩
  · simp at h30
  rcases vs with _ | ⟨a21, vs⟩
  · simp at h30
  rcases vs with _ | ⟨a22, vs⟩
  · simp at h30
  rcases vs with _ | ⟨a23, vs⟩
  · simp at h30
  rcases vs with _ | ⟨a24, vs⟩
  · simp at h30
  rcases vs with _ | ⟨a25, vs⟩
  · simp at h30
  rcases vs with _ | ⟨a26, vs⟩
  · simp at h30
  rcases vs with _ | ⟨a27, vs⟩
  · simp at h30
  rcases vs with _ | ⟨a28, vs⟩
  · simp at h30
  rcases vs with _ | ⟨a29, vs⟩
  · simp at h30
  rcases vs with _ | ⟨b, vs⟩
  · rfl
  · simp at h30

theorem CostBioGasDetailsDto_vals_setVals (d0 : CostBioGasDetailsDto) (vs : List (Option Float64))
    (h : vs.length = CostBioGasDetailsDto.keys.length) : (d0.setVals vs).vals = vs := by
  have h30 : vs.length = 6 := h
  rcases vs with _ | ⟨a0, vs⟩
  · simp at h30
  rcases vs with _ | ⟨a1, vs⟩
  · simp at h30
  rcases vs with _ | ⟨a2, vs⟩
  · simp at h30
  rcases vs with _ | ⟨a3, vs⟩
  · simp at h30
  rcases vs with _ | ⟨a4, vs⟩
  · simp at h30
  rcases vs with _ | ⟨a5, vs⟩
  · simp at h30
  rcases vs with _ | ⟨b, vs⟩
  · rfl
  · simp at h30

theorem CostElectricityProductionDto_vals_setVals (d0 : CostElectricityProductionDto) (vs : List (Option Float64))
    (h : vs.length = CostElectricityProductionDto.keys.length) : (d0.setVals vs).vals = vs := by
  have h30 : vs.length = 6 := h
  rcases vs with _ | ⟨a0, vs⟩
  · simp at h30
  rcases vs with _ | ⟨a1, vs⟩
  · simp at h30
  rcases vs with _ | ⟨a2, vs⟩
  · simp at h30
  rcases vs with _ | ⟨a3, vs⟩
  · simp at h30
  rcases vs with _ | ⟨a4, vs⟩
  · simp at h30
  rcases vs with _ | ⟨a5, vs⟩
  · simp at h30
  rcases vs with _ | ⟨b, vs⟩
  · rfl
  · simp at h30

theorem CostGasDto_vals_setVals (d0 : CostGasDto) (vs : List (Option Float64))
    (h : vs.length = CostGasDto.keys.length) : (d0.setVals vs).vals = vs := by
  have h30 : vs.length = 4 := h
  rcases vs with _ | ⟨a0, vs⟩
  · simp at h30
  rcases vs with _ | ⟨a1, vs⟩
  · simp at h30
  rcases vs with _ | ⟨a2, vs⟩
  · simp at h30
  rcases vs with _ | ⟨a3, vs⟩
  · simp at h30
  rcases vs with _ | ⟨b, vs⟩
  · rfl
  · simp at h30

theorem CostHeatColdDto_vals_setVals (d0 : CostHeatColdDto) (vs : List (Option Float64))
    (h : vs.length = CostHeatColdDto.keys.length) : (d0.setVals vs).vals = vs := by
  have h30 : vs.length = 8 := h
  rcases vs with _ | ⟨a0, vs⟩
  · simp at h30
  rcases vs with _ | ⟨a1, vs⟩
  · simp at h30
  rcases vs with _ | ⟨a2, vs⟩
  · simp at h30
  rcases vs with _ | ⟨a3, vs⟩
  · simp at h30
  rcases vs with _ | ⟨a4, vs⟩
  · simp at h30
  rcases vs with _ | ⟨a5, vs⟩
  · simp at h30
  rcases vs with _ | ⟨a6, vs⟩
  · simp at h30
  rcases vs with _ | ⟨a7, vs⟩
  · simp at h30
  rcases vs with _ | ⟨b, vs⟩
  · rfl
  · simp at h30

theorem CostGridDetailsDto_setVals_vals (d0 d : CostGridDetailsDto) : d0.setVals d.vals = d := by
  cases d; rfl

theorem CostBioGasDetailsDto_setVals_vals (d0 d : CostBioGasDetailsDto) :
    d0.setVals d.vals = d := by
  cases d; rfl

theorem CostGridDetailsDto_decode_encode (d0 d : CostGridDetailsDto) (j : JSON)
    (h : CostGridDetailsDto.encode d = some j) :
    ∃ ms, j = .object ms ∧ CostGridDetailsDto.decodeInto d0 ms = some d := by
  simp only [CostGridDetailsDto.encode, Option.map_eq_some'] at h
  obtain ⟨js, hjs, rfl⟩ := h
  refine ⟨js, rfl, ?_⟩
  have := decode_encodeFloats CostGridDetailsDto.keys CostGridDetailsDto_keys_nodup d.vals d0.vals
    js [] [] rfl rfl hjs (by simp) (by simp)
  simp only [List.nil_append, List.append_nil] at this
  simp only [CostGridDetailsDto.decodeInto, this, Option.map_some',
    CostGridDetailsDto_setVals_vals]

theorem CostBioGasDetailsDto_decode_encode (d0 d : CostBioGasDetailsDto) (j : JSON)
    (h : CostBioGasDetailsDto.encode d = some j) :
    ∃ ms, j = .object ms ∧ CostBioGasDetailsDto.decodeInto d0 ms = some d := by
  simp only [CostBioGasDetailsDto.encode, Option.map_eq_some'] at h
  obtain ⟨js, hjs, rfl⟩ := h
  refine ⟨js, rfl, ?_⟩
  have := decode_encodeFloats CostBioGasDetailsDto.keys CostBioGasDetailsDto_keys_nodup d.vals
    d0.vals js [] [] rfl rfl hjs (by simp) (by simp)
  simp only [List.nil_append, List.append_nil] at this
  simp only [CostBioGasDetailsDto.decodeInto, this, Option.map_some',
    CostBioGasDetailsDto_setVals_vals]

theorem storePtr_encodePtr {α : Type} (zero : α)
    (decodeInto : α → List (String × JSON) → Option α) (encode : α → Option JSON)
    (hrt : ∀ d0 d j, encode d = some j → ∃ ms, j = .object ms ∧ decodeInto d0 ms = some d)
    (cur v : Option α) (j : JSON) (h : encodePtr encode v = some j) :
    storePtr zero decodeInto cur j = some v := by
  cases v with
  | none =>
    simp only [encodePtr, Option.some.injEq] at h
    subst h; rfl
  | some d =>
    obtain ⟨ms, rfl, hms⟩ := hrt (cur.getD zero) d j h
    simp [storePtr, hms]

theorem CostElectricityProductionDto_decode_encode (tc : TimeJSON)
    (d : CostElectricityProductionDto) (j : JSON)
    (h : CostElectricityProductionDto.encode tc d = some j) :
    ∃ ms jm, j = .object ms ∧ tc.Marshal d.Month = some jm ∧
      ∀ d0, CostElectricityProductionDto.decodeInto tc d0 ms
        = (storeTime tc d0.Month jm).map (fun t => { d with Month := t }) := by
  simp only [CostElectricityProductionDto.encode, Option.bind_eq_some, Option.map_eq_some'] at h
  obtain ⟨jm, hjm, js, hjs, jg, hjg, rfl⟩ := h
  refine ⟨_, jm, rfl, hjm, ?_⟩
  intro d0
  have hkeys := encodeFloats_keys _ _ js rfl hjs
  have hmonth : decodeField (storeTime tc)
      (("month", jm) :: js ++ [("costGridDetails", jg)]) "month" d0.Month
      = storeTime tc d0.Month jm := by
    have := decodeField_unique (storeTime tc) "month" "month" jm []
      (js ++ [("costGridDetails", jg)]) (by decide) (by simp) ?_ d0.Month
    · rw [List.nil_append] at this
      rw [List.cons_append, this]
    · rw [List.map_append, hkeys, List.map_cons, List.map_nil]
      show ∀ key ∈ CostElectricityProductionDto.keys ++ ["costGridDetails"],
        keyMatch "month" key = false
      decide
  have hfloats : decodeFloats (("month", jm) :: js ++ [("costGridDetails", jg)])
      CostElectricityProductionDto.keys d0.vals = some d.vals := by
    have := decode_encodeFloats CostElectricityProductionDto.keys
      (List.Nodup.of_cons (List.Nodup.of_cons CostElectricityProductionDto_keys_nodup))
      d.vals d0.vals js [("month", jm)] [("costGridDetails", jg)] rfl rfl hjs
      (by
        show ∀ key ∈ ["month"], ∀ k ∈ CostElectricityProductionDto.keys,
          foldName k ≠ foldName key
        decide)
      (by
        show ∀ key ∈ ["costGridDetails"], ∀ k ∈ CostElectricityProductionDto.keys,
          foldName k ≠ foldName key
        decide)
    simpa using this
  have hgrid : decodeField (storePtr CostGridDetailsDto.zero CostGridDetailsDto.decodeInto)
      (("month", jm) :: js ++ [("costGridDetails", jg)]) "costGridDetails" d0.CostGridDetails
      = some d.CostGridDetails := by
    have := decodeField_unique (storePtr CostGridDetailsDto.zero CostGridDetailsDto.decodeInto)
      "costGridDetails" "costGridDetails" jg (("month", jm) :: js) [] (by decide) ?_ (by simp)
      d0.CostGridDetails
    · rw [this]
      exact storePtr_encodePtr _ _ _ CostGridDetailsDto_decode_encode _ _ _ hjg
    · rw [List.map_cons, hkeys]
      show ∀ key ∈ "month" :: CostElectricityProductionDto.keys,
        keyMatch "costGridDetails" key = false
      decide
  simp only [CostElectricityProductionDto.decodeInto, hmonth, hfloats, hgrid, Option.some_bind,
    Option.map_some']
  cases storeTime tc d0.Month jm with
  | none => rfl
  | some t =>
    simp only [Option.some_bind, Option.map_some', Option.some.injEq]
    cases d; rfl

theorem CostGasDto_decode_encode (tc : TimeJSON) (d : CostGasDto) (j : JSON)
    (h : CostGasDto.encode tc d = some j) :
    ∃ ms jm, j = .object ms ∧ tc.Marshal d.Month = some jm ∧
      ∀ d0, CostGasDto.decodeInto tc d0 ms
        = (storeTime tc d0.Month jm).map (fun t => { d with Month := t }) := by
  simp only [CostGasDto.encode, Option.bind_eq_some, Option.map_eq_some'] at h
  obtain ⟨jm, hjm, js, hjs, jg, hjg, rfl⟩ := h
  refine ⟨_, jm, rfl, hjm, ?_⟩
  intro d0
  have hkeys := encodeFloats_keys _ _ js rfl hjs
  have hmonth : decodeField (storeTime tc)
      (("month", jm) :: js ++ [("costBioGasDetails", jg)]) "month" d0.Month
      = storeTime tc d0.Month jm := by
    have := decodeField_unique (storeTime tc) "month" "month" jm []
      (js ++ [("costBioGasDetails", jg)]) (by decide) (by simp) ?_ d0.Month
    · rw [List.nil_append] at this
      rw [List.cons_append, this]
    · rw [List.map_append, hkeys, List.map_cons, List.map_nil]
      show ∀ key ∈ CostGasDto.keys ++ ["costBioGasDetails"], keyMatch "month" key = false
      decide
  have hfloats : decodeFloats (("month", jm) :: js ++ [("costBioGasDetails", jg)])
      CostGasDto.keys d0.vals = some d.vals := by
    have := decode_encodeFloats CostGasDto.keys
      (List.Nodup.of_cons (List.Nodup.of_cons CostGasDto_keys_nodup))
      d.vals d0.vals js [("month", jm)] [("costBioGasDetails", jg)] rfl rfl hjs
      (by
        show ∀ key ∈ ["month"], ∀ k ∈ CostGasDto.keys, foldName k ≠ foldName key
        decide)
      (by
        show ∀ key ∈ ["costBioGasDetails"], ∀ k ∈ CostGasDto.keys, foldName k ≠ foldName key
        decide)
    simpa using this
  have hbio : decodeField (storePtr CostBioGasDetailsDto.zero CostBioGasDetailsDto.decodeInto)
      (("month", jm) :: js ++ [("costBioGasDetails", jg)]) "costBioGasDetails"
      d0.CostBioGasDetails = some d.CostBioGasDetails := by
    have := decodeField_unique
      (storePtr CostBioGasDetailsDto.zero CostBioGasDetailsDto.decodeInto)
      "costBioGasDetails" "costBioGasDetails" jg (("month", jm) :: js) [] (by decide) ?_
      (by simp) d0.CostBioGasDetails
    · rw [this]
      exact storePtr_encodePtr _ _ _ CostBioGasDetailsDto_decode_encode _ _ _ hjg
    · rw [List.map_cons, hkeys]
      show ∀ key ∈ "month" :: CostGasDto.keys, keyMatch "costBioGasDetails" key = false
      decide
  simp only [CostGasDto.decodeInto, hmonth, hfloats, hbio, Option.some_bind, Option.map_some']
  cases storeTime tc d0.Month jm with
  | none => rfl
  | some t =>
    simp only [Option.some_bind, Option.map_some', Option.some.injEq]
    cases d; rfl

theorem CostHeatColdDto_decode_encode (tc : TimeJSON) (d : CostHeatColdDto) (j : JSON)
    (h : CostHeatColdDto.encode tc d = some j) :
    ∃ ms jm, j = .object ms ∧ tc.Marshal d.Month = some jm ∧
      ∀ d0, CostHeatColdDto.decodeInto tc d0 ms
        = (storeTime tc d0.Month jm).map (fun t => { d with Month := t }) := by
  simp only [CostHeatColdDto.encode, Option.bind_eq_some, Option.map_eq_some'] at h
  obtain ⟨jm, hjm, js, hjs, rfl⟩ := h
  refine ⟨_, jm, rfl, hjm, ?_⟩
  intro d0
  have hkeys := encodeFloats_keys _ _ js rfl hjs
  have hmonth : decodeField (storeTime tc) (("month", jm) :: js) "month" d0.Month
      = storeTime tc d0.Month jm := by
    have := decodeField_unique (storeTime tc) "month" "month" jm [] js (by decide) (by simp)
      ?_ d0.Month
    · rw [List.nil_append] at this
      rw [this]
    · rw [hkeys]
      decide
  have hfloats : decodeFloats (("month", jm) :: js) CostHeatColdDto.keys d0.vals
      = some d.vals := by
    have := decode_encodeFloats CostHeatColdDto.keys
      (List.Nodup.of_cons CostHeatColdDto_keys_nodup)
      d.vals d0.vals js [("month", jm)] [] rfl rfl hjs
      (by
        show ∀ key ∈ ["month"], ∀ k ∈ CostHeatColdDto.keys, foldName k ≠ foldName key
        decide)
      (by simp)
    simpa using this
  simp only [CostHeatColdDto.decodeInto, hmonth, hfloats, Option.some_bind, Option.map_some']
  cases storeTime tc d0.Month jm with
  | none => rfl
  | some t =>
    simp only [Option.some_bind, Option.map_some', Option.some.injEq]
    cases d; rfl

theorem decodeField_last {α : Type} (store : α → JSON → Option α) (name k : String)
    (v : JSON) (pre post : List (String × JSON)) (hk : keyMatch name k = true)
    (hpost : ∀ key ∈ post.map Prod.fst, keyMatch name key = false) (cur r : α)
    (h : decodeField store (pre ++ (k, v) :: post) name cur = some r) :
    ∃ c, store c v = some r := by
  unfold decodeField at h
  rw [List.foldl_append, List.foldl_cons, foldl_nomatch store name post hpost] at h
  simp only [hk, if_true, Option.bind_eq_some] at h
  obtain ⟨c, -, hc⟩ := h
  exact ⟨c, hc⟩

theorem getD_replicate_none (n i : Nat) :
    (List.replicate n (none : Option Float64)).getD i none = none := by
  induction n generalizing i with
  | zero => rfl
  | succ n ih =>
    cases i with
    | zero => rfl
    | succ i => simp [List.replicate_succ, ih i]

theorem decodeFloats_field (ms : List (String × JSON)) (keys : List String)
    (cur vs : List (Option Float64)) (hc : cur.length = keys.length)
    (h : decodeFloats ms keys cur = some vs) (i : Nat) (hi : i < keys.length) :
    ((∀ key ∈ ms.map Prod.fst, keyMatch (keys.getD i "") key = false) →
        vs.getD i none = cur.getD i none) ∧
    (∀ pre k v post, ms = pre ++ (k, v) :: post → keyMatch (keys.getD i "") k = true →
        (∀ key ∈ post.map Prod.fst, keyMatch (keys.getD i "") key = false) →
        (v = .null → vs.getD i none = none) ∧
        (∀ x, v = .number x → vs.getD i none = some x)) := by
  have hf := decodeFloats_getD ms keys cur vs hc h i hi
  constructor
  · intro hno
    rw [decodeField_nomatch _ _ _ hno] at hf
    exact (Option.some.inj hf).symm
  · intro pre k v post hms hk hpost
    subst hms
    obtain ⟨c, hst⟩ := decodeField_last storeFloat _ k v pre post hk hpost _ _ hf
    constructor
    · intro hv
      subst hv
      simp only [storeFloat, Option.some.injEq] at hst
      exact hst.symm
    · intro x hv
      subst hv
      simp only [storeFloat] at hst
      split at hst
      · exact (Option.some.inj hst).symm
      · simp at hst

theorem foldl_bind_none {α : Type} (g : α → String × JSON → Option α)
    (ms : List (String × JSON)) :
    ms.foldl (fun st kv => st.bind (fun v => g v kv)) none = none := by
  induction ms with
  | nil => rfl
  | cons kv rest ih => simpa using ih

theorem decodeField_storeFloat_finite (ms : List (String × JSON)) (name : String)
    (cur r : Option Float64) (h : decodeField storeFloat ms name cur = some r)
    (hc : ∀ x, cur = some x → x.finite = true) : ∀ x, r = some x → x.finite = true := by
  induction ms generalizing cur with
  | nil =>
    simp only [decodeField, List.foldl_nil, Option.some.injEq] at h
    subst h
    exact hc
  | cons kv rest ih =>
    simp only [decodeField, List.foldl_cons, Option.some_bind] at h
    by_cases hk : keyMatch name kv.1 = true
    · simp only [hk, if_true] at h
      cases hst : storeFloat cur kv.2 with
      | none =>
        rw [hst] at h
        have := foldl_bind_none
          (fun v kv => if keyMatch name kv.1 = true then storeFloat v kv.2 else some v) rest
        rw [this] at h
        simp at h
      | some c =>
        rw [hst] at h
        refine ih c h ?_
        intro x hx
        subst hx
        cases hv : kv.2 with
        | number y =>
          rw [hv] at hst
          simp only [storeFloat] at hst
          split at hst
          · rename_i hy
            simp only [Option.some.injEq] at hst
            subst hst
            exact hy
          · simp at hst
        | null => rw [hv] at hst; simp [storeFloat] at hst
        | bool b => rw [hv] at hst; simp [storeFloat] at hst
        | string s => rw [hv] at hst; simp [storeFloat] at hst
        | array a => rw [hv] at hst; simp [storeFloat] at hst
        | object o => rw [hv] at hst; simp [storeFloat] at hst
    · simp only [hk, if_false] at h
      exact ih cur h hc

theorem decodeFloats_finite (ms : List (String × JSON)) (keys : List String)
    (cur vs : List (Option Float64)) (hc : cur.length = keys.length)
    (hfin : ∀ x, some x ∈ cur → x.finite = true)
    (h : decodeFloats ms keys cur = some vs) : ∀ x, some x ∈ vs → x.finite = true := by
  induction keys generalizing cur vs with
  | nil =>
    cases cur with
    | nil =>
      simp only [decodeFloats, Option.some.injEq] at h
      subst h
      simp
    | cons c cs => simp at hc
  | cons k ks ih =>
    cases cur with
    | nil => simp at hc
    | cons c cs =>
      simp only [decodeFloats, Option.bind_eq_some, Option.map_eq_some'] at h
      obtain ⟨v, hv, vs1, hvs, rfl⟩ := h
      intro x hx
      simp only [List.mem_cons] at hx
      rcases hx with hx | hx
      · exact decodeField_storeFloat_finite ms k c v hv
          (fun y hy => hfin y (by simp [hy])) x hx.symm
      · exact ih cs vs1 (by simpa using hc) (fun y hy => hfin y (by simp [hy])) hvs x hx

theorem encodeFloats_total (keys : List String) (vs : List (Option Float64))
    (hfin : ∀ x, some x ∈ vs → x.finite = true) : ∃ js, encodeFloats keys vs = some js := by
  induction keys generalizing vs with
  | nil => exact ⟨[], by cases vs <;> rfl⟩
  | cons k ks ih =>
    cases vs with
    | nil => exact ⟨[], rfl⟩
    | cons v vs1 =>
      obtain ⟨js, hjs⟩ := ih vs1 (fun y hy => hfin y (by simp [hy]))
      cases v with
      | none => exact ⟨(k, .null) :: js, by simp [encodeFloats, encodeFloat, hjs]⟩
      | some x =>
        have hx : x.finite = true := hfin x (by simp)
        exact ⟨(k, .number x) :: js, by simp [encodeFloats, encodeFloat, hx, hjs]⟩

theorem decode_encode_decode (ms : List (String × JSON)) (keys : List String)
    (vs : List (Option Float64))
    (h : decodeFloats ms keys (List.replicate keys.length none) = some vs) :
    ∃ js, encodeFloats keys vs = some js ∧
      ((keys.map foldName).Nodup →
        decodeFloats js keys (List.replicate keys.length none) = some vs) := by
  have hfin := decodeFloats_finite ms keys _ vs (by simp)
    (by
      intro x hx
      have := List.eq_of_mem_replicate hx
      simp at this) h
  obtain ⟨js, hjs⟩ := encodeFloats_total keys vs hfin
  refine ⟨js, hjs, fun hnd => ?_⟩
  have hl := decodeFloats_length ms keys _ vs (by simp) h
  have := decode_encodeFloats keys hnd vs (List.replicate keys.length none) js [] [] hl
    (by simp) hjs (by simp) (by simp)
  simpa using this

theorem CostGridDetailsDto_decodeInto_vals (d0 : CostGridDetailsDto)
    (ms : List (String × JSON)) (d : CostGridDetailsDto)
    (h : CostGridDetailsDto.decodeInto d0 ms = some d) :
    decodeFloats ms CostGridDetailsDto.keys d0.vals = some d.vals := by
  simp only [CostGridDetailsDto.decodeInto, Option.map_eq_some'] at h
  obtain ⟨vs, hvs, rfl⟩ := h
  rw [CostGridDetailsDto_vals_setVals _ _ (decodeFloats_length _ _ _ _ rfl hvs)]
  exact hvs

theorem CostBioGasDetailsDto_decodeInto_vals (d0 : CostBioGasDetailsDto)
    (ms : List (String × JSON)) (d : CostBioGasDetailsDto)
    (h : CostBioGasDetailsDto.decodeInto d0 ms = some d) :
    decodeFloats ms CostBioGasDetailsDto.keys d0.vals = some d.vals := by
  simp only [CostBioGasDetailsDto.decodeInto, Option.map_eq_some'] at h
  obtain ⟨vs, hvs, rfl⟩ := h
  rw [CostBioGasDetailsDto_vals_setVals _ _ (decodeFloats_length _ _ _ _ rfl hvs)]
  exact hvs

theorem CostElectricityProductionDto_decodeInto_vals (tc : TimeJSON)
    (d0 : CostElectricityProductionDto) (ms : List (String × JSON))
    (d : CostElectricityProductionDto)
    (h : CostElectricityProductionDto.decodeInto tc d0 ms = some d) :
    decodeFloats ms CostElectricityProductionDto.keys d0.vals = some d.vals ∧
    decodeField (storePtr CostGridDetailsDto.zero CostGridDetailsDto.decodeInto) ms
      "costGridDetails" d0.CostGridDetails = some d.CostGridDetails := by
  simp only [CostElectricityProductionDto.decodeInto, Option.bind_eq_some,
    Option.map_eq_some'] at h
  obtain ⟨m, -, vs, hvs, g, hg, rfl⟩ := h
  refine ⟨?_, hg⟩
  have hl := decodeFloats_length _ _ _ _ rfl hvs
  have e : CostElectricityProductionDto.vals
      { d0.setVals vs with Month := m, CostGridDetails := g } = (d0.setVals vs).vals := rfl
  rw [e, CostElectricityProductionDto_vals_setVals _ _ hl]
  exact hvs

theorem CostGasDto_decodeInto_vals (tc : TimeJSON) (d0 : CostGasDto)
    (ms : List (String × JSON)) (d : CostGasDto)
    (h : CostGasDto.decodeInto tc d0 ms = some d) :
    decodeFloats ms CostGasDto.keys d0.vals = some d.vals ∧
    decodeField (storePtr CostBioGasDetailsDto.zero CostBioGasDetailsDto.decodeInto) ms
      "costBioGasDetails" d0.CostBioGasDetails = some d.CostBioGasDetails := by
  simp only [CostGasDto.decodeInto, Option.bind_eq_some, Option.map_eq_some'] at h
  obtain ⟨m, -, vs, hvs, g, hg, rfl⟩ := h
  refine ⟨?_, hg⟩
  have hl := decodeFloats_length _ _ _ _ rfl hvs
  have e : CostGasDto.vals { d0.setVals vs with Month := m, CostBioGasDetails := g }
      = (d0.setVals vs).vals := rfl
  rw [e, CostGasDto_vals_setVals _ _ hl]
  exact hvs

theorem CostHeatColdDto_decodeInto_vals (tc : TimeJSON) (d0 : CostHeatColdDto)
    (ms : List (String × JSON)) (d : CostHeatColdDto)
    (h : CostHeatColdDto.decodeInto tc d0 ms = some d) :
    decodeFloats ms CostHeatColdDto.keys d0.vals = some d.vals := by
  simp only [CostHeatColdDto.decodeInto, Option.bind_eq_some, Option.map_eq_some'] at h
  obtain ⟨m, -, vs, hvs, rfl⟩ := h
  have hl := decodeFloats_length _ _ _ _ rfl hvs
  have e : CostHeatColdDto.vals { d0.setVals vs with Month := m } = (d0.setVals vs).vals := rfl
  rw [e, CostHeatColdDto_vals_setVals _ _ hl]
  exact hvs

theorem decodeField_invariant {α : Type} (P : α → Prop) (store : α → JSON → Option α)
    (hstore : ∀ c j r, P c → store c j = some r → P r) (ms : List (String × JSON))
    (name : String) (cur r : α) (hc : P cur) (h : decodeField store ms name cur = some r) :
    P r := by
  induction ms generalizing cur with
  | nil =>
    simp only [decodeField, List.foldl_nil, Option.some.injEq] at h
    subst h
    exact hc
  | cons kv rest ih =>
    simp only [decodeField, List.foldl_cons, Option.some_bind] at h
    by_cases hk : keyMatch name kv.1 = true
    · simp only [hk, if_true] at h
      cases hst : store cur kv.2 with
      | none =>
        rw [hst] at h
        have := foldl_bind_none
          (fun v kv => if keyMatch name kv.1 = true then store v kv.2 else some v) rest
        rw [this] at h
        simp at h
      | some c =>
        rw [hst] at h
        exact ih c (hstore cur kv.2 c hc hst) h
    · simp only [hk, if_false] at h
      exact ih cur hc h

theorem CostGridDetailsDto_decodeInto_finite (d0 : CostGridDetailsDto)
    (ms : List (String × JSON)) (d : CostGridDetailsDto)
    (h0 : ∀ x, some x ∈ d0.vals → x.finite = true)
    (h : CostGridDetailsDto.decodeInto d0 ms = some d) :
    ∀ x, some x ∈ d.vals → x.finite = true :=
  decodeFloats_finite ms _ d0.vals d.vals rfl h0 (CostGridDetailsDto_decodeInto_vals d0 ms d h)

theorem CostBioGasDetailsDto_decodeInto_finite (d0 : CostBioGasDetailsDto)
    (ms : List (String × JSON)) (d : CostBioGasDetailsDto)
    (h0 : ∀ x, some x ∈ d0.vals → x.finite = true)
    (h : CostBioGasDetailsDto.decodeInto d0 ms = some d) :
    ∀ x, some x ∈ d.vals → x.finite = true :=
  decodeFloats_finite ms _ d0.vals d.vals rfl h0 (CostBioGasDetailsDto_decodeInto_vals d0 ms d h)

theorem storePtr_finite {α : Type} (vals : α → List (Option Float64)) (zero : α)
    (decodeInto : α → List (String × JSON) → Option α)
    (hzero : ∀ x, some x ∈ vals zero → x.finite = true)
    (hdec : ∀ d0 ms d, (∀ x, some x ∈ vals d0 → x.finite = true) → decodeInto d0 ms = some d →
      ∀ x, some x ∈ vals d → x.finite = true)
    (c : Option α) (j : JSON) (r : Option α)
    (hc : ∀ g, c = some g → ∀ x, some x ∈ vals g → x.finite = true)
    (h : storePtr zero decodeInto c j = some r) :
    ∀ g, r = some g → ∀ x, some x ∈ vals g → x.finite = true := by
  cases j with
  | null =>
    simp only [storePtr, Option.some.injEq] at h
    subst h
    intro g hg
    cases hg
  | object ms =>
    simp only [storePtr, Option.map_eq_some'] at h
    obtain ⟨d, hd, rfl⟩ := h
    intro g hg
    simp only [Option.some.injEq] at hg
    subst hg
    refine hdec (c.getD zero) ms d ?_ hd
    cases c with
    | none => exact hzero
    | some g0 => exact hc g0 rfl
  | bool b => simp [storePtr] at h
  | number n => simp [storePtr] at h
  | string s => simp [storePtr] at h
  | array a => simp [storePtr] at h

theorem encodePtr_total {α : Type} (vals : α → List (Option Float64))
    (encode : α → Option JSON)
    (henc : ∀ d, (∀ x, some x ∈ vals d → x.finite = true) → ∃ j, encode d = some j)
    (v : Option α) (hv : ∀ g, v = some g → ∀ x, some x ∈ vals g → x.finite = true) :
    ∃ j, encodePtr encode v = some j := by
  cases v with
  | none => exact ⟨.null, rfl⟩
  | some g => exact henc g (hv g rfl)

theorem CostGridDetailsDto_encode_total (d : CostGridDetailsDto)
    (h : ∀ x, some x ∈ d.vals → x.finite = true) :
    ∃ j, CostGridDetailsDto.encode d = some j := by
  obtain ⟨js, hjs⟩ := encodeFloats_total CostGridDetailsDto.keys d.vals h
  exact ⟨.object js, by simp [CostGridDetailsDto.encode, hjs]⟩

theorem CostBioGasDetailsDto_encode_total (d : CostBioGasDetailsDto)
    (h : ∀ x, some x ∈ d.vals → x.finite = true) :
    ∃ j, CostBioGasDetailsDto.encode d = some j := by
  obtain ⟨js, hjs⟩ := encodeFloats_total CostBioGasDetailsDto.keys d.vals h
  exact ⟨.object js, by simp [CostBioGasDetailsDto.encode, hjs]⟩

theorem CostElectricityProductionDto_encode_total (tc : TimeJSON)
    (d : CostElectricityProductionDto) (jm : JSON)
    (h : ∀ x, some x ∈ d.vals → x.finite = true)
    (hg : ∀ g, d.CostGridDetails = some g → ∀ x, some x ∈ g.vals → x.finite = true)
    (hm : tc.Marshal d.Month = some jm) :
    ∃ j, CostElectricityProductionDto.encode tc d = some j := by
  obtain ⟨js, hjs⟩ := encodeFloats_total CostElectricityProductionDto.keys d.vals h
  obtain ⟨jg, hjg⟩ := encodePtr_total CostGridDetailsDto.vals CostGridDetailsDto.encode
    CostGridDetailsDto_encode_total d.CostGridDetails hg
  exact ⟨.object (("month", jm) :: js ++ [("costGridDetails", jg)]),
    by simp [CostElectricityProductionDto.encode, hm, hjs, hjg]⟩

theorem CostGasDto_encode_total (tc : TimeJSON) (d : CostGasDto) (jm : JSON)
    (h : ∀ x, some x ∈ d.vals → x.finite = true)
    (hg : ∀ g, d.CostBioGasDetails = some g → ∀ x, some x ∈ g.vals → x.finite = true)
    (hm : tc.Marshal d.Month = some jm) :
    ∃ j, CostGasDto.encode tc d = some j := by
  obtain ⟨js, hjs⟩ := encodeFloats_total CostGasDto.keys d.vals h
  obtain ⟨jg, hjg⟩ := encodePtr_total CostBioGasDetailsDto.vals CostBioGasDetailsDto.encode
    CostBioGasDetailsDto_encode_total d.CostBioGasDetails hg
  exact ⟨.object (("month", jm) :: js ++ [("costBioGasDetails", jg)]),
    by simp [CostGasDto.encode, hm, hjs, hjg]⟩

theorem CostHeatColdDto_encode_total (tc : TimeJSON) (d : CostHeatColdDto) (jm : JSON)
    (h : ∀ x, some x ∈ d.vals → x.finite = true)
    (hm : tc.Marshal d.Month = some jm) :
    ∃ j, CostHeatColdDto.encode tc d = some j := by
  obtain ⟨js, hjs⟩ := encodeFloats_total CostHeatColdDto.keys d.vals h
  exact ⟨.object (("month", jm) :: js), by simp [CostHeatColdDto.encode, hm, hjs]⟩

theorem finite_of_replicate (n : Nat) (vs : List (Option Float64))
    (h : vs = List.replicate n none) : ∀ x, some x ∈ vs → x.finite = true := by
  intro x hx
  rw [h] at hx
  have := List.eq_of_mem_replicate hx
  simp at this

theorem CostElectricityProductionDto_decodeInto_finite (tc : TimeJSON)
    (ms : List (String × JSON)) (d : CostElectricityProductionDto)
    (h : CostElectricityProductionDto.decodeInto tc CostElectricityProductionDto.zero ms
      = some d) :
    (∀ x, some x ∈ d.vals → x.finite = true) ∧
    (∀ g, d.CostGridDetails = some g → ∀ x, some x ∈ g.vals → x.finite = true) := by
  obtain ⟨hv, hg⟩ := CostElectricityProductionDto_decodeInto_vals tc _ ms d h
  refine ⟨decodeFloats_finite ms CostElectricityProductionDto.keys
    CostElectricityProductionDto.zero.vals d.vals rfl (finite_of_replicate 6 _ rfl) hv, ?_⟩
  exact decodeField_invariant
    (fun v => ∀ g, v = some g → ∀ x, some x ∈ CostGridDetailsDto.vals g → x.finite = true)
    _ (storePtr_finite CostGridDetailsDto.vals CostGridDetailsDto.zero _
      (finite_of_replicate 30 CostGridDetailsDto.zero.vals rfl)
      CostGridDetailsDto_decodeInto_finite) ms _ _ _
    (by intro g hg; cases hg) hg

theorem CostGasDto_decodeInto_finite (tc : TimeJSON) (ms : List (String × JSON))
    (d : CostGasDto) (h : CostGasDto.decodeInto tc CostGasDto.zero ms = some d) :
    (∀ x, some x ∈ d.vals → x.finite = true) ∧
    (∀ g, d.CostBioGasDetails = some g → ∀ x, some x ∈ g.vals → x.finite = true) := by
  obtain ⟨hv, hg⟩ := CostGasDto_decodeInto_vals tc _ ms d h
  refine ⟨decodeFloats_finite ms CostGasDto.keys CostGasDto.zero.vals d.vals rfl
    (finite_of_replicate 4 _ rfl) hv, ?_⟩
  exact decodeField_invariant
    (fun v => ∀ g, v = some g → ∀ x, some x ∈ CostBioGasDetailsDto.vals g → x.finite = true)
    _ (storePtr_finite CostBioGasDetailsDto.vals CostBioGasDetailsDto.zero _
      (finite_of_replicate 6 CostBioGasDetailsDto.zero.vals rfl)
      CostBioGasDetailsDto_decodeInto_finite) ms _ _ _
    (by intro g hg; cases hg) hg

theorem CostHeatColdDto_decodeInto_finite (tc : TimeJSON) (ms : List (String × JSON))
    (d : CostHeatColdDto) (h : CostHeatColdDto.decodeInto tc CostHeatColdDto.zero ms = some d) :
    ∀ x, some x ∈ d.vals → x.finite = true :=
  decodeFloats_finite ms CostHeatColdDto.keys CostHeatColdDto.zero.vals d.vals rfl
    (finite_of_replicate 8 _ rfl) (CostHeatColdDto_decodeInto_vals tc _ ms d h)

theorem decodeElems_getD {α : Type} (zero : α) (decodeElem : α → JSON → Option α)
    (slots : List α) (items : List JSON) (es : List α)
    (h : decodeElems zero decodeElem slots items = some es) :
    es.length = items.length ∧
    ∀ i, i < items.length →
      decodeElem (slots.getD i zero) (items.getD i .null) = some (es.getD i zero) := by
  induction items generalizing slots es with
  | nil =>
    simp only [decodeElems, Option.some.injEq] at h
    subst h
    exact ⟨rfl, fun i hi => absurd hi (by simp)⟩
  | cons item items ih =>
    simp only [decodeElems, Option.bind_eq_some, Option.map_eq_some'] at h
    obtain ⟨e, he, es1, hes, rfl⟩ := h
    obtain ⟨hl, hi⟩ := ih slots.tail es1 hes
    refine ⟨by simp [hl], ?_⟩
    intro i hlt
    cases i with
    | zero =>
      cases slots <;> simpa using he
    | succ n =>
      have := hi n (by simpa using hlt)
      cases slots with
      | nil => simpa using this
      | cons s ss => simpa using this

/-! ## The time codec: claims -/

set_option maxRecDepth 100000 in
/-- C11, as stated, fails in two ways. The time 10000-01-01T00:00:00Z (non-zero, no
sub-second part) is encoded with a five-digit year, which no layout reads back: decoding
its encoding returns an error. The time 2024-01-01T00:00:00Z in a location 30 seconds
east of UTC is encoded as `2024-01-01T00:00:30+00:00`, and decoding gives an instant
30 seconds later. -/
theorem FlexibleTime_roundtrip_fails :
    ((315537897600000000000 : Int) % 1000000000 = 0 ∧
      (FlexibleTime.MarshalJSON ⟨⟨315537897600000000000, 0⟩⟩).1
        = "\"10000-01-01T00:00:00Z\"" ∧
      (FlexibleTime.UnmarshalJSON ⟨⟨0, 0⟩⟩
        (FlexibleTime.MarshalJSON ⟨⟨315537897600000000000, 0⟩⟩).1).1 ≠ none) ∧
    ((63839664000000000000 : Int) % 1000000000 = 0 ∧
      (FlexibleTime.MarshalJSON ⟨⟨63839664000000000000, 30⟩⟩).1
        = "\"2024-01-01T00:00:30+00:00\"" ∧
      (FlexibleTime.UnmarshalJSON ⟨⟨0, 0⟩⟩
        (FlexibleTime.MarshalJSON ⟨⟨63839664000000000000, 30⟩⟩).1).2.Time.nsec
        = 63839664030000000000) := by
  decide

/-- C11, amended: for every time `t` with no sub-second part whose year, on the wall
clock of its location, lies in 0..9999 and whose zone offset is a whole number of
minutes of less than 25 hours, `MarshalJSON` succeeds and `UnmarshalJSON` applied to
its output succeeds and yields a time denoting the same instant as `t`, whatever the
receiver held before; when `t` is not the zero time the decoded time is `t` itself. -/
theorem FlexibleTime_roundtrip (t : Time) (ft0 : FlexibleTime)
    (hsub : t.nsec % 1000000000 = 0) (hy0 : 0 ≤ t.Year) (hy : t.Year ≤ 9999)
    (h60 : t.offset % 60 = 0) (hlo : -90000 < t.offset) (hhi : t.offset < 90000) :
    (FlexibleTime.MarshalJSON ⟨t⟩).2 = none ∧
    (FlexibleTime.UnmarshalJSON ft0 (FlexibleTime.MarshalJSON ⟨t⟩).1).1 = none ∧
    (FlexibleTime.UnmarshalJSON ft0 (FlexibleTime.MarshalJSON ⟨t⟩).1).2.Time.nsec = t.nsec ∧
    (t.IsZero = false →
      (FlexibleTime.UnmarshalJSON ft0 (FlexibleTime.MarshalJSON ⟨t⟩).1).2.Time = t) := by
  cases hz : t.IsZero
  · rw [UnmarshalJSON_Marshal t ft0 hsub hy0 hy h60 hlo hhi hz]
    refine ⟨?_, rfl, rfl, fun _ => rfl⟩
    simp [FlexibleTime.MarshalJSON, hz]
  · have hn : t.nsec = 0 := by simpa [Time.IsZero] using hz
    have hm : FlexibleTime.MarshalJSON ⟨t⟩ = ("null", none) := by
      simp [FlexibleTime.MarshalJSON, hz]
    have hs : String.mk (Trim "null".data dquote) = "null" := by decide
    rw [hm]
    simp [FlexibleTime.UnmarshalJSON, hs, hn]

set_option maxRecDepth 100000 in
/-- Witness of the amended C11: the time 2024-01-01T00:00:00+01:00 is encoded and read
back as the same instant. -/
theorem FlexibleTime_roundtrip_witness :
    (FlexibleTime.UnmarshalJSON ⟨⟨0, 0⟩⟩
      (FlexibleTime.MarshalJSON ⟨⟨63839660400000000000, 3600⟩⟩).1).1 = none ∧
    (FlexibleTime.UnmarshalJSON ⟨⟨0, 0⟩⟩
      (FlexibleTime.MarshalJSON ⟨⟨63839660400000000000, 3600⟩⟩).1).2.Time.nsec
      = 63839660400000000000 :=
  ⟨(FlexibleTime_roundtrip ⟨63839660400000000000, 3600⟩ ⟨⟨0, 0⟩⟩ (by decide) (by decide)
      (by decide) (by decide) (by decide) (by decide)).2.1,
   (FlexibleTime_roundtrip ⟨63839660400000000000, 3600⟩ ⟨⟨0, 0⟩⟩ (by decide) (by decide)
      (by decide) (by decide) (by decide) (by decide)).2.2.1⟩

/-- C12: `UnmarshalJSON` applied to the JSON empty string (two double quotes), to empty
input, or to the literal `null` returns no error and sets the value to the zero time,
for which `IsZero` is true, whatever time the receiver held before. -/
theorem UnmarshalJSON_empty_or_null (ft0 : FlexibleTime) :
    FlexibleTime.UnmarshalJSON ft0 "\"\"" = (none, ⟨⟨0, 0⟩⟩) ∧
    FlexibleTime.UnmarshalJSON ft0 "" = (none, ⟨⟨0, 0⟩⟩) ∧
    FlexibleTime.UnmarshalJSON ft0 "null" = (none, ⟨⟨0, 0⟩⟩) ∧
    (⟨0, 0⟩ : Time).IsZero = true := by
  have h1 : String.mk (Trim "\"\"".data dquote) = "" := by decide
  have h2 : String.mk (Trim "".data dquote) = "" := by decide
  have h3 : String.mk (Trim "null".data dquote) = "null" := by decide
  refine ⟨?_, ?_, ?_, rfl⟩
  · simp only [FlexibleTime.UnmarshalJSON, h1, true_or, if_true]
  · simp only [FlexibleTime.UnmarshalJSON, h2, true_or, if_true]
  · simp only [FlexibleTime.UnmarshalJSON, h3, or_true, if_true]

set_option maxRecDepth 100000 in
/-- C13: for every input whose text, stripped of its quotes, is neither empty nor `null`,
`UnmarshalJSON` tries the layouts RFC3339, `2006-01-02T15:04:05` and RFC3339 with
fractional seconds in that order: its result is the time given by the first layout
that parses the text; it fails exactly when none of the three parses it, then leaves
the receiver unchanged and returns the `time.ParseError` of the last layout, whose
`Value` is the text. The texts `2024-01-01T00:00:00`, `2024-01-01T00:00:00Z` and
`2024-01-01T00:00:00.000Z` decode to 2024-01-01 00:00:00 UTC and `not-a-date` fails. -/
theorem UnmarshalJSON_layouts (ft0 : FlexibleTime) (b : String)
    (h1 : String.mk (Trim b.data dquote) ≠ "")
    (h2 : String.mk (Trim b.data dquote) ≠ "null") :
    (∀ t, Parse RFC3339 (String.mk (Trim b.data dquote)) = .ok t →
      FlexibleTime.UnmarshalJSON ft0 b = (none, ⟨t⟩)) ∧
    (∀ e1 t, Parse RFC3339 (String.mk (Trim b.data dquote)) = .error e1 →
      Parse "2006-01-02T15:04:05" (String.mk (Trim b.data dquote)) = .ok t →
      FlexibleTime.UnmarshalJSON ft0 b = (none, ⟨t⟩)) ∧
    (∀ e1 e2 t, Parse RFC3339 (String.mk (Trim b.data dquote)) = .error e1 →
      Parse "2006-01-02T15:04:05" (String.mk (Trim b.data dquote)) = .error e2 →
      Parse RFC3339Nano (String.mk (Trim b.data dquote)) = .ok t →
      FlexibleTime.UnmarshalJSON ft0 b = (none, ⟨t⟩)) ∧
    (∀ e1 e2 e3, Parse RFC3339 (String.mk (Trim b.data dquote)) = .error e1 →
      Parse "2006-01-02T15:04:05" (String.mk (Trim b.data dquote)) = .error e2 →
      Parse RFC3339Nano (String.mk (Trim b.data dquote)) = .error e3 →
      FlexibleTime.UnmarshalJSON ft0 b = (some e3, ft0) ∧
      ∃ layoutElem valueElem message,
        e3 = .parseError RFC3339Nano (String.mk (Trim b.data dquote))
          layoutElem valueElem message) ∧
    ((FlexibleTime.UnmarshalJSON ft0 b).1 ≠ none ↔
      (∃ e1, Parse RFC3339 (String.mk (Trim b.data dquote)) = .error e1) ∧
      (∃ e2, Parse "2006-01-02T15:04:05" (String.mk (Trim b.data dquote)) = .error e2) ∧
      (∃ e3, Parse RFC3339Nano (String.mk (Trim b.data dquote)) = .error e3)) ∧
    (FlexibleTime.UnmarshalJSON ft0 "\"2024-01-01T00:00:00\""
        = (none, ⟨⟨63839664000000000000, 0⟩⟩) ∧
      FlexibleTime.UnmarshalJSON ft0 "\"2024-01-01T00:00:00Z\""
        = (none, ⟨⟨63839664000000000000, 0⟩⟩) ∧
      FlexibleTime.UnmarshalJSON ft0 "\"2024-01-01T00:00:00.000Z\""
        = (none, ⟨⟨63839664000000000000, 0⟩⟩) ∧
      (⟨63839664000000000000, 0⟩ : Time).Format RFC3339 = "2024-01-01T00:00:00Z" ∧
      (FlexibleTime.UnmarshalJSON ft0 "\"not-a-date\"").1 ≠ none) := by
  have hU : FlexibleTime.UnmarshalJSON ft0 b =
      match tryFormats formats (String.mk (Trim b.data dquote)) none with
      | .ok t => (none, ⟨t⟩)
      | .error err => (err, ft0) := by
    simp only [FlexibleTime.UnmarshalJSON, h1, h2, or_self, if_false]
  refine ⟨?_, ?_, ?_, ?_, ?_, ?_⟩
  · intro t ht
    rw [hU]; simp only [formats, tryFormats, ht]
  · intro e1 t he1 ht
    rw [hU]; simp only [formats, tryFormats, he1, ht]
  · intro e1 e2 t he1 he2 ht
    rw [hU]; simp only [formats, tryFormats, he1, he2, ht]
  · intro e1 e2 e3 he1 he2 he3
    exact ⟨by rw [hU]; simp only [formats, tryFormats, he1, he2, he3],
      Parse_error_shape _ _ _ he3⟩
  · rw [hU, tryFormats_three]
    cases hp1 : Parse RFC3339 (String.mk (Trim b.data dquote)) with
    | ok t => simp
    | error e1 =>
      cases hp2 : Parse "2006-01-02T15:04:05" (String.mk (Trim b.data dquote)) with
      | ok t => simp
      | error e2 =>
        cases hp3 : Parse RFC3339Nano (String.mk (Trim b.data dquote)) with
        | ok t => simp
        | error e3 => simp
  · refine ⟨?_, ?_, ?_, ?_, ?_⟩
    · rfl
    · rfl
    · rfl
    · decide
    · have h : (FlexibleTime.UnmarshalJSON ft0 "\"not-a-date\"").1
          = some (.parseError RFC3339Nano "not-a-date" "2006" "not-a-date" "") := by rfl
      rw [h]
      exact Option.some_ne_none _

set_option maxRecDepth 100000 in
/-- Witness of C13 at the text `2024-01-01T00:00:00`: the first layout rejects it (no
zone), the second accepts it, and the result is 2024-01-01 00:00:00 UTC. -/
theorem UnmarshalJSON_layouts_witness :
    FlexibleTime.UnmarshalJSON ⟨⟨5, 0⟩⟩ "\"2024-01-01T00:00:00\""
      = (none, ⟨⟨63839664000000000000, 0⟩⟩) :=
  (UnmarshalJSON_layouts ⟨⟨5, 0⟩⟩ "\"2024-01-01T00:00:00\"" (by decide) (by decide)).2.1
    (.parseError RFC3339 "2024-01-01T00:00:00" "Z07:00" "" "") ⟨63839664000000000000, 0⟩
    rfl rfl

/-- C14: `MarshalJSON` never fails; it returns the bytes `null` exactly when the time is
the zero time, and for every other time the RFC3339 rendering of the time between
double quotes; that rendering has second precision, so two non-zero times in the same
location that differ only in their sub-second part encode to the same bytes. -/
theorem MarshalJSON_spec (ft : FlexibleTime) :
    (FlexibleTime.MarshalJSON ft).2 = none ∧
    ((FlexibleTime.MarshalJSON ft).1 = "null" ↔ ft.Time.IsZero = true) ∧
    (ft.Time.IsZero = false →
      (FlexibleTime.MarshalJSON ft).1
        = String.mk [dquote] ++ ft.Time.Format RFC3339 ++ String.mk [dquote]) ∧
    (∀ ft2 : FlexibleTime, ft.Time.IsZero = false → ft2.Time.IsZero = false →
      ft.Time.offset = ft2.Time.offset →
      ft.Time.nsec / 1000000000 = ft2.Time.nsec / 1000000000 →
      (FlexibleTime.MarshalJSON ft).1 = (FlexibleTime.MarshalJSON ft2).1) := by
  have hq : ∀ x : String, String.mk [dquote] ++ x ++ String.mk [dquote] ≠ "null" := by
    intro x h
    have := congrArg (fun s => s.data.head?) h
    simp only [String.data_append, List.cons_append, List.head?_cons] at this
    revert this
    decide
  refine ⟨?_, ?_, ?_, ?_⟩
  · unfold FlexibleTime.MarshalJSON; split <;> rfl
  · cases hz : ft.Time.IsZero
    · simp only [FlexibleTime.MarshalJSON, hz, Bool.false_eq_true, if_false, iff_false]
      exact hq _
    · simp [FlexibleTime.MarshalJSON, hz]
  · intro hz
    simp [FlexibleTime.MarshalJSON, hz]
  · intro ft2 hz hz2 hoff hsec
    simp only [FlexibleTime.MarshalJSON, hz, hz2, Bool.false_eq_true, if_false]
    rw [Format_RFC3339_seconds _ _ hoff hsec]

set_option maxRecDepth 100000 in
/-- Witness of C14: the times 2024-01-01T00:00:00Z and half a second later are both
encoded as `2024-01-01T00:00:00Z` between double quotes. -/
theorem MarshalJSON_spec_witness :
    (FlexibleTime.MarshalJSON ⟨⟨63839664000000000000, 0⟩⟩).1 = "\"2024-01-01T00:00:00Z\"" ∧
    (FlexibleTime.MarshalJSON ⟨⟨63839664000000000000, 0⟩⟩).1
      = (FlexibleTime.MarshalJSON ⟨⟨63839664000500000000, 0⟩⟩).1 :=
  ⟨by decide,
   (MarshalJSON_spec ⟨⟨63839664000000000000, 0⟩⟩).2.2.2 ⟨⟨63839664000500000000, 0⟩⟩
     (by decide) (by decide) (by decide) (by decide)⟩

/-! ## Query encoding: claims -/

set_option maxRecDepth 100000 in
/-- C15, evaluated: for the times of the test, in UTC, the query of `GetMeasurements` is
`from=2024-01-01T00:00:00.000Z`, `to=2024-01-02T00:00:00.000Z`, `includeMissing=false`.
For the `from` time 2024-01-01T00:00:00+01:00, in a location one hour east of UTC, the
query carries the same text `2024-01-01T00:00:00.000Z`: the `Z` of the layout is literal
text put after the wall clock time of the location, and the text denotes the instant
2024-01-01T00:00:00Z, one hour after the instant of the argument. -/
theorem measurementsRequest_zone_lost :
    (measurementsRequest (fun layout t => t.Format layout) "fake-token"
        ⟨63839664000000000000, 0⟩ ⟨63839750400000000000, 0⟩ false).QueryParam
      = [("from", ["2024-01-01T00:00:00.000Z"]), ("to", ["2024-01-02T00:00:00.000Z"]),
          ("includeMissing", ["false"])] ∧
    (⟨63839660400000000000, 3600⟩ : Time).Format RFC3339 = "2024-01-01T00:00:00+01:00" ∧
    Values.Lookup (measurementsRequest (fun layout t => t.Format layout) "fake-token"
        ⟨63839660400000000000, 3600⟩ ⟨0, 0⟩ false).QueryParam "from"
      = ["2024-01-01T00:00:00.000Z"] ∧
    (Parse RFC3339 "2024-01-01T00:00:00.000Z").toOption
      = some (⟨63839664000000000000, 0⟩ : Time) ∧
    (63839664000000000000 : Int) - 63839660400000000000 = 3600 * 1000000000 := by
  decide

/-- C16: for every installation id and every `from`, `to` (each possibly absent), when
the token is obtained the request of `GetCosts` goes to the path `/costs/<id>` and
carries a `from` (resp. `to`) query parameter exactly when `from` (resp. `to`) is
provided; its value is the RFC3339 rendering of the time, which has second precision
(`2024-01-01T00:00:00Z` for 2024-01-01 00:00:00 UTC); no other parameter is sent. -/
theorem GetCosts_request {V : Type} (w : Outside) (http : String → Request → Reply (Option V))
    (c : client) (installationID : String) (from_ to_ : Option Time)
    (htok : (GetAccessToken w c).err = none) :
    (GetCosts (fun layout t => t.Format layout) w http c installationID from_ to_).calls
      = (GetAccessToken w c).calls ++ [Call.Get ("/costs/" ++ installationID)
          (costsRequest (fun layout t => t.Format layout) (GetAccessToken w c).val from_ to_)] ∧
    (costsRequest (fun layout t => t.Format layout) (GetAccessToken w c).val from_ to_).Token
      = (GetAccessToken w c).val ∧
    (costsRequest (fun layout t => t.Format layout) (GetAccessToken w c).val from_ to_).QueryParam
      = (match from_ with
          | some t => [("from", [t.Format RFC3339])]
          | none => []) ++
        (match to_ with
          | some t => [("to", [t.Format RFC3339])]
          | none => []) ∧
    ((costsRequest (fun layout t => t.Format layout) (GetAccessToken w c).val
        from_ to_).QueryParam.Has "from" = from_.isSome) ∧
    ((costsRequest (fun layout t => t.Format layout) (GetAccessToken w c).val
        from_ to_).QueryParam.Has "to" = to_.isSome) ∧
    (∀ t u : Time, t.offset = u.offset → t.nsec / 1000000000 = u.nsec / 1000000000 →
      t.Format RFC3339 = u.Format RFC3339) ∧
    (⟨63839664000000000000, 0⟩ : Time).Format RFC3339 = "2024-01-01T00:00:00Z" := by
  refine ⟨GetCosts_calls _ w http c installationID from_ to_ htok, ?_, ?_, ?_, ?_,
    fun t u h1 h2 => Format_RFC3339_seconds t u h1 h2, by decide⟩
  · cases from_ <;> cases to_ <;> rfl
  · cases from_ <;> cases to_ <;>
      simp [costsRequest, Request.SetQueryParam, Values.Set]
  · cases from_ <;> cases to_ <;>
      simp [costsRequest, Request.SetQueryParam, Values.Set, Values.Has]
  · cases from_ <;> cases to_ <;>
      simp [costsRequest, Request.SetQueryParam, Values.Set, Values.Has]

set_option maxRecDepth 100000 in
/-- Witness of C16: with an unexpired token, `from` = 2024-01-01 00:00:00 UTC and no `to`,
the request goes to `/costs/inst-1` with the single parameter
`from=2024-01-01T00:00:00Z`. -/
theorem GetCosts_request_witness :
    (GetCosts (fun layout t => t.Format layout)
        ⟨⟨5, 0⟩, fun _ _ => .fail (.transport "unreachable"), ⟨5, 0⟩⟩
        (fun _ _ => (.ok ⟨200, "", none⟩ : Reply (Option String)))
        ⟨"id", "secret", "fake-token", ⟨100, 0⟩⟩ "inst-1"
        (some ⟨63839664000000000000, 0⟩) none).calls
      = [Call.Get "/costs/inst-1" ⟨"fake-token", [("from", ["2024-01-01T00:00:00Z"])]⟩] := by
  have h := (GetCosts_request ⟨⟨5, 0⟩, fun _ _ => .fail (.transport "unreachable"), ⟨5, 0⟩⟩
    (fun _ _ => (.ok ⟨200, "", none⟩ : Reply (Option String)))
    ⟨"id", "secret", "fake-token", ⟨100, 0⟩⟩ "inst-1"
    (some ⟨63839664000000000000, 0⟩) none
    rfl).1
  rw [h]
  decide

/-- C17: for every non-empty filter list the request of `GetInstallations` carries the
filter as the values of the single query parameter `installationFilter`: the value list
of the parameter is the filter list, same elements in the same order; for a nil or
empty filter the request carries no parameter at all. When the token is obtained, this
is the request sent to `/installations`. -/
theorem installationsRequest_filter (w : Outside)
    (http : String → Request → Reply InstallationsWrapper) (c : client)
    (accessToken : String) (filter : Slice String) :
    (0 < filter.len →
      (installationsRequest accessToken filter).QueryParam
        = [("installationFilter", filter.elems)] ∧
      Values.Lookup (installationsRequest accessToken filter).QueryParam "installationFilter"
        = filter.elems) ∧
    (filter.len = 0 →
      (installationsRequest accessToken filter).QueryParam = [] ∧
      Values.Has (installationsRequest accessToken filter).QueryParam "installationFilter"
        = false) ∧
    (installationsRequest accessToken filter).Token = accessToken ∧
    ((GetAccessToken w c).err = none →
      (GetInstallations w http c filter).calls
        = (GetAccessToken w c).calls ++ [Call.Get "/installations"
            (installationsRequest (GetAccessToken w c).val filter)]) := by
  refine ⟨?_, ?_, ?_, GetInstallations_calls w http c filter⟩
  · intro hpos
    have hne : filter.elems ≠ [] := by
      cases filter with
      | none => simp [Slice.len] at hpos
      | some l =>
        cases l with
        | nil => simp [Slice.len] at hpos
        | cons x xs => simp [Slice.elems]
    have hq : (installationsRequest accessToken filter).QueryParam
        = [("installationFilter", filter.elems)] := by
      simp only [installationsRequest, hpos, if_true, Request.SetQueryParamsFromValues,
        List.foldl_cons, List.foldl_nil]
      exact foldl_Add_nil _ _ hne
    exact ⟨hq, by rw [hq]; simp [Values.Lookup]⟩
  · intro h0
    have hq : (installationsRequest accessToken filter).QueryParam = [] := by
      simp [installationsRequest, h0]
    exact ⟨hq, by rw [hq]; rfl⟩
  · unfold installationsRequest
    split <;> rfl

/-- Witness of C17 at the filter of the test: the parameter `installationFilter` carries
`inst-1` and `inst-2`, in that order. -/
theorem installationsRequest_filter_witness :
    (installationsRequest "fake-token" (some ["inst-1", "inst-2"])).QueryParam
      = [("installationFilter", ["inst-1", "inst-2"])] :=
  ((installationsRequest_filter ⟨⟨5, 0⟩, fun _ _ => .fail (.transport "unreachable"), ⟨5, 0⟩⟩
    (fun _ _ => .ok ⟨200, "", ⟨none⟩⟩) ⟨"id", "secret", "fake-token", ⟨100, 0⟩⟩
    "fake-token" (some ["inst-1", "inst-2"])).1 (by decide)).1

/-! ## The liveness probe: claims -/

/-- What `IsAlive` does for every answer of the HTTP library: exactly one request, a
GET on the base path `/` carrying no token, no call to the token endpoint, the client
unchanged; (true, no error) for a response whose status code is positive,
(false, no error) for a response whose status code is not positive, and (false, the
transport error) when no response was received. -/
theorem IsAlive_behaviour (http : String → Request → Reply Unit) (c : client) :
    (IsAlive http c).calls = [Call.Get "/" ⟨"", []⟩] ∧
    exchanges (IsAlive http c).calls = 0 ∧
    (IsAlive http c).c = c ∧
    (∀ res, http "/" ⟨"", []⟩ = .ok res →
      (IsAlive http c).err = none ∧
      (0 < res.StatusCode → (IsAlive http c).val = true) ∧
      (res.StatusCode ≤ 0 → (IsAlive http c).val = false)) ∧
    (∀ err, http "/" ⟨"", []⟩ = .fail err →
      (IsAlive http c).val = false ∧ (IsAlive http c).err = some err) ∧
    ((IsAlive http c).err ≠ none ↔ ∃ err, http "/" ⟨"", []⟩ = .fail err) := by
  unfold IsAlive
  cases h : http "/" ⟨"", []⟩ with
  | fail err =>
    simp [exchanges]
  | ok res =>
    refine ⟨rfl, rfl, rfl, ?_, ?_, ?_⟩
    · intro res1 h1
      cases h1
      exact ⟨rfl, fun hp => by simpa using hp, fun hn => by simpa using hn⟩
    · intro err h1
      cases h1
    · simp

/-- C20, evaluated on the code: for a received response with status 404 `IsAlive`
returns (true, no error), as the comment `Any response (even 404) means the API is
reachable` says; for a received response that reports the status code 0 it returns
(false, no error), where the claim and that comment require true for every received
response. In both cases one GET on `/` without a token is made and the client is
unchanged. -/
theorem IsAlive_status_zero :
    ((IsAlive (fun _ _ => .ok ⟨404, "Not Found", ()⟩) ⟨"id", "secret", "", ⟨0, 0⟩⟩).val = true ∧
      (IsAlive (fun _ _ => .ok ⟨404, "Not Found", ()⟩) ⟨"id", "secret", "", ⟨0, 0⟩⟩).err
        = none) ∧
    ((IsAlive (fun _ _ => .ok ⟨0, "", ()⟩) ⟨"id", "secret", "", ⟨0, 0⟩⟩).val = false ∧
      (IsAlive (fun _ _ => .ok ⟨0, "", ()⟩) ⟨"id", "secret", "", ⟨0, 0⟩⟩).err = none ∧
      (IsAlive (fun _ _ => .ok ⟨0, "", ()⟩) ⟨"id", "secret", "", ⟨0, 0⟩⟩).calls
        = [Call.Get "/" ⟨"", []⟩] ∧
      (IsAlive (fun _ _ => .ok ⟨0, "", ()⟩) ⟨"id", "secret", "", ⟨0, 0⟩⟩).c
        = ⟨"id", "secret", "", ⟨0, 0⟩⟩) := by
  decide

/-! ## Cost statements keep absence (C18) -/

set_option maxRecDepth 100000 in
/-- C18, as stated, fails for an entry that is decoded into an element the slice already
holds. In the payload with the members `costs` = `[{"retailCost": 1}]` and then `costs` =
`[{}]`, the entry read last has no `retailCost`, yet the decoded entry holds
`RetailCost` = 1: the second array is stored into the element left by the first. The
same happens when the second array is `[null]`. -/
theorem cost_entry_reuse :
    CostsElectricityWrapper.decode ⟨fun _ => none, fun _ => none⟩
        [("costs", .array [.object [("retailCost", .number ⟨4607182418800017408⟩)]]),
          ("costs", .array [.object []])]
      = some ⟨⟨"", ""⟩, some [⟨⟨⟨0, 0⟩⟩, some ⟨4607182418800017408⟩, none, none, none, none,
          none, none⟩]⟩ ∧
    CostsElectricityWrapper.decode ⟨fun _ => none, fun _ => none⟩
        [("costs", .array [.object [("retailCost", .number ⟨4607182418800017408⟩)]]),
          ("costs", .array [.null])]
      = some ⟨⟨"", ""⟩, some [⟨⟨⟨0, 0⟩⟩, some ⟨4607182418800017408⟩, none, none, none, none,
          none, none⟩]⟩ :=
  ⟨rfl, rfl⟩

set_option maxRecDepth 100000 in
/-- C18, amended. (1) Field by field, for any list of `*float64` fields read from the
members of an object into a struct: when no member selects the field it keeps the value
the struct held; when the last member selecting it is `null` it is nil; when that member
is a number `x`, zero included, it holds `x`. (2) The five cost structs read their
monetary fields in exactly this way, and the entries read their nested block through
`storePtr`, which gives nil for `null` and fills the block, a new one when there was
none, for an object. (3) A new value of each struct has every monetary field and the
nested block nil, so in an entry decoded into a new value a missing or `null` field is
nil, never 0; every entry of a payload whose `costs` member occurs once is decoded into
a new value, for a slice of any of the entry structs and for the electricity wrapper;
in general element number `i` of an array is stored into the element the slice holds at
index `i`, `null` leaving it as it is. (4) Every value decoded into a new value has finite numbers only; every
struct with finite numbers is encoded, provided `time.Time` encodes its month, and
decoding the encoding gives the struct back with the month `time.Time` reads from what
it wrote; a nil nested block is written as `null`. (5) The electricity payload with one
entry `retailCost=75.5`, `retailCostVAT=19.5` decodes to an entry with exactly these two
fields set and every other optional field nil, whether the other members are missing
or `null`. -/
theorem cost_fields_keep_absence (tc : TimeJSON) :
    (∀ (ms : List (String × JSON)) (keys : List String) (cur vs : List (Option Float64)),
      cur.length = keys.length → decodeFloats ms keys cur = some vs →
      ∀ i, i < keys.length →
        ((∀ key ∈ ms.map Prod.fst, keyMatch (keys.getD i "") key = false) →
          vs.getD i none = cur.getD i none) ∧
        (∀ pre k v post, ms = pre ++ (k, v) :: post → keyMatch (keys.getD i "") k = true →
          (∀ key ∈ post.map Prod.fst, keyMatch (keys.getD i "") key = false) →
          (v = .null → vs.getD i none = none) ∧
          (∀ x, v = .number x → vs.getD i none = some x))) ∧
    ((∀ d0 ms d, CostGridDetailsDto.decodeInto d0 ms = some d →
        decodeFloats ms CostGridDetailsDto.keys d0.vals = some d.vals) ∧
      (∀ d0 ms d, CostBioGasDetailsDto.decodeInto d0 ms = some d →
        decodeFloats ms CostBioGasDetailsDto.keys d0.vals = some d.vals) ∧
      (∀ d0 ms d, CostElectricityProductionDto.decodeInto tc d0 ms = some d →
        decodeFloats ms CostElectricityProductionDto.keys d0.vals = some d.vals ∧
        decodeField (storePtr CostGridDetailsDto.zero CostGridDetailsDto.decodeInto) ms
          "costGridDetails" d0.CostGridDetails = some d.CostGridDetails) ∧
      (∀ d0 ms d, CostGasDto.decodeInto tc d0 ms = some d →
        decodeFloats ms CostGasDto.keys d0.vals = some d.vals ∧
        decodeField (storePtr CostBioGasDetailsDto.zero CostBioGasDetailsDto.decodeInto) ms
          "costBioGasDetails" d0.CostBioGasDetails = some d.CostBioGasDetails) ∧
      (∀ d0 ms d, CostHeatColdDto.decodeInto tc d0 ms = some d →
        decodeFloats ms CostHeatColdDto.keys d0.vals = some d.vals) ∧
      (∀ cur, storePtr CostGridDetailsDto.zero CostGridDetailsDto.decodeInto cur .null
          = some none) ∧
      (∀ cur ms, storePtr CostGridDetailsDto.zero CostGridDetailsDto.decodeInto cur (.object ms)
          = (CostGridDetailsDto.decodeInto (cur.getD CostGridDetailsDto.zero) ms).map some) ∧
      (∀ cur, storePtr CostBioGasDetailsDto.zero CostBioGasDetailsDto.decodeInto cur .null
          = some none) ∧
      (∀ cur ms, storePtr CostBioGasDetailsDto.zero CostBioGasDetailsDto.decodeInto cur
          (.object ms)
          = (CostBioGasDetailsDto.decodeInto (cur.getD CostBioGasDetailsDto.zero) ms).map
              some)) ∧
    ((CostGridDetailsDto.zero.vals = List.replicate 30 none ∧
        CostBioGasDetailsDto.zero.vals = List.replicate 6 none ∧
        CostElectricityProductionDto.zero.vals = List.replicate 6 none ∧
        CostElectricityProductionDto.zero.CostGridDetails = none ∧
        CostGasDto.zero.vals = List.replicate 4 none ∧
        CostGasDto.zero.CostBioGasDetails = none ∧
        CostHeatColdDto.zero.vals = List.replicate 8 none) ∧
      (∀ (α : Type) (zero : α) (decodeInto : α → List (String × JSON) → Option α)
          (pre : List (String × JSON)) (k : String) (items : List JSON)
          (post : List (String × JSON)) (m : SliceMem α), keyMatch "costs" k = true →
        (∀ key ∈ pre.map Prod.fst, keyMatch "costs" key = false) →
        (∀ key ∈ post.map Prod.fst, keyMatch "costs" key = false) →
        decodeField (storeSlice zero (decodeEntry decodeInto))
          (pre ++ (k, .array items) :: post) "costs" ⟨none, []⟩ = some m →
        ∃ es, m.slice = some es ∧ es.length = items.length ∧
          ∀ i, i < items.length →
            decodeEntry decodeInto zero (items.getD i .null) = some (es.getD i zero)) ∧
      (∀ (α : Type) (zero : α) (decodeInto : α → List (String × JSON) → Option α)
          (slots : List α) (items : List JSON) (es : List α),
        decodeElems zero (decodeEntry decodeInto) slots items = some es →
        es.length = items.length ∧
        ∀ i, i < items.length →
          decodeEntry decodeInto (slots.getD i zero) (items.getD i .null)
            = some (es.getD i zero)) ∧
      (∀ (α : Type) (decodeInto : α → List (String × JSON) → Option α) (cur : α),
        decodeEntry decodeInto cur .null = some cur ∧
        ∀ ms, decodeEntry decodeInto cur (.object ms) = decodeInto cur ms) ∧
      (∀ pre k items post w, keyMatch "costs" k = true →
        (∀ key ∈ pre.map Prod.fst, keyMatch "costs" key = false) →
        (∀ key ∈ post.map Prod.fst, keyMatch "costs" key = false) →
        CostsElectricityWrapper.decode tc (pre ++ (k, .array items) :: post) = some w →
        ∃ es, w.Costs = some es ∧ es.length = items.length ∧
          ∀ i, i < items.length →
            decodeEntry (CostElectricityProductionDto.decodeInto tc)
              CostElectricityProductionDto.zero (items.getD i .null)
              = some (es.getD i CostElectricityProductionDto.zero))) ∧
    ((∀ ms d, CostGridDetailsDto.decodeInto CostGridDetailsDto.zero ms = some d →
        ∀ x, some x ∈ d.vals → x.finite = true) ∧
      (∀ ms d, CostBioGasDetailsDto.decodeInto CostBioGasDetailsDto.zero ms = some d →
        ∀ x, some x ∈ d.vals → x.finite = true) ∧
      (∀ ms d, CostElectricityProductionDto.decodeInto tc CostElectricityProductionDto.zero ms
          = some d →
        (∀ x, some x ∈ d.vals → x.finite = true) ∧
        (∀ g, d.CostGridDetails = some g → ∀ x, some x ∈ g.vals → x.finite = true)) ∧
      (∀ ms d, CostGasDto.decodeInto tc CostGasDto.zero ms = some d →
        (∀ x, some x ∈ d.vals → x.finite = true) ∧
        (∀ g, d.CostBioGasDetails = some g → ∀ x, some x ∈ g.vals → x.finite = true)) ∧
      (∀ ms d, CostHeatColdDto.decodeInto tc CostHeatColdDto.zero ms = some d →
        ∀ x, some x ∈ d.vals → x.finite = true) ∧
      (∀ d : CostGridDetailsDto, (∀ x, some x ∈ d.vals → x.finite = true) →
        ∃ ms, CostGridDetailsDto.encode d = some (.object ms) ∧
          ∀ d0, CostGridDetailsDto.decodeInto d0 ms = some d) ∧
      (∀ d : CostBioGasDetailsDto, (∀ x, some x ∈ d.vals → x.finite = true) →
        ∃ ms, CostBioGasDetailsDto.encode d = some (.object ms) ∧
          ∀ d0, CostBioGasDetailsDto.decodeInto d0 ms = some d) ∧
      (∀ (d : CostElectricityProductionDto) (jm : JSON),
        (∀ x, some x ∈ d.vals → x.finite = true) →
        (∀ g, d.CostGridDetails = some g → ∀ x, some x ∈ g.vals → x.finite = true) →
        tc.Marshal d.Month = some jm →
        ∃ ms, CostElectricityProductionDto.encode tc d = some (.object ms) ∧
          ∀ d0, CostElectricityProductionDto.decodeInto tc d0 ms
            = (storeTime tc d0.Month jm).map (fun t => { d with Month := t })) ∧
      (∀ (d : CostGasDto) (jm : JSON),
        (∀ x, some x ∈ d.vals → x.finite = true) →
        (∀ g, d.CostBioGasDetails = some g → ∀ x, some x ∈ g.vals → x.finite = true) →
        tc.Marshal d.Month = some jm →
        ∃ ms, CostGasDto.encode tc d = some (.object ms) ∧
          ∀ d0, CostGasDto.decodeInto tc d0 ms
            = (storeTime tc d0.Month jm).map (fun t => { d with Month := t })) ∧
      (∀ (d : CostHeatColdDto) (jm : JSON),
        (∀ x, some x ∈ d.vals → x.finite = true) →
        tc.Marshal d.Month = some jm →
        ∃ ms, CostHeatColdDto.encode tc d = some (.object ms) ∧
          ∀ d0, CostHeatColdDto.decodeInto tc d0 ms
            = (storeTime tc d0.Month jm).map (fun t => { d with Month := t })) ∧
      encodePtr CostGridDetailsDto.encode none = some .null ∧
      encodePtr CostBioGasDetailsDto.encode none = some .null) ∧
    CostsElectricityWrapper.decode tc
        [("energyClass", .string "electricity"), ("installation", .string "inst-1"),
          ("costs", .array [.object [("retailCost", .number ⟨4635013257122283520⟩),
            ("retailCostVAT", .number ⟨4626181979727986688⟩)]])]
      = some ⟨⟨"electricity", "inst-1"⟩,
          some [⟨⟨⟨0, 0⟩⟩, some ⟨4635013257122283520⟩, some ⟨4626181979727986688⟩,
            none, none, none, none, none⟩]⟩ ∧
    CostsElectricityWrapper.decode tc
        [("energyClass", .string "electricity"), ("installation", .string "inst-1"),
          ("costs", .array [.object [("retailCost", .number ⟨4635013257122283520⟩),
            ("retailCostVAT", .number ⟨4626181979727986688⟩),
            ("energyTax", .null), ("energyTaxVAT", .null), ("netCost", .null),
            ("netCostVAT", .null), ("costGridDetails", .null)]])]
      = some ⟨⟨"electricity", "inst-1"⟩,
          some [⟨⟨⟨0, 0⟩⟩, some ⟨4635013257122283520⟩, some ⟨4626181979727986688⟩,
            none, none, none, none, none⟩]⟩ := by
  have hslice : ∀ (α : Type) (zero : α) (decodeInto : α → List (String × JSON) → Option α)
      (pre : List (String × JSON)) (k : String) (items : List JSON)
      (post : List (String × JSON)) (m : SliceMem α), keyMatch "costs" k = true →
      (∀ key ∈ pre.map Prod.fst, keyMatch "costs" key = false) →
      (∀ key ∈ post.map Prod.fst, keyMatch "costs" key = false) →
      decodeField (storeSlice zero (decodeEntry decodeInto))
        (pre ++ (k, .array items) :: post) "costs" ⟨none, []⟩ = some m →
      ∃ es, m.slice = some es ∧ es.length = items.length ∧
        ∀ i, i < items.length →
          decodeEntry decodeInto zero (items.getD i .null) = some (es.getD i zero) := by
    intro α zero decodeInto pre k items post m hk hpre hpost hm
    rw [decodeField_unique _ "costs" k _ pre post hk hpre hpost] at hm
    cases items with
    | nil =>
      simp only [storeSlice, Option.some.injEq] at hm
      subst hm
      exact ⟨[], rfl, rfl, fun i hi => absurd hi (by simp)⟩
    | cons item items =>
      simp only [storeSlice, Option.map_eq_some'] at hm
      obtain ⟨es, hes, rfl⟩ := hm
      obtain ⟨hl, hi⟩ := decodeElems_getD _ _ _ _ es hes
      refine ⟨es, rfl, hl, fun i hlt => ?_⟩
      have := hi i hlt
      simpa [Slice.elems] using this
  refine ⟨?_, ⟨?_, ?_, ?_, ?_, ?_, ?_, ?_, ?_, ?_⟩,
    ⟨⟨rfl, rfl, rfl, rfl, rfl, rfl, rfl⟩, hslice,
      fun α zero decodeInto slots items es h => decodeElems_getD zero _ slots items es h,
      fun α decodeInto cur => ⟨rfl, fun ms => rfl⟩, ?_⟩,
    ⟨?_, ?_, ?_, ?_, ?_, ?_, ?_, ?_, ?_, ?_, rfl, rfl⟩, rfl, rfl⟩
  · intro ms keys cur vs hc h i hi
    exact decodeFloats_field ms keys cur vs hc h i hi
  · exact CostGridDetailsDto_decodeInto_vals
  · exact CostBioGasDetailsDto_decodeInto_vals
  · exact CostElectricityProductionDto_decodeInto_vals tc
  · exact CostGasDto_decodeInto_vals tc
  · exact CostHeatColdDto_decodeInto_vals tc
  · intro cur; rfl
  · intro cur ms; rfl
  · intro cur; rfl
  · intro cur ms; rfl
  · intro pre k items post w hk hpre hpost h
    simp only [CostsElectricityWrapper.decode, Option.bind_eq_some, Option.map_eq_some'] at h
    obtain ⟨ec, -, inst, -, m, hm, rfl⟩ := h
    exact hslice _ _ _ pre k items post m hk hpre hpost hm
  · intro ms d h
    exact CostGridDetailsDto_decodeInto_finite CostGridDetailsDto.zero ms d
      (finite_of_replicate 30 CostGridDetailsDto.zero.vals rfl) h
  · intro ms d h
    exact CostBioGasDetailsDto_decodeInto_finite CostBioGasDetailsDto.zero ms d
      (finite_of_replicate 6 CostBioGasDetailsDto.zero.vals rfl) h
  · exact CostElectricityProductionDto_decodeInto_finite tc
  · exact CostGasDto_decodeInto_finite tc
  · exact CostHeatColdDto_decodeInto_finite tc
  · intro d hd
    obtain ⟨j, hj⟩ := CostGridDetailsDto_encode_total d hd
    obtain ⟨ms, rfl, -⟩ := CostGridDetailsDto_decode_encode d d j hj
    exact ⟨ms, hj, fun d0 => by
      obtain ⟨ms1, e, h1⟩ := CostGridDetailsDto_decode_encode d0 d _ hj
      cases e
      exact h1⟩
  · intro d hd
    obtain ⟨j, hj⟩ := CostBioGasDetailsDto_encode_total d hd
    obtain ⟨ms, rfl, -⟩ := CostBioGasDetailsDto_decode_encode d d j hj
    exact ⟨ms, hj, fun d0 => by
      obtain ⟨ms1, e, h1⟩ := CostBioGasDetailsDto_decode_encode d0 d _ hj
      cases e
      exact h1⟩
  · intro d jm hd hg hm
    obtain ⟨j, hj⟩ := CostElectricityProductionDto_encode_total tc d jm hd hg hm
    obtain ⟨ms, jm1, rfl, hjm1, hdec⟩ := CostElectricityProductionDto_decode_encode tc d j hj
    rw [hm] at hjm1
    cases hjm1
    exact ⟨ms, hj, hdec⟩
  · intro d jm hd hg hm
    obtain ⟨j, hj⟩ := CostGasDto_encode_total tc d jm hd hg hm
    obtain ⟨ms, jm1, rfl, hjm1, hdec⟩ := CostGasDto_decode_encode tc d j hj
    rw [hm] at hjm1
    cases hjm1
    exact ⟨ms, hj, hdec⟩
  · intro d jm hd hm
    obtain ⟨j, hj⟩ := CostHeatColdDto_encode_total tc d jm hd hm
    obtain ⟨ms, jm1, rfl, hjm1, hdec⟩ := CostHeatColdDto_decode_encode tc d j hj
    rw [hm] at hjm1
    cases hjm1
    exact ⟨ms, hj, hdec⟩

set_option maxRecDepth 100000 in
/-- Witness of the amended C18 at the gas entry with the members `retailCost` = 0 and
`energyTax` = `null`, decoded into a new value: `RetailCost` holds 0, `RetailCostVAT`
(missing) and `EnergyTax` (`null`) are nil; and the heat entry with `RetailCost` = 0
and nothing else is encoded, its encoding decoding to the same fields. -/
theorem cost_fields_keep_absence_witness :
    decodeFloats [("retailCost", .number ⟨0⟩), ("energyTax", .null)] CostGasDto.keys
        CostGasDto.zero.vals = some [some ⟨0⟩, none, none, none] ∧
    ([some ⟨0⟩, none, none, none] : List (Option Float64)).getD 0 none = some ⟨0⟩ ∧
    ([some ⟨0⟩, none, none, none] : List (Option Float64)).getD 1 none = none ∧
    ([some ⟨0⟩, none, none, none] : List (Option Float64)).getD 2 none = none ∧
    ∃ ms, CostHeatColdDto.encode ⟨fun _ => some (.string "m"), fun _ => some ⟨0, 0⟩⟩
        ⟨⟨⟨0, 0⟩⟩, some ⟨0⟩, none, none, none, none, none, none, none⟩ = some (.object ms) ∧
      CostHeatColdDto.decodeInto ⟨fun _ => some (.string "m"), fun _ => some ⟨0, 0⟩⟩
        CostHeatColdDto.zero ms
        = some ⟨⟨⟨0, 0⟩⟩, some ⟨0⟩, none, none, none, none, none, none, none⟩ := by
  have h := (cost_fields_keep_absence ⟨fun _ => none, fun _ => none⟩).1
    [("retailCost", .number ⟨0⟩), ("energyTax", .null)] CostGasDto.keys
    CostGasDto.zero.vals [some ⟨0⟩, none, none, none] rfl rfl
  obtain ⟨ms, hms, hd⟩ :=
    (cost_fields_keep_absence ⟨fun _ => some (.string "m"), fun _ => some ⟨0, 0⟩⟩).2.2.2.1.2.2.2.2.2.2.2.2.2.1
      ⟨⟨⟨0, 0⟩⟩, some ⟨0⟩, none, none, none, none, none, none, none⟩ (.string "m")
      (by
        intro x hx
        simp only [CostHeatColdDto.vals, List.mem_cons, Option.some.injEq, List.mem_singleton,
          reduceCtorEq, or_false, List.not_mem_nil] at hx
        subst hx
        rfl) rfl
  exact ⟨rfl,
    ((h 0 (by decide)).2 [] "retailCost" (.number ⟨0⟩) [("energyTax", .null)] rfl
      (by decide) (by decide)).2 ⟨0⟩ rfl,
    (h 1 (by decide)).1 (by decide),
    ((h 2 (by decide)).2 [("retailCost", .number ⟨0⟩)] "energyTax" .null [] rfl
      (by decide) (by decide)).1 rfl,
    ms, hms, hd CostHeatColdDto.zero⟩

/-! ## The cost payload is handed over as decoded (C19) -/

/-- C19, as stated, fails: the costs endpoint answers 200 with a body that is a JSON
object, and the HTTP library leaves the result variable unset (it decodes a body only
when the answer declares a JSON content type); `GetCosts` then returns a nil value with
no error, where the claim requires a non-nil structured value. -/
theorem GetCosts_nil_result :
    (GetCosts (fun layout t => t.Format layout)
        ⟨⟨5, 0⟩, fun _ _ => .fail (.transport "unreachable"), ⟨5, 0⟩⟩
        (fun _ _ => (Reply.ok ⟨200,
          "\x7b\"energyClass\":\"electricity\",\"installation\":\"inst-1\",\"costs\":[]\x7d",
          none⟩ : Reply (Option JSON)))
        ⟨"id", "secret", "fake-token", ⟨100, 0⟩⟩ "inst-1" none none).val = none ∧
    (GetCosts (fun layout t => t.Format layout)
        ⟨⟨5, 0⟩, fun _ _ => .fail (.transport "unreachable"), ⟨5, 0⟩⟩
        (fun _ _ => (Reply.ok ⟨200,
          "\x7b\"energyClass\":\"electricity\",\"installation\":\"inst-1\",\"costs\":[]\x7d",
          none⟩ : Reply (Option JSON)))
        ⟨"id", "secret", "fake-token", ⟨100, 0⟩⟩ "inst-1" none none).err = none :=
  ⟨rfl, rfl⟩

/-- C19, amended: for every answer of the costs endpoint with status 200, once the token
is obtained, `GetCosts` returns no error and exactly the value the HTTP library left in
the result variable, which it neither inspects nor changes. When the library decoded
the body, a JSON object, the returned value is non-nil and is that object with all its
members, so `energyClass` may be any of the five classes, unknown, or missing; when
the library left the result unset the returned value is nil. -/
theorem GetCosts_returns_payload (w : Outside) (http : String → Request → Reply (Option JSON))
    (c : client) (installationID : String) (from_ to_ : Option Time)
    (res : Response (Option JSON))
    (htok : (GetAccessToken w c).err = none)
    (hres : http (costsPath installationID)
      (costsRequest (fun layout t => t.Format layout) (GetAccessToken w c).val from_ to_)
      = .ok res)
    (hstatus : res.StatusCode = 200) :
    (GetCosts (fun layout t => t.Format layout) w http c installationID from_ to_).err = none ∧
    (GetCosts (fun layout t => t.Format layout) w http c installationID from_ to_).val
      = res.Result ∧
    (∀ members, res.Result = some (.object members) →
      (GetCosts (fun layout t => t.Format layout) w http c installationID from_ to_).val
        = some (.object members) ∧
      (GetCosts (fun layout t => t.Format layout) w http c installationID from_ to_).val
        ≠ none) ∧
    (res.Result = none →
      (GetCosts (fun layout t => t.Format layout) w http c installationID from_ to_).val
        = none) := by
  have hv : GetCosts (fun layout t => t.Format layout) w http c installationID from_ to_
      = ⟨res.Result, none, (GetAccessToken w c).c, (GetAccessToken w c).calls ++
          [Call.Get (costsPath installationID) (costsRequest (fun layout t => t.Format layout)
            (GetAccessToken w c).val from_ to_)]⟩ := by
    simp only [GetCosts, htok, hres, hstatus]
    simp
  rw [hv]
  refine ⟨rfl, rfl, ?_, fun h => h⟩
  intro members hm
  exact ⟨hm, by rw [hm]; exact Option.some_ne_none _⟩

set_option maxRecDepth 100000 in
/-- Witness of the amended C19: a payload whose `energyClass` is the unknown class
`steam` and whose `costs` array holds one entry comes back whole. -/
theorem GetCosts_returns_payload_witness :
    (GetCosts (fun layout t => t.Format layout)
        ⟨⟨5, 0⟩, fun _ _ => .fail (.transport "unreachable"), ⟨5, 0⟩⟩
        (fun _ _ => Reply.ok ⟨200, "", some (JSON.object [("energyClass", JSON.string "steam"),
          ("installation", JSON.string "inst-1"),
          ("costs", JSON.array [JSON.object
            [("retailCost", JSON.number ⟨4635013257122283520⟩)]])])⟩)
        ⟨"id", "secret", "fake-token", ⟨100, 0⟩⟩ "inst-1" none none).val
      = some (JSON.object [("energyClass", JSON.string "steam"),
          ("installation", JSON.string "inst-1"),
          ("costs", JSON.array [JSON.object
            [("retailCost", JSON.number ⟨4635013257122283520⟩)]])]) :=
  ((GetCosts_returns_payload ⟨⟨5, 0⟩, fun _ _ => .fail (.transport "unreachable"), ⟨5, 0⟩⟩
    (fun _ _ => Reply.ok ⟨200, "", some (JSON.object [("energyClass", JSON.string "steam"),
      ("installation", JSON.string "inst-1"),
      ("costs", JSON.array [JSON.object
        [("retailCost", JSON.number ⟨4635013257122283520⟩)]])])⟩)
    ⟨"id", "secret", "fake-token", ⟨100, 0⟩⟩ "inst-1" none none _ rfl rfl rfl).2.2.1 _ rfl).1

/-! ## The time codec reads its input through `Trim` (C22) -/

theorem dropWhile_replicate_append (q : Char) (m : Nat) (l : List Char) :
    (List.replicate m q ++ l).dropWhile (fun x => x == q) = l.dropWhile (fun x => x == q) := by
  induction m with
  | zero => rfl
  | succ m ih => simp [List.replicate_succ, List.dropWhile_cons, ih]

theorem dropWhile_reverse_append_replicate (q : Char) (n : Nat) (l : List Char) :
    (l ++ List.replicate n q).reverse.dropWhile (fun x => x == q)
      = l.reverse.dropWhile (fun x => x == q) := by
  rw [List.reverse_append, List.reverse_replicate, dropWhile_replicate_append]

theorem Trim_append_replicate (q : Char) (n : Nat) (l : List Char) :
    Trim (l ++ List.replicate n q) q = Trim l q := by
  induction l with
  | nil =>
    have h := dropWhile_replicate_append q n []
    simp only [List.append_nil] at h
    simp only [Trim, List.nil_append, h]
  | cons x xs ih =>
    by_cases hx : (x == q) = true
    · simpa only [Trim, List.cons_append, List.dropWhile_cons, hx, if_true] using ih
    · simp only [Trim, List.cons_append, List.dropWhile_cons, hx, Bool.false_eq_true, if_false]
      rw [← List.cons_append, dropWhile_reverse_append_replicate]

theorem Trim_replicate (q : Char) (m n : Nat) (l : List Char) :
    Trim (List.replicate m q ++ l ++ List.replicate n q) q = Trim l q := by
  rw [Trim_append_replicate]
  simp only [Trim, dropWhile_replicate_append]

theorem dropWhile_head_false (p : Char → Bool) (l : List Char) (x : Char) (t : List Char)
    (h : l.dropWhile p = x :: t) : p x = false := by
  induction l with
  | nil => simp at h
  | cons y ys ih =>
    rw [List.dropWhile_cons] at h
    split at h
    · exact ih h
    · rename_i hy
      simp only [List.cons.injEq] at h
      rw [← h.1]
      simpa using hy

theorem dropWhile_self_of_head (p : Char → Bool) (l : List Char)
    (h : ∀ x t, l = x :: t → p x = false) : l.dropWhile p = l := by
  cases l with
  | nil => rfl
  | cons x t => simp [List.dropWhile_cons, h x t rfl]

theorem Trim_idem (q : Char) (l : List Char) : Trim (Trim l q) q = Trim l q := by
  have e : ∀ s : List Char, Trim s q
      = ((s.dropWhile (fun x => x == q)).reverse.dropWhile (fun x => x == q)).reverse :=
    fun _ => rfl
  have h1 : (Trim l q).dropWhile (fun x => x == q) = Trim l q := by
    apply dropWhile_self_of_head
    intro x t hxt
    obtain ⟨a, ha⟩ : ∃ a, l.dropWhile (fun x => x == q) = a := ⟨_, rfl⟩
    have hpre : Trim l q <+: a := by
      rw [e, ha]
      exact List.rdropWhile_prefix _ _
    obtain ⟨u, hu⟩ := hpre
    rw [hxt] at hu
    exact dropWhile_head_false _ l x (t ++ u) (by rw [ha, ← hu]; rfl)
  have h2 : (Trim l q).reverse.dropWhile (fun x => x == q) = (Trim l q).reverse := by
    rw [e l, List.reverse_reverse]
    apply dropWhile_self_of_head
    intro x t hxt
    exact dropWhile_head_false _ _ x t hxt
  rw [e (Trim l q), h1, h2, List.reverse_reverse]

set_option maxRecDepth 100000 in
/-- C22: `UnmarshalJSON` depends on its input only through the input with every leading
and trailing double quote removed: for every receiver and every input `b`, decoding
`b` and decoding the stripped `b` give the same error and the same value; hence
adding any number of double quotes on either side changes nothing. For instance the
timestamp `2024-01-01T00:00:00Z` decodes to the same time without quotes, with one
quote on each side and with two before and three after; and the quoted text `null`
decodes to the zero time without error, like the literal `null`. -/
theorem UnmarshalJSON_depends_on_Trim (ft : FlexibleTime) :
    (∀ b : String,
      FlexibleTime.UnmarshalJSON ft (String.mk (Trim b.data dquote))
        = FlexibleTime.UnmarshalJSON ft b) ∧
    (∀ (b : String) (m n : Nat),
      FlexibleTime.UnmarshalJSON ft
          (String.mk (List.replicate m dquote ++ b.data ++ List.replicate n dquote))
        = FlexibleTime.UnmarshalJSON ft b) ∧
    FlexibleTime.UnmarshalJSON ft "2024-01-01T00:00:00Z"
      = (none, ⟨⟨63839664000000000000, 0⟩⟩) ∧
    FlexibleTime.UnmarshalJSON ft "\"2024-01-01T00:00:00Z\""
      = (none, ⟨⟨63839664000000000000, 0⟩⟩) ∧
    FlexibleTime.UnmarshalJSON ft "\"\"2024-01-01T00:00:00Z\"\"\""
      = (none, ⟨⟨63839664000000000000, 0⟩⟩) ∧
    FlexibleTime.UnmarshalJSON ft "\"null\"" = (none, ⟨⟨0, 0⟩⟩) ∧
    FlexibleTime.UnmarshalJSON ft "null" = (none, ⟨⟨0, 0⟩⟩) := by
  have key : ∀ a b : String, Trim a.data dquote = Trim b.data dquote →
      FlexibleTime.UnmarshalJSON ft a = FlexibleTime.UnmarshalJSON ft b := by
    intro a b h
    simp only [FlexibleTime.UnmarshalJSON, h]
  have ex : ∀ b : String,
      String.mk (Trim b.data dquote) = "2024-01-01T00:00:00Z" →
      FlexibleTime.UnmarshalJSON ft b = (none, ⟨⟨63839664000000000000, 0⟩⟩) := by
    intro b hb
    have hp : tryFormats formats "2024-01-01T00:00:00Z" none
        = .ok ⟨63839664000000000000, 0⟩ := rfl
    have h1 : ¬ ("2024-01-01T00:00:00Z" = "" ∨ "2024-01-01T00:00:00Z" = "null") := by decide
    simp only [FlexibleTime.UnmarshalJSON, hb, h1, if_false, hp]
  have nu : ∀ b : String, String.mk (Trim b.data dquote) = "null" →
      FlexibleTime.UnmarshalJSON ft b = (none, ⟨⟨0, 0⟩⟩) := by
    intro b hb
    simp only [FlexibleTime.UnmarshalJSON, hb, or_true, if_true]
  refine ⟨fun b => key _ _ (Trim_idem dquote b.data), fun b m n => key _ _ ?_,
    ex _ (by decide), ex _ (by decide), ex _ (by decide), nu _ (by decide), nu _ (by decide)⟩
  exact Trim_replicate dquote m n b.data

/-! ## Concurrent callers (C21) -/

theorem get?_set_self {α : Type} (l : List α) (i : Nat) (k : α) (hi : i < l.length) :
    (l.set i k).get? i = some k := by
  induction l generalizing i with
  | nil => simp at hi
  | cons x xs ih =>
    cases i with
    | zero => rfl
    | succ n => exact ih n (by simpa using hi)

theorem set_set_self {α : Type} (l : List α) (i : Nat) (a b : α) :
    (l.set i a).set i b = l.set i b := by
  induction l generalizing i with
  | nil => rfl
  | cons x xs ih =>
    cases i with
    | zero => rfl
    | succ n => simp [List.set, ih n]

theorem solo_step (w : Nat → Outside) (c : client) (calls : List Call) (L : List Caller)
    (i : Nat) (hi : i < L.length) (k : Caller) (n : Nat) :
    Shared.run w ⟨c, calls, L.set i k⟩ (List.replicate (n + 1) i)
      = Shared.run w
          ⟨(k.step (w i) c).1, calls ++ (k.step (w i) c).2.1, L.set i (k.step (w i) c).2.2⟩
          (List.replicate n i) := by
  simp only [Shared.run, List.replicate_succ, List.foldl_cons, Shared.step,
    get?_set_self L i k hi, set_set_self]

theorem step_checkToken_empty (w : Outside) (c : client) (a : Option String)
    (b : Option Time) (h : c.accessToken = "") :
    Caller.step w c ⟨.checkToken, a, b⟩ = (c, [], ⟨.post, some c.accessToken, b⟩) := by
  simp [Caller.step, h]

theorem step_checkToken_present (w : Outside) (c : client) (a : Option String)
    (b : Option Time) (h : ¬ c.accessToken = "") :
    Caller.step w c ⟨.checkToken, a, b⟩ = (c, [], ⟨.checkExpiry, some c.accessToken, b⟩) := by
  simp [Caller.step, h]

theorem step_checkExpiry_after (w : Outside) (c : client) (a : Option String)
    (b : Option Time) (h : w.now.After c.tokenExpiry = true) :
    Caller.step w c ⟨.checkExpiry, a, b⟩ = (c, [], ⟨.post, a, some c.tokenExpiry⟩) := by
  simp [Caller.step, h]

theorem step_checkExpiry_valid (w : Outside) (c : client) (a : Option String)
    (b : Option Time) (h : ¬ w.now.After c.tokenExpiry = true) :
    Caller.step w c ⟨.checkExpiry, a, b⟩ = (c, [], ⟨.ret, a, some c.tokenExpiry⟩) := by
  simp [Caller.step, h]

theorem step_post_fail (w : Outside) (c : client) (a : Option String) (b : Option Time)
    (err : GoError) (h : w.Post tokenEndpoint (formData c) = .fail err) :
    Caller.step w c ⟨.post, a, b⟩ = (c, [Call.Post tokenEndpoint (formData c)],
      ⟨.done "" (some (.wrapError ("failed to authenticate: " ++ err.Error) err)), a, b⟩) := by
  simp [Caller.step, h]

theorem step_post_status (w : Outside) (c : client) (a : Option String) (b : Option Time)
    (res : Response OAuth2TokenResponse) (h : w.Post tokenEndpoint (formData c) = .ok res)
    (hs : ¬ res.StatusCode = 200) :
    Caller.step w c ⟨.post, a, b⟩ = (c, [Call.Post tokenEndpoint (formData c)],
      ⟨.done "" (some (.errorString ("authentication failed with status "
        ++ fmtD res.StatusCode ++ ": " ++ res.Body))), a, b⟩) := by
  simp [Caller.step, h, hs]

theorem step_post_ok (w : Outside) (c : client) (a : Option String) (b : Option Time)
    (res : Response OAuth2TokenResponse) (h : w.Post tokenEndpoint (formData c) = .ok res)
    (hs : res.StatusCode = 200) :
    Caller.step w c ⟨.post, a, b⟩ = (c, [Call.Post tokenEndpoint (formData c)],
      ⟨.storeToken res.Result, a, b⟩) := by
  simp [Caller.step, h, hs]

theorem solo_done (w : Nat → Outside) (c : client) (calls : List Call) (L : List Caller)
    (i : Nat) (hi : i < L.length) (v : String) (e : Option GoError) (a : Option String)
    (b : Option Time) (n : Nat) :
    Shared.run w ⟨c, calls, L.set i ⟨.done v e, a, b⟩⟩ (List.replicate n i)
      = ⟨c, calls, L.set i ⟨.done v e, a, b⟩⟩ := by
  induction n with
  | zero => rfl
  | succ n ih =>
    rw [solo_step w c calls L i hi]
    simpa [Caller.step] using ih

theorem solo_ret (w : Nat → Outside) (c : client) (calls : List Call) (L : List Caller)
    (i : Nat) (hi : i < L.length) (a : Option String) (b : Option Time) (n : Nat) :
    Shared.run w ⟨c, calls, L.set i ⟨.ret, a, b⟩⟩ (List.replicate (n + 1) i)
      = ⟨c, calls, L.set i ⟨.done c.accessToken none, a, b⟩⟩ := by
  rw [solo_step w c calls L i hi]
  simpa [Caller.step] using solo_done w c calls L i hi c.accessToken none a b n

theorem solo_post (w : Nat → Outside) (c : client) (calls : List Call) (L : List Caller)
    (i : Nat) (hi : i < L.length) (a : Option String) (b : Option Time) (n : Nat) :
    Shared.run w ⟨c, calls, L.set i ⟨.post, a, b⟩⟩ (List.replicate (n + 4) i)
      = (match authenticate (w i) c with
        | (some err, c1, cl) => ⟨c1, calls ++ cl, L.set i ⟨.done "" (some err), a, b⟩⟩
        | (none, c1, cl) => ⟨c1, calls ++ cl, L.set i ⟨.done c1.accessToken none, a, b⟩⟩) := by
  rw [solo_step w c calls L i hi]
  cases hp : (w i).Post tokenEndpoint (formData c) with
  | fail err =>
    rw [step_post_fail (w i) c a b err hp]
    simp only [authenticate, hp]
    exact solo_done w c _ L i hi _ _ a b (n + 3)
  | ok res =>
    by_cases hs : res.StatusCode = 200
    · rw [step_post_ok (w i) c a b res hp hs]
      simp only [authenticate, hp, hs, ne_eq, not_true_eq_false, if_false]
      rw [solo_step w _ _ L i hi, solo_step w _ _ L i hi]
      have hr := solo_ret w
        { c with
          accessToken := res.Result.AccessToken
          tokenExpiry :=
            (w i).nowStored.Add (wrap64 (wrap64 (res.Result.ExpiresIn - 60) * Second)) }
        (calls ++ [Call.Post tokenEndpoint (formData c)]) L i hi a b n
      simpa [Caller.step] using hr
    · rw [step_post_status (w i) c a b res hp hs]
      simp only [authenticate, hp, hs, ne_eq, not_false_eq_true, if_true]
      exact solo_done w c _ L i hi _ _ a b (n + 3)

theorem solo_GetAccessToken (w : Nat → Outside) (c : client) (calls : List Call)
    (L : List Caller) (i : Nat) (hi : i < L.length) :
    ∃ a b, Shared.run w ⟨c, calls, L.set i Caller.start⟩ (List.replicate 6 i)
      = ⟨(GetAccessToken (w i) c).c, calls ++ (GetAccessToken (w i) c).calls,
          L.set i ⟨.done (GetAccessToken (w i) c).val (GetAccessToken (w i) c).err, a, b⟩⟩ := by
  rw [Caller.start, solo_step w c calls L i hi]
  by_cases h1 : c.accessToken = ""
  · rw [step_checkToken_empty (w i) c none none h1]
    refine ⟨some c.accessToken, none, ?_⟩
    have hrun := solo_post w c (calls ++ []) L i hi (some c.accessToken) none 1
    rw [hrun]
    simp only [GetAccessToken, h1, true_or, if_true]
    rcases authenticate (w i) c with ⟨_ | err, c1, cl⟩ <;> simp
  · rw [step_checkToken_present (w i) c none none h1, solo_step w _ _ L i hi]
    by_cases h3 : (w i).now.After c.tokenExpiry = true
    · rw [step_checkExpiry_after (w i) c _ none h3]
      refine ⟨some c.accessToken, some c.tokenExpiry, ?_⟩
      have hrun := solo_post w c (calls ++ [] ++ []) L i hi (some c.accessToken)
        (some c.tokenExpiry) 0
      rw [hrun]
      simp only [GetAccessToken, h3, or_true, if_true]
      rcases authenticate (w i) c with ⟨_ | err, c1, cl⟩ <;> simp
    · rw [step_checkExpiry_valid (w i) c _ none h3]
      refine ⟨some c.accessToken, some c.tokenExpiry, ?_⟩
      have hrun := solo_ret w c (calls ++ [] ++ []) L i hi (some c.accessToken)
        (some c.tokenExpiry) 3
      rw [hrun]
      simp [GetAccessToken, h1, h3]

theorem serial_two (w : Nat → Outside) (c : client) :
    ∃ a0 b0 a1 b1,
      Shared.run w ⟨c, [], [Caller.start, Caller.start]⟩
          (List.replicate 6 0 ++ List.replicate 6 1)
        = ⟨(GetAccessToken (w 1) (GetAccessToken (w 0) c).c).c,
            (GetAccessToken (w 0) c).calls
              ++ (GetAccessToken (w 1) (GetAccessToken (w 0) c).c).calls,
            [⟨.done (GetAccessToken (w 0) c).val (GetAccessToken (w 0) c).err, a0, b0⟩,
              ⟨.done (GetAccessToken (w 1) (GetAccessToken (w 0) c).c).val
                (GetAccessToken (w 1) (GetAccessToken (w 0) c).c).err, a1, b1⟩]⟩ := by
  obtain ⟨a0, b0, h0⟩ := solo_GetAccessToken w c [] [Caller.start, Caller.start] 0 (by simp)
  obtain ⟨a1, b1, h1⟩ := solo_GetAccessToken w (GetAccessToken (w 0) c).c
    ([] ++ (GetAccessToken (w 0) c).calls)
    [⟨.done (GetAccessToken (w 0) c).val (GetAccessToken (w 0) c).err, a0, b0⟩, Caller.start]
    1 (by simp)
  refine ⟨a0, b0, a1, b1, ?_⟩
  have e : Shared.run w ⟨c, [], [Caller.start, Caller.start]⟩
      (List.replicate 6 0 ++ List.replicate 6 1)
      = Shared.run w (Shared.run w ⟨c, [], [Caller.start, Caller.start]⟩ (List.replicate 6 0))
          (List.replicate 6 1) := by
    simp only [Shared.run, List.foldl_append]
  rw [e]
  have h0' : Shared.run w ⟨c, [], [Caller.start, Caller.start]⟩ (List.replicate 6 0)
      = ⟨(GetAccessToken (w 0) c).c, [] ++ (GetAccessToken (w 0) c).calls,
          [⟨.done (GetAccessToken (w 0) c).val (GetAccessToken (w 0) c).err, a0, b0⟩,
            Caller.start]⟩ := h0
  rw [h0']
  have h1' : Shared.run w ⟨(GetAccessToken (w 0) c).c, [] ++ (GetAccessToken (w 0) c).calls,
      [⟨.done (GetAccessToken (w 0) c).val (GetAccessToken (w 0) c).err, a0, b0⟩,
        Caller.start]⟩ (List.replicate 6 1) = _ := h1
  rw [h1']
  simp

theorem GetAccessToken_val_stored (w : Outside) (c : client)
    (h : (GetAccessToken w c).err = none) :
    (GetAccessToken w c).val = (GetAccessToken w c).c.accessToken := by
  unfold GetAccessToken at h ⊢
  split
  · rcases hA : authenticate w c with ⟨_ | err, c1, cl⟩
    · rfl
    · rw [if_pos (by assumption), hA] at h
      simp at h
  · rfl

theorem exchanges_GetAccessToken_le (w : Outside) (c : client) :
    exchanges (GetAccessToken w c).calls ≤ 1 := by
  rcases GetAccessToken_calls w c with h | h
  · rw [h]; decide
  · rw [h, exchanges_single]

set_option maxRecDepth 100000 in
/-- C21, as stated, fails: the code takes no lock. Two callers share a client without a
token and the token endpoint answers 200 with the token `new`, valid 3600 s; when both
callers evaluate the test `c.accessToken == ""` before either has stored a token, two
exchanges are made for the one refresh (both callers return `new`). When the same two
calls run one after the other a single exchange is made. -/
theorem GetAccessToken_concurrent_race :
    exchanges (Shared.run
        (fun _ => ⟨⟨1000, 0⟩,
          fun _ _ => .ok ⟨200, "", ⟨"new", "Bearer", 3600, "navigator"⟩⟩, ⟨1000, 0⟩⟩)
        ⟨⟨"id", "secret", "", ⟨0, 0⟩⟩, [], [Caller.start, Caller.start]⟩
        [0, 1, 0, 1, 0, 0, 0, 1, 1, 1]).calls = 2 ∧
    (Shared.run
        (fun _ => ⟨⟨1000, 0⟩,
          fun _ _ => .ok ⟨200, "", ⟨"new", "Bearer", 3600, "navigator"⟩⟩, ⟨1000, 0⟩⟩)
        ⟨⟨"id", "secret", "", ⟨0, 0⟩⟩, [], [Caller.start, Caller.start]⟩
        [0, 1, 0, 1, 0, 0, 0, 1, 1, 1]).callers.map (fun k => k.pc)
      = [.done "new" none, .done "new" none] ∧
    exchanges (Shared.run
        (fun _ => ⟨⟨1000, 0⟩,
          fun _ _ => .ok ⟨200, "", ⟨"new", "Bearer", 3600, "navigator"⟩⟩, ⟨1000, 0⟩⟩)
        ⟨⟨"id", "secret", "", ⟨0, 0⟩⟩, [], [Caller.start, Caller.start]⟩
        [0, 0, 0, 0, 0, 0, 1, 1, 1, 1, 1, 1]).calls = 1 := by
  refine ⟨?_, ?_, ?_⟩ <;> decide

/-- C21, amended: the client holds no lock, and what the code gives is the behaviour of
calls that do not overlap. A caller that runs alone goes through the steps of
`GetAccessToken` and ends with its results, client and network calls. Two calls that
run one after the other end as `GetAccessToken` followed by `GetAccessToken` on the
client the first call left; when the first call returned without error a non-empty
token that is not expired at the clock value of the second call, the second call makes
no exchange, leaves the client as it is and returns the same token, so at most one
exchange is made for the two calls, and exactly one when the first call found the
token absent or expired. A caller whose test found the token absent or expired goes on
to the exchange and makes it on whatever the client has become meanwhile, without
testing it again. -/
theorem GetAccessToken_serialised (w : Nat → Outside) (c : client) :
    ((Shared.run w ⟨c, [], [Caller.start]⟩ (List.replicate 6 0)).callers.map (fun k => k.pc)
        = [.done (GetAccessToken (w 0) c).val (GetAccessToken (w 0) c).err] ∧
      (Shared.run w ⟨c, [], [Caller.start]⟩ (List.replicate 6 0)).c
        = (GetAccessToken (w 0) c).c ∧
      (Shared.run w ⟨c, [], [Caller.start]⟩ (List.replicate 6 0)).calls
        = (GetAccessToken (w 0) c).calls) ∧
    ((Shared.run w ⟨c, [], [Caller.start, Caller.start]⟩
          (List.replicate 6 0 ++ List.replicate 6 1)).callers.map (fun k => k.pc)
        = [.done (GetAccessToken (w 0) c).val (GetAccessToken (w 0) c).err,
            .done (GetAccessToken (w 1) (GetAccessToken (w 0) c).c).val
              (GetAccessToken (w 1) (GetAccessToken (w 0) c).c).err] ∧
      (Shared.run w ⟨c, [], [Caller.start, Caller.start]⟩
          (List.replicate 6 0 ++ List.replicate 6 1)).c
        = (GetAccessToken (w 1) (GetAccessToken (w 0) c).c).c ∧
      (Shared.run w ⟨c, [], [Caller.start, Caller.start]⟩
          (List.replicate 6 0 ++ List.replicate 6 1)).calls
        = (GetAccessToken (w 0) c).calls
            ++ (GetAccessToken (w 1) (GetAccessToken (w 0) c).c).calls) ∧
    ((GetAccessToken (w 0) c).err = none →
      (GetAccessToken (w 0) c).c.accessToken ≠ "" →
      (w 1).now.nsec ≤ (GetAccessToken (w 0) c).c.tokenExpiry.nsec →
      (GetAccessToken (w 1) (GetAccessToken (w 0) c).c).val = (GetAccessToken (w 0) c).val ∧
      (GetAccessToken (w 1) (GetAccessToken (w 0) c).c).err = none ∧
      (GetAccessToken (w 1) (GetAccessToken (w 0) c).c).calls = [] ∧
      (GetAccessToken (w 1) (GetAccessToken (w 0) c).c).c = (GetAccessToken (w 0) c).c ∧
      exchanges (Shared.run w ⟨c, [], [Caller.start, Caller.start]⟩
          (List.replicate 6 0 ++ List.replicate 6 1)).calls ≤ 1 ∧
      (c.accessToken = "" ∨ (w 0).now.After c.tokenExpiry = true →
        exchanges (Shared.run w ⟨c, [], [Caller.start, Caller.start]⟩
          (List.replicate 6 0 ++ List.replicate 6 1)).calls = 1)) ∧
    (∀ (v : Outside) (c1 c2 : client) (a : Option String) (b : Option Time),
      (c1.accessToken = "" → (Caller.step v c1 ⟨.checkToken, a, b⟩).2.2.pc = .post) ∧
      (v.now.After c1.tokenExpiry = true →
        (Caller.step v c1 ⟨.checkExpiry, a, b⟩).2.2.pc = .post) ∧
      (Caller.step v c2 ⟨.post, a, b⟩).2.1 = [Call.Post tokenEndpoint (formData c2)] ∧
      (Caller.step v c2 ⟨.post, a, b⟩).1 = c2) := by
  obtain ⟨a, b, h1⟩ := solo_GetAccessToken w c [] [Caller.start] 0 (by simp)
  have h1' : Shared.run w ⟨c, [], [Caller.start]⟩ (List.replicate 6 0) = _ := h1
  obtain ⟨a0, b0, a1, b1, h2⟩ := serial_two w c
  refine ⟨?_, ?_, ?_, ?_⟩
  rotate_left 3
  · intro v c1 c2 a b
    refine ⟨fun h => by rw [step_checkToken_empty v c1 a b h],
      fun h => by rw [step_checkExpiry_after v c1 a b h], ?_, ?_⟩
    · cases hp : v.Post tokenEndpoint (formData c2) with
      | fail err => rw [step_post_fail v c2 a b err hp]
      | ok res =>
        by_cases hs : res.StatusCode = 200
        · rw [step_post_ok v c2 a b res hp hs]
        · rw [step_post_status v c2 a b res hp hs]
    · cases hp : v.Post tokenEndpoint (formData c2) with
      | fail err => rw [step_post_fail v c2 a b err hp]
      | ok res =>
        by_cases hs : res.StatusCode = 200
        · rw [step_post_ok v c2 a b res hp hs]
        · rw [step_post_status v c2 a b res hp hs]
  · rw [h1']
    exact ⟨rfl, rfl, by simp⟩
  · rw [h2]
    exact ⟨rfl, rfl, rfl⟩
  · intro herr htok hexp
    have hcached : ¬ ((GetAccessToken (w 0) c).c.accessToken = "" ∨
        (w 1).now.After (GetAccessToken (w 0) c).c.tokenExpiry = true) := by
      rintro (h | h)
      · exact htok h
      · rw [After_iff] at h
        omega
    rw [h2]
    rw [GetAccessToken_cached (w 1) _ hcached]
    refine ⟨(GetAccessToken_val_stored (w 0) c herr).symm, rfl, rfl, rfl, ?_, ?_⟩
    · simpa using exchanges_GetAccessToken_le (w 0) c
    · intro hneed
      simp only [List.append_nil]
      have hc : (GetAccessToken (w 0) c).calls = [Call.Post tokenEndpoint (formData c)] := by
        rw [GetAccessToken_refresh (w 0) c hneed]
        have := authenticate_calls (w 0) c
        rcases hA : authenticate (w 0) c with ⟨_ | err, c1, cl⟩ <;> simp_all
      rw [hc, exchanges_single]

set_option maxRecDepth 100000 in
/-- Witness of the amended C21: two calls, one after the other, on a client without a
token, the token endpoint answering 200 with the token `new`, valid 3600 s, at clock
value 1000: the second call makes no exchange and returns `new`. -/
theorem GetAccessToken_serialised_witness :
    (GetAccessToken
        ⟨⟨1000, 0⟩, fun _ _ => .ok ⟨200, "", ⟨"new", "Bearer", 3600, "navigator"⟩⟩, ⟨1000, 0⟩⟩
        (GetAccessToken
          ⟨⟨1000, 0⟩, fun _ _ => .ok ⟨200, "", ⟨"new", "Bearer", 3600, "navigator"⟩⟩,
            ⟨1000, 0⟩⟩
          ⟨"id", "secret", "", ⟨0, 0⟩⟩).c).calls = [] ∧
    exchanges (Shared.run
        (fun _ => ⟨⟨1000, 0⟩,
          fun _ _ => .ok ⟨200, "", ⟨"new", "Bearer", 3600, "navigator"⟩⟩, ⟨1000, 0⟩⟩)
        ⟨⟨"id", "secret", "", ⟨0, 0⟩⟩, [], [Caller.start, Caller.start]⟩
        (List.replicate 6 0 ++ List.replicate 6 1)).calls = 1 := by
  have h := (GetAccessToken_serialised
    (fun _ => ⟨⟨1000, 0⟩,
      fun _ _ => .ok ⟨200, "", ⟨"new", "Bearer", 3600, "navigator"⟩⟩, ⟨1000, 0⟩⟩)
    ⟨"id", "secret", "", ⟨0, 0⟩⟩).2.2.1 (by decide) (by decide) (by decide)
  exact ⟨h.2.2.1, h.2.2.2.2.2 (Or.inl rfl)⟩

end Eon
